import Mathlib

/-!
ManagedFlightPlan: a shallow embedding.

Source: `workingtitle-core-library/.../FlightPlan/ManagedFlightPlan.js`.

Conventions of the embedding.

* JavaScript numbers that serve as indices are `Int`; an omitted argument
  (`undefined`) is `none` of an `Option`.
* Latitudes, longitudes, bearings and distances are rationals; the rounding of
  floating point arithmetic is not modelled.
* `Avionics.Utils` is not part of the repository; its two great-circle
  functions are taken as a parameter (`AvionicsUtils`).
* A JavaScript object is mutated in place and an exception does not roll a
  mutation back: a method that can throw returns an `Outcome`, which carries
  the plan as it stands when the call returns or throws.
-/

set_option autoImplicit false

namespace FlightPlan

/-! ## JavaScript array primitives -/

/-- The element read `xs[i]` of a JavaScript array: `undefined` (here `none`)
for a negative index and for an index past the end. -/
def jsIndex {α : Type} (xs : List α) (i : Int) : Option α :=
  if 0 ≤ i then xs.get? i.toNat else none

/-- The position at which `Array.prototype.splice(start, ...)` acts: a negative
`start` counts from the end and is clamped at `0`, any other `start` is clamped
at the length. -/
def jsSpliceStart (len : Nat) (start : Int) : Nat :=
  if start < 0 then (Int.ofNat len + start).toNat else min start.toNat len

/-- The array after `xs.splice(start, 0, x)`. -/
def jsSpliceInsert {α : Type} (xs : List α) (start : Int) (x : α) : List α :=
  xs.take (jsSpliceStart xs.length start) ++ x :: xs.drop (jsSpliceStart xs.length start)

/-- The array after `xs.splice(start, 1)`. -/
def jsSpliceRemove {α : Type} (xs : List α) (start : Int) : List α :=
  xs.eraseIdx (jsSpliceStart xs.length start)

/-- The array `xs.slice(start, stop)`: each end is clamped the way the start
of a `splice` is, and nothing is taken when the ends are out of order. -/
def jsSlice {α : Type} (xs : List α) (start stop : Int) : List α :=
  (xs.take (jsSpliceStart xs.length stop)).drop (jsSpliceStart xs.length start)

/-! ## Data model -/

/-- The `LatLongAlt` of the simulator: a position. -/
structure LatLongAlt where
  lat : ℚ
  long : ℚ
  alt : ℚ
  deriving DecidableEq

/-- The interface `ProcedureLeg` (`FSTypes.d.ts`): one leg of a published
procedure; `type` is the leg kind. -/
structure ProcedureLeg where
  type : Int
  fixIcao : String
  originIcao : String
  altDesc : ℚ
  altitude1 : ℚ
  altitude2 : ℚ
  course : ℚ
  distance : ℚ
  rho : ℚ
  theta : ℚ
  deriving DecidableEq

/-- A runway transition of a departure or an arrival; `name` is filled in by
`RawDataMapper.toWaypoint`. -/
structure RunwayTransition where
  runwayNumber : Int
  runwayDesignation : Int
  legs : List ProcedureLeg
  name : String
  deriving DecidableEq

/-- An enroute transition of a departure or an arrival, or a transition of an
approach; for the latter `name` is filled in by `RawDataMapper.toWaypoint`. -/
structure EnrouteTransition where
  legs : List ProcedureLeg
  name : String
  deriving DecidableEq

/-- A departure of an airport. -/
structure Departure where
  runwayTransitions : List RunwayTransition
  commonLegs : List ProcedureLeg
  enRouteTransitions : List EnrouteTransition
  deriving DecidableEq

/-- An arrival of an airport. -/
structure Arrival where
  enRouteTransitions : List EnrouteTransition
  commonLegs : List ProcedureLeg
  runwayTransitions : List RunwayTransition
  deriving DecidableEq

/-- An approach of an airport. -/
structure Approach where
  transitions : List EnrouteTransition
  finalLegs : List ProcedureLeg
  deriving DecidableEq

/-- A runway record of a facility, as far as the repository reads it. -/
structure Runway where
  designation : String
  deriving DecidableEq

/-- The interface `OneWayRunway` (`FSTypes.d.ts`). -/
structure OneWayRunway where
  designation : String
  deriving DecidableEq

/-- What the class `AirportInfo` adds to `WayPointInfo` (`FSTypes.d.ts`). -/
structure AirportInfo where
  departures : List Departure
  approaches : List Approach
  arrivals : List Arrival
  runways : List Runway
  oneWayRunways : List OneWayRunway
  deriving DecidableEq

/-- The class `WayPointInfo` as far as the flight plan reads and writes it.
The field `airport` holds the data of an `infos` of class `AirportInfo` and is
`none` for every other class, where `infos.departures`, `infos.arrivals` and
`infos.approaches` are `undefined`. -/
structure WayPointInfo where
  coordinates : LatLongAlt
  ident : String := ""
  airport : Option AirportInfo := none
  deriving DecidableEq

/-- The property `infos.enRouteTransitions`: no class of `infos` declares it
(`FSTypes.d.ts`) and nothing in the repository assigns it, so reading it gives
`undefined`, here `none`. -/
def WayPointInfo.enRouteTransitions (_infos : WayPointInfo) : Option (List EnrouteTransition) :=
  none

/-- The `WayPoint` of the simulator (`FSTypes.d.ts`). The tag `type` is `"A"`
for an airport. The last three fields are the derived fields that a reflow
recomputes. -/
structure WayPoint where
  icao : String
  ident : String
  type : String
  infos : WayPointInfo
  bearingInFP : ℚ
  distanceInFP : ℚ
  cumulativeDistanceInFP : ℚ
  deriving DecidableEq

/-- The waypoint with its three derived fields blanked: what identifies the
waypoint, whatever a reflow has stored in it. -/
def WayPoint.stripDerived (w : WayPoint) : WayPoint :=
  { w with bearingInFP := 0, distanceInFP := 0, cumulativeDistanceInFP := 0 }

/-- The test `waypoint.type === 'A'`. -/
def WayPoint.isAirport (w : WayPoint) : Bool :=
  decide (w.type = "A")

/-- The class `ProcedureDetails`. The field `approachSelected` is read by the
reflow but not declared by the constructor, where it is `undefined`, which is
falsy: `false` here. -/
structure ProcedureDetails where
  departureIndex : Int
  departureTransitionIndex : Int
  departureRunwayIndex : Int
  arrivalIndex : Int
  arrivalTransitionIndex : Int
  arrivalRunwayIndex : Int
  approachIndex : Int
  approachTransitionIndex : Int
  approachSelected : Bool
  deriving DecidableEq

/-- The state `new ProcedureDetails()`. -/
def ProcedureDetails.new : ProcedureDetails :=
  { departureIndex := -1, departureTransitionIndex := -1, departureRunwayIndex := -1,
    arrivalIndex := -1, arrivalTransitionIndex := -1, arrivalRunwayIndex := -1,
    approachIndex := -1, approachTransitionIndex := -1, approachSelected := false }

/-- The class `DirectTo`. The empty object `{}` of the fields `waypoint` and
`origin` is `none`. -/
structure DirectTo where
  waypointIsInFlightPlan : Bool
  isActive : Bool
  waypoint : Option WayPoint
  waypointIndex : Int
  origin : Option WayPoint
  deriving DecidableEq

/-- The state `new DirectTo()`. -/
def DirectTo.new : DirectTo :=
  { waypointIsInFlightPlan := false, isActive := false, waypoint := none,
    waypointIndex := 0, origin := none }

/-- The class `ManagedFlightPlan` (the attached instrument is left out: no
operation modelled here reads it). -/
structure ManagedFlightPlan where
  _waypoints : List WayPoint
  _hasOrigin : Bool
  _hasDestination : Bool
  departureStart : Int
  enrouteStart : Int
  arrivalStart : Int
  approachStart : Int
  cruiseAltitude : ℚ
  activeWaypointIndex : Int
  procedureDetails : ProcedureDetails
  directTo : DirectTo
  deriving DecidableEq

/-- The constructor `new ManagedFlightPlan()`. -/
def ManagedFlightPlan.new : ManagedFlightPlan :=
  { _waypoints := [], _hasOrigin := false, _hasDestination := false,
    departureStart := -1, enrouteStart := -1, arrivalStart := -1, approachStart := -1,
    cruiseAltitude := 0, activeWaypointIndex := 0,
    procedureDetails := ProcedureDetails.new, directTo := DirectTo.new }

/-- The getter `length`. -/
def ManagedFlightPlan.length (p : ManagedFlightPlan) : Nat :=
  p._waypoints.length

/-- The getter `hasOrigin`. -/
def ManagedFlightPlan.hasOrigin (p : ManagedFlightPlan) : Bool :=
  p._hasOrigin

/-- The getter `hasDestination`. -/
def ManagedFlightPlan.hasDestination (p : ManagedFlightPlan) : Bool :=
  p._hasDestination

/-- The two functions of `Avionics.Utils` that the reflow calls. -/
structure AvionicsUtils where
  computeGreatCircleHeading : LatLongAlt → LatLongAlt → ℚ
  computeGreatCircleDistance : LatLongAlt → LatLongAlt → ℚ

/-- How a call ends: it returns, or it throws (a `TypeError` on reading a
property of `undefined`); either way the plan is left as given. -/
inductive Outcome where
  | returned (plan : ManagedFlightPlan)
  | threw (plan : ManagedFlightPlan)
  deriving DecidableEq

/-- The plan as the call leaves it. -/
def Outcome.plan : Outcome → ManagedFlightPlan
  | Outcome.returned p => p
  | Outcome.threw p => p

/-- Whether the call threw. -/
def Outcome.hasThrown : Outcome → Bool
  | Outcome.returned _ => false
  | Outcome.threw _ => true

/-! ## Operations -/

/-- The method `getWaypoint(index)`; `undefined` is `none`. -/
def getWaypoint (p : ManagedFlightPlan) (index : Int) : Option WayPoint :=
  if index ≥ 0 ∧ index < Int.ofNat p._waypoints.length then jsIndex p._waypoints index else none

/-- The end of `_shiftSegmentIndexes`, after the three-way branch: the active
index and the in-plan direct-to index move up when the insertion index is
below them. -/
def shiftActiveAndDirectTo (p : ManagedFlightPlan) (index : Int) : ManagedFlightPlan :=
  let p2 : ManagedFlightPlan :=
    if index < p.activeWaypointIndex then
      { p with activeWaypointIndex := p.activeWaypointIndex + 1 }
    else p
  if p2.directTo.isActive = true ∧ p2.directTo.waypointIsInFlightPlan = true
      ∧ index < p2.directTo.waypointIndex then
    { p2 with directTo := { p2.directTo with waypointIndex := p2.directTo.waypointIndex + 1 } }
  else p2

/-- The method `_shiftSegmentIndexes(waypoint, index)`, called once the
waypoint is in `_waypoints`. It is declared `async` but holds no `await`, so it
runs to its end inside the call. -/
def _shiftSegmentIndexes (p : ManagedFlightPlan) (waypoint : WayPoint) (index : Int) :
    ManagedFlightPlan :=
  let p1 : ManagedFlightPlan :=
    if index = 0 ∧ waypoint.type = "A" then
      let enrouteStart := p.enrouteStart + 1
      let arrivalStart := max (enrouteStart + 1) (p.arrivalStart + 1)
      let approachStart := max arrivalStart (p.approachStart + 1)
      { p with _hasOrigin := true, departureStart := 1, enrouteStart := enrouteStart,
               arrivalStart := arrivalStart, approachStart := approachStart }
    else if index = Int.ofNat p._waypoints.length - 1 ∧ Int.ofNat p._waypoints.length > 1
        ∧ waypoint.type = "A" then
      { p with _hasDestination := true }
    else
      let enrouteStart := if index < p.enrouteStart then p.enrouteStart + 1 else p.enrouteStart
      let arrivalStart :=
        if index ≤ p.arrivalStart then max (enrouteStart + 1) (p.arrivalStart + 1)
        else p.arrivalStart
      let approachStart :=
        if index ≤ p.approachStart then max arrivalStart (p.approachStart + 1)
        else p.approachStart
      { p with enrouteStart := enrouteStart, arrivalStart := arrivalStart,
               approachStart := approachStart }
  shiftActiveAndDirectTo p1 index

/-- The test `waypoint.type === 'A'` on a value that may be `undefined`:
reading `type` of `undefined` throws, which is `none`. -/
def typeIsAirport (waypoint : Option WayPoint) : Option Bool :=
  waypoint.map WayPoint.isAirport

/-- The end of `_unshiftSegmentIndexes`, after the three-way branch: the active
index and the in-plan direct-to index move down when the removal index is
below them. -/
def unshiftActiveAndDirectTo (p : ManagedFlightPlan) (index : Int) : ManagedFlightPlan :=
  let p2 : ManagedFlightPlan :=
    if index < p.activeWaypointIndex then
      { p with activeWaypointIndex := p.activeWaypointIndex - 1 }
    else p
  if p2.directTo.isActive = true ∧ p2.directTo.waypointIsInFlightPlan = true
      ∧ index < p2.directTo.waypointIndex then
    { p2 with directTo := { p2.directTo with waypointIndex := p2.directTo.waypointIndex - 1 } }
  else p2

/-- The method `_unshiftSegmentIndexes(waypoint, index)`, called once the
waypoint is out of `_waypoints`; `waypoint` is `undefined` when nothing was
removed. The operator `&&` reads `waypoint.type` only when what stands before
it holds. The result is `none` when the method throws, which it can do only
before it has assigned anything. -/
def _unshiftSegmentIndexes (p : ManagedFlightPlan) (waypoint : Option WayPoint) (index : Int) :
    Option ManagedFlightPlan :=
  match (if index = 0 then typeIsAirport waypoint else some false) with
  | none => none
  | some true =>
    some (unshiftActiveAndDirectTo
      { p with _hasOrigin := false, departureStart := 0,
               enrouteStart := p.enrouteStart - 1,
               arrivalStart := p.arrivalStart - 1,
               approachStart := p.approachStart - 1 } index)
  | some false =>
    match (if index = Int.ofNat p._waypoints.length - 1 ∧ Int.ofNat p._waypoints.length > 1
            then typeIsAirport waypoint else some false) with
    | none => none
    | some true => some (unshiftActiveAndDirectTo { p with _hasDestination := false } index)
    | some false =>
      let approachStart := if index < p.approachStart then p.approachStart - 1 else p.approachStart
      let arrivalStart := if index < p.arrivalStart then p.arrivalStart - 1 else p.arrivalStart
      let enrouteStart := if index < p.enrouteStart then p.enrouteStart - 1 else p.enrouteStart
      some (unshiftActiveAndDirectTo
        { p with enrouteStart := enrouteStart, arrivalStart := arrivalStart,
                 approachStart := approachStart } index)

/-- The loop of `_reflowDistances` from index `i` on: `all` is the whole array
(the loop reads only coordinates from it, which it never writes), `rest` the
waypoints from `i` on, `cumulativeDistance` the running sum. The result is the
waypoints from `i` on as the loop leaves them, and whether it threw: reading
`infos` of an `undefined` waypoint throws and leaves the waypoints from there
on as they were. -/
def reflowLoop (u : AvionicsUtils) (approachSelected : Bool) (all : List WayPoint) :
    Nat → ℚ → List WayPoint → List WayPoint × Bool
  | _, _, [] => ([], false)
  | i, cumulativeDistance, referenceWaypoint :: rest =>
    if i > 0 then
      let waypoint : Option WayPoint :=
        if approachSelected = true ∧ Int.ofNat i = Int.ofNat all.length - 2
        then jsIndex all (Int.ofNat i + 1) else jsIndex all (Int.ofNat i)
      let prevWaypoint : Option WayPoint :=
        if approachSelected = true ∧ Int.ofNat i = Int.ofNat all.length - 1
        then jsIndex all (Int.ofNat i - 2) else jsIndex all (Int.ofNat i - 1)
      match prevWaypoint, waypoint with
      | some prev, some wp =>
        let distance := u.computeGreatCircleDistance prev.infos.coordinates wp.infos.coordinates
        let updated : WayPoint :=
          { referenceWaypoint with
              bearingInFP :=
                u.computeGreatCircleHeading prev.infos.coordinates wp.infos.coordinates,
              distanceInFP := distance,
              cumulativeDistanceInFP := cumulativeDistance + distance }
        let next := reflowLoop u approachSelected all (i + 1) (cumulativeDistance + distance) rest
        (updated :: next.1, next.2)
      | _, _ => (referenceWaypoint :: rest, true)
    else
      let next := reflowLoop u approachSelected all (i + 1) cumulativeDistance rest
      (referenceWaypoint :: next.1, next.2)

/-- The method `_reflowDistances()`. -/
def _reflowDistances (u : AvionicsUtils) (p : ManagedFlightPlan) : Outcome :=
  let r := reflowLoop u p.procedureDetails.approachSelected p._waypoints 0 0 p._waypoints
  if r.2 = true then Outcome.threw { p with _waypoints := r.1 }
  else Outcome.returned { p with _waypoints := r.1 }

/-- The method `addWaypoint(waypoint, index)`, from the mapped waypoint on
(`RawDataMapper.toWaypoint` has been applied to a raw facility record). The
call to `_shiftSegmentIndexes` gets the index `length - 1` after a push. -/
def addWaypoint (u : AvionicsUtils) (p : ManagedFlightPlan) (waypoint : WayPoint)
    (index : Option Int) : Outcome :=
  let pushed : ManagedFlightPlan × Int :=
    ({ p with _waypoints := p._waypoints ++ [waypoint] },
      Int.ofNat (p._waypoints ++ [waypoint]).length - 1)
  let r : ManagedFlightPlan × Int :=
    match index with
    | none => pushed
    | some i =>
      if i ≥ Int.ofNat p._waypoints.length then pushed
      else ({ p with _waypoints := jsSpliceInsert p._waypoints i waypoint }, i)
  _reflowDistances u (_shiftSegmentIndexes r.1 waypoint r.2)

/-- The method `removeWaypoint(index)`. On the pop path the index handed to
`_unshiftSegmentIndexes` is the length before the pop. When
`_unshiftSegmentIndexes` throws, the reflow is not reached. -/
def removeWaypoint (u : AvionicsUtils) (p : ManagedFlightPlan) (index : Option Int) : Outcome :=
  let popped : ManagedFlightPlan × Option WayPoint × Int :=
    ({ p with _waypoints := p._waypoints.dropLast }, p._waypoints.getLast?,
      Int.ofNat p._waypoints.length)
  let r : ManagedFlightPlan × Option WayPoint × Int :=
    match index with
    | none => popped
    | some i =>
      if i ≥ Int.ofNat p._waypoints.length then popped
      else ({ p with _waypoints := jsSpliceRemove p._waypoints i }, jsIndex p._waypoints i, i)
  match _unshiftSegmentIndexes r.1 r.2.1 r.2.2 with
  | none => Outcome.threw r.1
  | some q => _reflowDistances u q

/-- One mutating call on a plan. -/
inductive Op where
  | add (waypoint : WayPoint) (index : Option Int)
  | remove (index : Option Int)

/-- The plan after one call, thrown or not. -/
def Op.apply (u : AvionicsUtils) (p : ManagedFlightPlan) : Op → ManagedFlightPlan
  | Op.add w i => (addWaypoint u p w i).plan
  | Op.remove i => (removeWaypoint u p i).plan

/-- The plan after a sequence of calls, first call first. -/
def runOps (u : AvionicsUtils) (p : ManagedFlightPlan) (ops : List Op) : ManagedFlightPlan :=
  ops.foldl (Op.apply u) p

/-- The method `clearPlan()`. It resets every field but the array, awaits
`GPS.clearPlan()`, which acts on the simulator only, and then empties the
array; `gpsResolves` tells whether that await resolves. The field
`approachSelected` of the new `ProcedureDetails` is `undefined`. -/
def clearPlan (gpsResolves : Bool) (p : ManagedFlightPlan) : Outcome :=
  let p1 : ManagedFlightPlan :=
    { p with _hasOrigin := false, _hasDestination := false,
             arrivalStart := -1, enrouteStart := -1, approachStart := -1, departureStart := -1,
             cruiseAltitude := 0, activeWaypointIndex := 0,
             procedureDetails := ProcedureDetails.new, directTo := DirectTo.new }
  if gpsResolves = true then Outcome.returned { p1 with _waypoints := [] }
  else Outcome.threw p1

/-- The class `FlightPlanSegment`: an offset and the waypoints. -/
structure FlightPlanSegment where
  offset : Int
  waypoints : List WayPoint
  deriving DecidableEq

/-- The getter `departure`. -/
def ManagedFlightPlan.departure (p : ManagedFlightPlan) : FlightPlanSegment :=
  { offset := 0, waypoints := jsSlice p._waypoints 0 p.enrouteStart }

/-- The getter `enroute`. -/
def ManagedFlightPlan.enroute (p : ManagedFlightPlan) : FlightPlanSegment :=
  { offset := p.enrouteStart, waypoints := jsSlice p._waypoints p.enrouteStart p.arrivalStart }

/-- The getter `arrival`. -/
def ManagedFlightPlan.arrival (p : ManagedFlightPlan) : FlightPlanSegment :=
  { offset := p.arrivalStart, waypoints := jsSlice p._waypoints p.arrivalStart p.approachStart }

/-- The getter `approach`. -/
def ManagedFlightPlan.approach (p : ManagedFlightPlan) : FlightPlanSegment :=
  { offset := p.approachStart,
    waypoints := jsSlice p._waypoints p.approachStart (Int.ofNat p._waypoints.length) }

/-- The index that `addWaypoint(waypoint, index)` hands to
`_shiftSegmentIndexes`: the old length after a push, `index` itself after a
`splice`. For an `index` that is not negative it is the index at which the
waypoint then stands. -/
def insertionIndex (p : ManagedFlightPlan) (index : Option Int) : Int :=
  match index with
  | none => Int.ofNat p._waypoints.length
  | some i => if i ≥ Int.ofNat p._waypoints.length then Int.ofNat p._waypoints.length else i

/-! ## JavaScript string and number primitives

Strings are taken to hold characters of the basic plane only, so that an index
into a string counts characters. -/

/-- White space and line terminators in the sense of `String.prototype.trim`
and of `parseInt`. -/
def jsIsWhiteSpace (c : Char) : Bool :=
  (9 ≤ c.toNat && c.toNat ≤ 13) || c.toNat == 32 || c.toNat == 160 || c.toNat == 5760
    || (8192 ≤ c.toNat && c.toNat ≤ 8202) || c.toNat == 8232 || c.toNat == 8233
    || c.toNat == 8239 || c.toNat == 8287 || c.toNat == 12288 || c.toNat == 65279

/-- The method `String.prototype.trim`. -/
def jsTrim (s : String) : String :=
  String.mk ((s.toList.dropWhile jsIsWhiteSpace).reverse.dropWhile jsIsWhiteSpace).reverse

/-- The method `String.prototype.substring(start, end)`: both indices are
clamped at the length and swapped when out of order. -/
def jsSubstring (s : String) (start stop : Nat) : String :=
  String.mk
    ((s.toList.drop (min (min start s.length) (min stop s.length))).take
      (max (min start s.length) (min stop s.length)
        - min (min start s.length) (min stop s.length)))

/-- The read `s[0]` of a string, as a string; the `undefined` of the empty
string is the empty string here. -/
def jsFirstChar (s : String) : String :=
  String.mk (s.toList.take 1)

/-- The function `Math.trunc` on a rational: the integer part, toward zero. -/
def jsTrunc (q : ℚ) : Int :=
  if 0 ≤ q then ⌊q⌋ else ⌈q⌉

/-- The value of a digit in a radix up to sixteen. -/
def digitValue (radix : Nat) (c : Char) : Option Nat :=
  let v : Option Nat :=
    if 48 ≤ c.toNat ∧ c.toNat ≤ 57 then some (c.toNat - 48)
    else if 97 ≤ c.toNat ∧ c.toNat ≤ 102 then some (c.toNat - 87)
    else if 65 ≤ c.toNat ∧ c.toNat ≤ 70 then some (c.toNat - 55)
    else none
  match v with
  | some d => if d < radix then some d else none
  | none => none

/-- The value of the longest prefix of digits, `none` when there is no digit. -/
def parseDigits (radix : Nat) : List Char → Option Nat → Option Nat
  | [], acc => acc
  | c :: cs, acc =>
    match digitValue radix c with
    | some d => parseDigits radix cs (some (acc.getD 0 * radix + d))
    | none => acc

/-- The function `parseInt(string)` without a radix: leading white space, a
sign, a `0x` prefix for radix sixteen, then the longest prefix of digits;
`NaN` is `none`. -/
def jsParseInt (s : String) : Option Int :=
  let body (negative : Bool) (cs : List Char) : Option Int :=
    let digits : Option Nat :=
      match cs with
      | '0' :: 'x' :: t => parseDigits 16 t none
      | '0' :: 'X' :: t => parseDigits 16 t none
      | _ => parseDigits 10 cs none
    match digits with
    | some n => some (if negative = true then - Int.ofNat n else Int.ofNat n)
    | none => none
  match s.toList.dropWhile jsIsWhiteSpace with
  | '-' :: t => body true t
  | '+' :: t => body false t
  | cs => body false cs

/-- One insertion of the built-in sort: `x` goes before the first element that
the comparator puts after it; a `NaN` from the comparator counts as `0`. -/
def jsSortInsert {α : Type} (compare : α → α → Option Int) (x : α) : List α → List α
  | [] => [x]
  | y :: ys =>
    if (compare y x).getD 0 > 0 then x :: y :: ys
    else y :: jsSortInsert compare x ys

/-- The method `Array.prototype.sort(compare)`, taken as a stable insertion
sort: for a comparator that is a consistent ordering every conforming sort
gives this array. -/
def jsSort {α : Type} (compare : α → α → Option Int) (xs : List α) : List α :=
  xs.foldl (fun sorted x => jsSortInsert compare x sorted) []

/-! ## Facilities and the mapping to waypoints -/

/-- A raw facility record of the facility loader. The four lists are those of
an airport record and are empty on any other record, which never reads them. -/
structure Facility where
  icao : String
  lat : ℚ
  lon : ℚ
  approaches : List Approach
  departures : List Departure
  arrivals : List Arrival
  runways : List Runway
  deriving DecidableEq

/-- What the decoder and the mapper call outside the repository: the functions
of `Avionics.Utils`, those of `Math` (floating point, taken as given functions
on rationals), the rendering of a number inside a template string, the
facility loader (`none` when the lookup resolves with nothing), and
`Runway.splitIfTwoWays`. -/
structure Simulator where
  utils : AvionicsUtils
  bearingDistanceToCoordinates : ℚ → ℚ → ℚ → ℚ → LatLongAlt
  sin : ℚ → ℚ
  cos : ℚ → ℚ
  tan : ℚ → ℚ
  asin : ℚ → ℚ
  acos : ℚ → ℚ
  atan : ℚ → ℚ
  numberToString : ℚ → String
  getFacilityRaw : String → Option Facility
  splitIfTwoWays : Runway → List OneWayRunway

/-- The expression `icao.substring(7, 12).trim()`: the identifier inside an
ICAO string. -/
def icaoIdent (icao : String) : String :=
  jsTrim (jsSubstring icao 7 12)

/-- The rank of the suffix of a runway designation in `sortRunways`. -/
def runwaySuffixRank (designation : String) : Int :=
  if 'L' ∈ designation.toList then 1
  else if 'C' ∈ designation.toList then 2
  else if 'R' ∈ designation.toList then 3
  else 0

/-- The comparer `RawDataMapper.sortRunways(r1, r2)`; `NaN` is `none`. -/
def RawDataMapper.sortRunways (r1 r2 : OneWayRunway) : Option Int :=
  match jsParseInt r1.designation, jsParseInt r2.designation with
  | some n1, some n2 =>
    if n1 = n2 then some (runwaySuffixRank r1.designation - runwaySuffixRank r2.designation)
    else some (n1 - n2)
  | _, _ => none

/-- The function `RawDataMapper.generateRunwayTransitionName`. -/
def RawDataMapper.generateRunwayTransitionName (runwayTransition : RunwayTransition) : String :=
  if runwayTransition.runwayDesignation = 1 then
    "RW" ++ toString runwayTransition.runwayNumber ++ "L"
  else if runwayTransition.runwayDesignation = 2 then
    "RW" ++ toString runwayTransition.runwayNumber ++ "R"
  else if runwayTransition.runwayDesignation = 3 then
    "RW" ++ toString runwayTransition.runwayNumber ++ "C"
  else "RW" ++ toString runwayTransition.runwayNumber

/-- The naming of the transitions of one approach in `toWaypoint`:
`trans.name = trans.legs[0].fixIcao.substring(7, 12).trim()`, which throws
(`none`) on a transition without legs. -/
def nameApproachTransitions : List EnrouteTransition → Option (List EnrouteTransition)
  | [] => some []
  | transition :: rest =>
    match transition.legs with
    | [] => none
    | leg :: _ =>
      match nameApproachTransitions rest with
      | none => none
      | some named => some ({ transition with name := icaoIdent leg.fixIcao } :: named)

/-- The naming of the transitions of all approaches in `toWaypoint`. -/
def nameApproaches : List Approach → Option (List Approach)
  | [] => some []
  | approach :: rest =>
    match nameApproachTransitions approach.transitions with
    | none => none
    | some transitions =>
      match nameApproaches rest with
      | none => none
      | some named => some ({ approach with transitions := transitions } :: named)

/-- The naming of runway transitions in `toWaypoint`. -/
def nameRunwayTransitions (transitions : List RunwayTransition) : List RunwayTransition :=
  transitions.map
    (fun transition =>
      { transition with name := RawDataMapper.generateRunwayTransitionName transition })

/-- The function `RawDataMapper.toWaypoint(facility, instrument)`; `none` when
it throws. A waypoint fresh from `new WayPoint(instrument)` has its derived
fields at `0`. -/
def RawDataMapper.toWaypoint (sim : Simulator) (facility : Facility) : Option WayPoint :=
  let coordinates : LatLongAlt := { lat := facility.lat, long := facility.lon, alt := 0 }
  let waypoint (infos : WayPointInfo) : WayPoint :=
    { icao := facility.icao, ident := icaoIdent facility.icao,
      type := jsFirstChar facility.icao, infos := infos,
      bearingInFP := 0, distanceInFP := 0, cumulativeDistanceInFP := 0 }
  if jsFirstChar facility.icao = "A" then
    match nameApproaches facility.approaches with
    | none => none
    | some approaches =>
      some (waypoint
        { coordinates := coordinates,
          airport := some
            { approaches := approaches,
              departures := facility.departures.map
                (fun departure =>
                  { departure with
                    runwayTransitions := nameRunwayTransitions departure.runwayTransitions }),
              arrivals := facility.arrivals.map
                (fun arrival =>
                  { arrival with
                    runwayTransitions := nameRunwayTransitions arrival.runwayTransitions }),
              runways := facility.runways,
              oneWayRunways :=
                jsSort RawDataMapper.sortRunways (facility.runways.flatMap sim.splitIfTwoWays) } })
  else some (waypoint { coordinates := coordinates })

/-! ## The procedure-leg decoder -/

/-- The class `LegsProcedure`. The starting point is `this._waypoints[0]` of
the plan that builds the procedure, which is `undefined` on an empty plan. -/
structure LegsProcedure where
  _legs : List ProcedureLeg
  _previousFix : Option WayPoint
  _currentIndex : Int
  deriving DecidableEq

/-- The constructor `new LegsProcedure(legs, startingPoint, instrument)`. -/
def LegsProcedure.new (legs : List ProcedureLeg) (startingPoint : Option WayPoint) :
    LegsProcedure :=
  { _legs := legs, _previousFix := startingPoint, _currentIndex := 0 }

/-- The method `hasNext()`. -/
def LegsProcedure.hasNext (procedure : LegsProcedure) : Bool :=
  decide (procedure._currentIndex < Int.ofNat procedure._legs.length)

/-- The waypoint that every synthesising decoder builds: a new `WayPoint` of
type `'W'` whose `infos` is a new `IntersectionInfo` with the coordinates, and
the identifier on both. -/
def intersectionWaypoint (coordinates : LatLongAlt) (ident : String) : WayPoint :=
  { icao := "", ident := ident, type := "W",
    infos := { coordinates := coordinates, ident := ident },
    bearingInFP := 0, distanceInFP := 0, cumulativeDistanceInFP := 0 }

/-- The method `mapHeadingUntilDistanceFromOrigin(leg, prevLeg)`; `none` when
it throws (the origin does not resolve, or there is no previous fix). -/
def LegsProcedure.mapHeadingUntilDistanceFromOrigin (sim : Simulator) (leg : ProcedureLeg)
    (prevLeg : Option WayPoint) : Option WayPoint :=
  match sim.getFacilityRaw leg.originIcao, prevLeg with
  | some origin, some prev =>
    let originCoordinates : LatLongAlt := { lat := origin.lat, long := origin.lon, alt := 0 }
    let bearingToOrigin :=
      sim.utils.computeGreatCircleHeading prev.infos.coordinates originCoordinates
    let distanceToOrigin :=
      sim.utils.computeGreatCircleDistance prev.infos.coordinates originCoordinates
    let distanceAngle :=
      sim.asin ((sim.sin distanceToOrigin * sim.sin bearingToOrigin) / sim.sin leg.distance)
    let legDistance :=
      2 * sim.atan (sim.tan (0.5 * (leg.distance - distanceToOrigin))
        * (sim.sin (0.5 * (bearingToOrigin + distanceAngle))
            / sim.sin (0.5 * (bearingToOrigin - distanceAngle))))
    some (intersectionWaypoint
      (sim.bearingDistanceToCoordinates leg.course legDistance
        prev.infos.coordinates.lat prev.infos.coordinates.long)
      (icaoIdent origin.icao ++ toString (jsTrunc legDistance)))
  | _, _ => none

/-- The method `mapBearingAndDistanceFromOrigin(leg)`; `none` when it throws
(the origin does not resolve). -/
def LegsProcedure.mapBearingAndDistanceFromOrigin (sim : Simulator) (leg : ProcedureLeg) :
    Option WayPoint :=
  match sim.getFacilityRaw leg.originIcao with
  | some origin =>
    some (intersectionWaypoint
      (sim.bearingDistanceToCoordinates leg.course (leg.distance / 1852) origin.lat origin.lon)
      (icaoIdent origin.icao ++ toString (jsTrunc (leg.distance / 1852))))
  | none => none

/-- The method `mapExactFix(leg)`; `none` when it throws (neither the fix nor
the origin resolves, or `toWaypoint` throws). -/
def LegsProcedure.mapExactFix (sim : Simulator) (leg : ProcedureLeg) : Option WayPoint :=
  match sim.getFacilityRaw leg.fixIcao with
  | some facility => RawDataMapper.toWaypoint sim facility
  | none =>
    match sim.getFacilityRaw leg.originIcao with
    | some origin =>
      some (intersectionWaypoint
        (sim.bearingDistanceToCoordinates leg.theta (leg.rho / 1852) origin.lat origin.lon)
        (icaoIdent origin.icao ++ toString (jsTrunc (leg.rho / 1852))))
    | none => none

/-- The method `mapOriginRadialForDistance(leg, prevLeg)`; `none` when it
throws. -/
def LegsProcedure.mapOriginRadialForDistance (sim : Simulator) (leg : ProcedureLeg)
    (prevLeg : Option WayPoint) : Option WayPoint :=
  if jsTrim leg.fixIcao ≠ "" then LegsProcedure.mapExactFix sim leg
  else
    match sim.getFacilityRaw leg.originIcao, prevLeg with
    | some origin, some prev =>
      let coordinates :=
        sim.bearingDistanceToCoordinates leg.course (leg.distance / 1852)
          prev.infos.coordinates.lat prev.infos.coordinates.long
      let distanceFromOrigin :=
        sim.utils.computeGreatCircleDistance
          { lat := origin.lat, long := origin.lon, alt := 0 } coordinates
      some (intersectionWaypoint coordinates
        (icaoIdent origin.icao ++ toString (jsTrunc (distanceFromOrigin / 1852))))
    | _, _ => none

/-- The method `mapHeadingToIntercept(leg, prevLeg, nextLeg)`; `none` when it
throws (there is no next leg, its origin does not resolve, or there is no
previous fix). -/
def LegsProcedure.mapHeadingToIntercept (sim : Simulator) (leg : ProcedureLeg)
    (prevLeg : Option WayPoint) (nextLeg : Option ProcedureLeg) : Option WayPoint :=
  match nextLeg with
  | none => none
  | some next =>
    match sim.getFacilityRaw next.originIcao, prevLeg with
    | some nextOrigin, some prev =>
      let originCoordinates : LatLongAlt :=
        { lat := nextOrigin.lat, long := nextOrigin.lon, alt := 0 }
      let distanceFromOrigin :=
        sim.utils.computeGreatCircleDistance prev.infos.coordinates originCoordinates
      let bearingToOrigin :=
        sim.utils.computeGreatCircleHeading prev.infos.coordinates originCoordinates
      let bearingFromOrigin :=
        sim.utils.computeGreatCircleHeading originCoordinates prev.infos.coordinates
      let ang1 := bearingToOrigin - leg.course
      let ang2 := bearingFromOrigin - next.course
      let ang3 :=
        sim.acos (sim.sin ang1 * sim.sin ang2 * sim.sin distanceFromOrigin
          - sim.cos ang1 * sim.cos ang2)
      let legDistance :=
        sim.acos ((sim.cos ang1 + sim.cos ang2 * sim.cos ang3) / sim.sin ang1 * sim.sin ang3)
      some (intersectionWaypoint
        (sim.bearingDistanceToCoordinates leg.course legDistance
          prev.infos.coordinates.lat prev.infos.coordinates.long)
        ("T" ++ sim.numberToString leg.course ++ icaoIdent nextOrigin.icao))
    | _, _ => none

/-- The `switch` of `getNext` on the kind of the current leg: the outer `none`
is the `default` case (the kind is not recognized), the inner `none` a decoder
that throws. -/
def LegsProcedure.mapLeg (sim : Simulator) (procedure : LegsProcedure)
    (currentLeg : ProcedureLeg) : Option (Option WayPoint) :=
  if currentLeg.type = 3 then
    some (LegsProcedure.mapHeadingUntilDistanceFromOrigin sim currentLeg procedure._previousFix)
  else if currentLeg.type = 4 then
    some (LegsProcedure.mapOriginRadialForDistance sim currentLeg procedure._previousFix)
  else if currentLeg.type = 5 then
    some (LegsProcedure.mapHeadingToIntercept sim currentLeg procedure._previousFix
      (jsIndex procedure._legs (procedure._currentIndex + 1)))
  else if currentLeg.type = 9 then
    some (LegsProcedure.mapBearingAndDistanceFromOrigin sim currentLeg)
  else if currentLeg.type = 15 ∨ currentLeg.type = 17 ∨ currentLeg.type = 18 then
    some (LegsProcedure.mapExactFix sim currentLeg)
  else none

/-- How a call of `getNext` ends: it returns a waypoint, it throws, or its
loop is still running when the fuel is spent. Each carries the procedure as it
then stands. -/
inductive GetNextResult where
  | returned (waypoint : WayPoint) (procedure : LegsProcedure)
  | threw (procedure : LegsProcedure)
  | running (procedure : LegsProcedure)
  deriving DecidableEq

/-- The loop `while (!isLegMappable)` of `getNext`, one iteration for each unit
of fuel. The constant `currentLeg` is read once, before the loop, and is
`undefined` past the end of the legs, where reading its `type` throws. An
iteration on a recognized kind maps the leg, increments `_currentIndex` and
ends the loop; after the loop `_previousFix` is set. An iteration on the
`default` case only increments `_currentIndex`. -/
def LegsProcedure.getNextLoop (sim : Simulator) (currentLeg : Option ProcedureLeg) :
    Nat → LegsProcedure → GetNextResult
  | 0, procedure => GetNextResult.running procedure
  | fuel + 1, procedure =>
    match currentLeg with
    | none => GetNextResult.threw procedure
    | some leg =>
      match LegsProcedure.mapLeg sim procedure leg with
      | some (some mappedLeg) =>
        GetNextResult.returned mappedLeg
          { procedure with _currentIndex := procedure._currentIndex + 1,
                           _previousFix := some mappedLeg }
      | some none => GetNextResult.threw procedure
      | none =>
        LegsProcedure.getNextLoop sim currentLeg fuel
          { procedure with _currentIndex := procedure._currentIndex + 1 }

/-- The method `getNext()`, with fuel for its loop. -/
def LegsProcedure.getNext (sim : Simulator) (fuel : Nat) (procedure : LegsProcedure) :
    GetNextResult :=
  LegsProcedure.getNextLoop sim (jsIndex procedure._legs procedure._currentIndex) fuel procedure

/-- How the caller's loop `while (procedure.hasNext()) procedure.getNext()`
ends, with the waypoints produced so far. -/
inductive DrainResult where
  | finished (produced : List WayPoint) (procedure : LegsProcedure)
  | threw (produced : List WayPoint) (procedure : LegsProcedure)
  | running (produced : List WayPoint) (procedure : LegsProcedure)
  deriving DecidableEq

/-- The caller's loop `while (procedure.hasNext()) procedure.getNext()`, as
the build operations run it, with `inner` units of fuel for each `getNext` and
one unit of the other fuel for each call. -/
def LegsProcedure.drain (sim : Simulator) (inner : Nat) :
    Nat → LegsProcedure → List WayPoint → DrainResult
  | 0, procedure, produced =>
    if procedure.hasNext = true then DrainResult.running produced procedure
    else DrainResult.finished produced procedure
  | fuel + 1, procedure, produced =>
    if procedure.hasNext = true then
      match LegsProcedure.getNext sim inner procedure with
      | GetNextResult.returned waypoint next =>
        LegsProcedure.drain sim inner fuel next (produced ++ [waypoint])
      | GetNextResult.threw next => DrainResult.threw produced next
      | GetNextResult.running next => DrainResult.running produced next
    else DrainResult.finished produced procedure

/-- The reading of the specification: the waypoints of the legs from index `k`
on, each the decoding of its leg with the waypoint decoded before it (the
starting point, for the first) as previous fix; `none` when a leg has no
decoding (its kind is not recognized, or its decoder throws). -/
def decodingsInTurn (sim : Simulator) (legs : List ProcedureLeg) :
    List ProcedureLeg → Int → Option WayPoint → Option (List WayPoint)
  | [], _, _ => some []
  | leg :: rest, k, previousFix =>
    match LegsProcedure.mapLeg sim
        { _legs := legs, _previousFix := previousFix, _currentIndex := k } leg with
    | some (some waypoint) =>
      match decodingsInTurn sim legs rest (k + 1) (some waypoint) with
      | some waypoints => some (waypoint :: waypoints)
      | none => none
    | _ => none

/-! ## Procedure assembly -/

/-- How a build operation ends: it returns, it throws, or one of its loops is
still running when the fuel is spent. Each carries the plan as it then
stands. -/
inductive BuildResult where
  | returned (plan : ManagedFlightPlan)
  | threw (plan : ManagedFlightPlan)
  | running (plan : ManagedFlightPlan)
  deriving DecidableEq

/-- The plan as the build operation leaves it. -/
def BuildResult.plan : BuildResult → ManagedFlightPlan
  | BuildResult.returned p => p
  | BuildResult.threw p => p
  | BuildResult.running p => p

/-- Whether the build operation returned. -/
def BuildResult.hasReturned : BuildResult → Bool
  | BuildResult.returned _ => true
  | BuildResult.threw _ => false
  | BuildResult.running _ => false

/-- The assembly of the leg list at the head of `buildDeparture`; `none` when
it throws: on a plan without waypoints, on an origin whose `infos` is not an
`AirportInfo`, on an index past the end of its list, and on reading
`origin.infos.enRouteTransitions[transitionIndex]`. -/
def buildDepartureLegs (p : ManagedFlightPlan) : Option (List ProcedureLeg) :=
  let origin : Option WayPoint := jsIndex p._waypoints 0
  let departure : Option Departure :=
    match origin with
    | some o =>
      match o.infos.airport with
      | some airport => jsIndex airport.departures p.procedureDetails.departureIndex
      | none => none
    | none => none
  let runwayLegs : Option (List ProcedureLeg) :=
    if p.procedureDetails.departureIndex ≠ -1 ∧ p.procedureDetails.departureRunwayIndex ≠ -1 then
      match departure with
      | some d =>
        match jsIndex d.runwayTransitions p.procedureDetails.departureRunwayIndex with
        | some runwayTransition => some runwayTransition.legs
        | none => none
      | none => none
    else some []
  let commonLegs : Option (List ProcedureLeg) :=
    if p.procedureDetails.departureIndex ≠ -1 then
      match departure with
      | some d => some d.commonLegs
      | none => none
    else some []
  let transitionLegs : Option (List ProcedureLeg) :=
    if p.procedureDetails.departureTransitionIndex ≠ -1 then
      match origin with
      | some o =>
        match o.infos.enRouteTransitions with
        | some transitions =>
          match jsIndex transitions p.procedureDetails.departureTransitionIndex with
          | some transition => some transition.legs
          | none => none
        | none => none
      | none => none
    else some []
  match runwayLegs, commonLegs, transitionLegs with
  | some r, some c, some t => some (r ++ c ++ t)
  | _, _, _ => none

/-- The leg list of a departure as the specification writes it: the legs of
the selected runway transition, then the common legs, then the legs of the
selected enroute transition of the departure; a group whose index is `-1`
gives no legs. -/
def departureLegsBySelection (airport : AirportInfo) (departureIndex runwayIndex
    transitionIndex : Int) : List ProcedureLeg :=
  match jsIndex airport.departures departureIndex with
  | none => []
  | some departure =>
    (match jsIndex departure.runwayTransitions runwayIndex with
      | some runwayTransition => runwayTransition.legs
      | none => [])
    ++ departure.commonLegs
    ++ (match jsIndex departure.enRouteTransitions transitionIndex with
      | some transition => transition.legs
      | none => [])

/-- The removal loop of a build operation,
`for (var i = start; i < upper; i++) await this.removeWaypoint(i)`, where
`upper` is read from the plan at every test; one iteration for each unit of
fuel. -/
def removeSegment (u : AvionicsUtils) (upper : ManagedFlightPlan → Int) :
    Nat → Int → ManagedFlightPlan → BuildResult
  | 0, i, p => if i < upper p then BuildResult.running p else BuildResult.returned p
  | fuel + 1, i, p =>
    if i < upper p then
      match removeWaypoint u p (some i) with
      | Outcome.returned q => removeSegment u upper fuel (i + 1) q
      | Outcome.threw q => BuildResult.threw q
    else BuildResult.returned p

/-- The removal loop of `buildDeparture`: from `departureStart` while
`i < enrouteStart`. -/
def removeDepartureSegment (u : AvionicsUtils) (fuel : Nat) (p : ManagedFlightPlan) :
    BuildResult :=
  removeSegment u (fun q => q.enrouteStart) fuel p.departureStart p

/-- The removal loop of `buildArrival`: from `arrivalStart` while
`i < approachStart`. -/
def removeArrivalSegment (u : AvionicsUtils) (fuel : Nat) (p : ManagedFlightPlan) :
    BuildResult :=
  removeSegment u (fun q => q.approachStart) fuel p.arrivalStart p

/-- The removal loop of `buildApproach`: from `approachStart` while
`i < length - 2`. -/
def removeApproachSegment (u : AvionicsUtils) (fuel : Nat) (p : ManagedFlightPlan) :
    BuildResult :=
  removeSegment u (fun q => Int.ofNat q._waypoints.length - 2) fuel p.approachStart p

/-- The insertion loop of a build operation,
`while (procedure.hasNext()) await this.addWaypoint(await procedure.getNext(), ++waypointIndex)`:
the waypoint is decoded first, then the index is incremented, then the
waypoint is added at the incremented index. One iteration for each unit of
fuel, and `inner` units for each `getNext`. -/
def insertProcedure (sim : Simulator) (inner : Nat) :
    Nat → LegsProcedure → Int → ManagedFlightPlan → BuildResult
  | 0, procedure, _, p =>
    if procedure.hasNext = true then BuildResult.running p else BuildResult.returned p
  | fuel + 1, procedure, waypointIndex, p =>
    if procedure.hasNext = true then
      match LegsProcedure.getNext sim inner procedure with
      | GetNextResult.returned waypoint next =>
        match addWaypoint sim.utils p waypoint (some (waypointIndex + 1)) with
        | Outcome.returned q => insertProcedure sim inner fuel next (waypointIndex + 1) q
        | Outcome.threw q => BuildResult.threw q
      | GetNextResult.threw _ => BuildResult.threw p
      | GetNextResult.running _ => BuildResult.running p
    else BuildResult.returned p

/-- The method `buildDeparture()`, with `fuel` units of fuel for each of its
loops. -/
def buildDeparture (sim : Simulator) (fuel : Nat) (p : ManagedFlightPlan) : BuildResult :=
  match buildDepartureLegs p with
  | none => BuildResult.threw p
  | some legs =>
    match removeDepartureSegment sim.utils fuel p with
    | BuildResult.returned q =>
      insertProcedure sim fuel fuel (LegsProcedure.new legs (jsIndex q._waypoints 0))
        q.departureStart q
    | BuildResult.threw q => BuildResult.threw q
    | BuildResult.running q => BuildResult.running q

/-- The assembly of the leg list at the head of `buildArrival`; `none` when it
throws: on a plan without waypoints, on a destination whose `infos` is not an
`AirportInfo`, and on an index past the end of its list. The destination is
the last waypoint of the plan. -/
def buildArrivalLegs (p : ManagedFlightPlan) : Option (List ProcedureLeg) :=
  let destination : Option WayPoint :=
    jsIndex p._waypoints (Int.ofNat p._waypoints.length - 1)
  let arrival : Option Arrival :=
    match destination with
    | some d =>
      match d.infos.airport with
      | some airport => jsIndex airport.arrivals p.procedureDetails.arrivalIndex
      | none => none
    | none => none
  let transitionLegs : Option (List ProcedureLeg) :=
    if p.procedureDetails.arrivalIndex ≠ -1 ∧ p.procedureDetails.arrivalTransitionIndex ≠ -1 then
      match arrival with
      | some a =>
        match jsIndex a.enRouteTransitions p.procedureDetails.arrivalTransitionIndex with
        | some transition => some transition.legs
        | none => none
      | none => none
    else some []
  let commonLegs : Option (List ProcedureLeg) :=
    if p.procedureDetails.arrivalIndex ≠ -1 then
      match arrival with
      | some a => some a.commonLegs
      | none => none
    else some []
  let runwayLegs : Option (List ProcedureLeg) :=
    if p.procedureDetails.arrivalIndex ≠ -1 ∧ p.procedureDetails.arrivalRunwayIndex ≠ -1 then
      match arrival with
      | some a =>
        match jsIndex a.runwayTransitions p.procedureDetails.arrivalRunwayIndex with
        | some runwayTransition => some runwayTransition.legs
        | none => none
      | none => none
    else some []
  match transitionLegs, commonLegs, runwayLegs with
  | some t, some c, some r => some (t ++ c ++ r)
  | _, _, _ => none

/-- The assembly of the leg list at the head of `buildApproach`; `none` when
it throws. The destination is the last waypoint of the plan. -/
def buildApproachLegs (p : ManagedFlightPlan) : Option (List ProcedureLeg) :=
  let destination : Option WayPoint :=
    jsIndex p._waypoints (Int.ofNat p._waypoints.length - 1)
  let approach : Option Approach :=
    match destination with
    | some d =>
      match d.infos.airport with
      | some airport => jsIndex airport.approaches p.procedureDetails.approachIndex
      | none => none
    | none => none
  let transitionLegs : Option (List ProcedureLeg) :=
    if p.procedureDetails.approachIndex ≠ -1
        ∧ p.procedureDetails.approachTransitionIndex ≠ -1 then
      match approach with
      | some a =>
        match jsIndex a.transitions p.procedureDetails.approachTransitionIndex with
        | some transition => some transition.legs
        | none => none
      | none => none
    else some []
  let finalLegs : Option (List ProcedureLeg) :=
    if p.procedureDetails.approachIndex ≠ -1 then
      match approach with
      | some a => some a.finalLegs
      | none => none
    else some []
  match transitionLegs, finalLegs with
  | some t, some f => some (t ++ f)
  | _, _ => none

/-- The method `buildArrival()`, with `fuel` units of fuel for each of its
loops. The decoder is built on `this._waypoints[0]`, read after the removal
loop. -/
def buildArrival (sim : Simulator) (fuel : Nat) (p : ManagedFlightPlan) : BuildResult :=
  match buildArrivalLegs p with
  | none => BuildResult.threw p
  | some legs =>
    match removeArrivalSegment sim.utils fuel p with
    | BuildResult.returned q =>
      insertProcedure sim fuel fuel (LegsProcedure.new legs (jsIndex q._waypoints 0))
        q.arrivalStart q
    | BuildResult.threw q => BuildResult.threw q
    | BuildResult.running q => BuildResult.running q

/-- The method `buildApproach()`, with `fuel` units of fuel for each of its
loops. The decoder is built on `this._waypoints[0]`, read after the removal
loop. -/
def buildApproach (sim : Simulator) (fuel : Nat) (p : ManagedFlightPlan) : BuildResult :=
  match buildApproachLegs p with
  | none => BuildResult.threw p
  | some legs =>
    match removeApproachSegment sim.utils fuel p with
    | BuildResult.returned q =>
      insertProcedure sim fuel fuel (LegsProcedure.new legs (jsIndex q._waypoints 0))
        q.approachStart q
    | BuildResult.threw q => BuildResult.threw q
    | BuildResult.running q => BuildResult.running q

/-! ## The sanitized copy

`copySanitized` walks the plan as a tree of JavaScript values, whatever their
class, and deletes properties by name. The plan is therefore taken here as
such a tree, not as a `ManagedFlightPlan`. -/

/-- A JavaScript value as `copySanitized` sees it, a finite tree. A
`primitive` is a number, a boolean, `undefined` or a function: a value whose
`typeof` is not `'object'` and from which `Object.assign` copies nothing. A
string is kept apart, because `Object.assign` copies its characters. An object
is the list of its own enumerable properties, in order, with distinct keys. -/
inductive JsValue where
  | primitive (text : String)
  | string (text : String)
  | null
  | object (fields : List (String × JsValue))
  | array (items : List JsValue)

/-- The properties after `delete obj[key]`. -/
def jsDelete (key : String) (fields : List (String × JsValue)) : List (String × JsValue) :=
  fields.filter (fun field => decide (field.1 ≠ key))

/-- The read `obj[key]`; `undefined` is `none`. -/
def jsGet (key : String) (fields : List (String × JsValue)) : Option JsValue :=
  (fields.find? (fun field => decide (field.1 = key))).map Prod.snd

/-- The properties after `obj[key] = value`: a property that exists keeps its
place, a new one goes to the end. -/
def jsSet (key : String) (value : JsValue) (fields : List (String × JsValue)) :
    List (String × JsValue) :=
  if fields.any (fun field => decide (field.1 = key)) = true then
    fields.map (fun field => if field.1 = key then (key, value) else field)
  else fields ++ [(key, value)]

/-- The properties of `Object.assign({}, value)`: the own enumerable properties
of the value, which for an array and for a string are its indices, and none
for `null`, `undefined` and the other primitives. -/
def objectAssign : JsValue → List (String × JsValue)
  | JsValue.object fields => fields
  | JsValue.array items => items.enum.map (fun item => (toString item.1, item.2))
  | JsValue.string text =>
    text.toList.enum.map (fun item => (toString item.1, JsValue.string (String.singleton item.2)))
  | JsValue.primitive _ => []
  | JsValue.null => []

mutual
/-- The local function `visitObject(obj)` of `copySanitized`: it copies the
object or the array, deletes `instrument` and `_svgElements` from the copy and
visits every property that is left and whose `typeof` is `'object'`. The guard
of the loop is folded in: a value that is not an object is not visited, which
is the first two cases. `Object.assign({}, null)` is an empty object. -/
def visitObject : JsValue → JsValue
  | JsValue.primitive text => JsValue.primitive text
  | JsValue.string text => JsValue.string text
  | JsValue.null => JsValue.object []
  | JsValue.object fields => JsValue.object (visitFields fields)
  | JsValue.array items => JsValue.array (visitItems items)
/-- The properties of an object after the two deletions and the loop of
`visitObject`: a deleted property is gone before the loop, which so never
reaches its value. -/
def visitFields : List (String × JsValue) → List (String × JsValue)
  | [] => []
  | (key, value) :: rest =>
    if key = "instrument" ∨ key = "_svgElements" then visitFields rest
    else (key, visitObject value) :: visitFields rest
/-- The elements of an array after the loop of `visitObject`. -/
def visitItems : List JsValue → List JsValue
  | [] => []
  | value :: rest => visitObject value :: visitItems rest
end

/-- The callback of `this._waypoints.map` in `copySanitized`: a shallow copy
of the waypoint, a shallow copy of its `infos`, then `visitObject`. -/
def sanitizeWaypoint (waypoint : JsValue) : JsValue :=
  let clone := objectAssign waypoint
  let infos : List (String × JsValue) :=
    match jsGet "infos" clone with
    | some value => objectAssign value
    | none => []
  visitObject (JsValue.object (jsSet "infos" (JsValue.object infos) clone))

/-- The method `copySanitized()` on the plan as an object: a shallow copy of
the plan without `_parentInstrument`, whose `_waypoints` is the array of the
sanitized waypoints. Every other property of the copy, `directTo` and
`procedureDetails` among them, is the value that the plan holds. The result is
`none` when `this._waypoints.map` throws, `_waypoints` not being an array. -/
def copySanitized (plan : List (String × JsValue)) : Option (List (String × JsValue)) :=
  match jsGet "_waypoints" plan with
  | some (JsValue.array waypoints) =>
    some (jsSet "_waypoints" (JsValue.array (waypoints.map sanitizeWaypoint))
      (jsDelete "_parentInstrument" plan))
  | _ => none

/-! ## Predicates of the specification -/

/-- The ordering of the segment boundaries as the specification writes it:
`0 ≤ departureStart ≤ enrouteStart ≤ arrivalStart ≤ approachStart ≤ length`. -/
def SegmentsWithinPlan (p : ManagedFlightPlan) : Prop :=
  0 ≤ p.departureStart ∧ p.departureStart ≤ p.enrouteStart ∧ p.enrouteStart ≤ p.arrivalStart
    ∧ p.arrivalStart ≤ p.approachStart ∧ p.approachStart ≤ Int.ofNat p.length

instance (p : ManagedFlightPlan) : Decidable (SegmentsWithinPlan p) := by
  unfold SegmentsWithinPlan
  infer_instance

/-- The part of the ordering that the code keeps: the three movable boundaries
are ordered, and `departureStart` is `-1` (never set), `0` or `1`. -/
def BoundariesOrdered (p : ManagedFlightPlan) : Prop :=
  p.enrouteStart ≤ p.arrivalStart ∧ p.arrivalStart ≤ p.approachStart
    ∧ -1 ≤ p.departureStart ∧ p.departureStart ≤ 1

instance (p : ManagedFlightPlan) : Decidable (BoundariesOrdered p) := by
  unfold BoundariesOrdered
  infer_instance

/-- Whether the first waypoint of the plan is an airport. -/
def firstIsAirport (p : ManagedFlightPlan) : Bool :=
  match p._waypoints.head? with
  | some w => w.isAirport
  | none => false

/-- Whether the last waypoint of the plan is an airport. -/
def lastIsAirport (p : ManagedFlightPlan) : Bool :=
  match p._waypoints.getLast? with
  | some w => w.isAirport
  | none => false

/-- The reading of the two flags as the specification writes it: `hasOrigin`
iff the first waypoint is an airport and there is another waypoint,
`hasDestination` iff the last waypoint is an airport and there is another
waypoint. -/
def FlagsMatchEnds (p : ManagedFlightPlan) : Prop :=
  (p.hasOrigin = true ↔ (firstIsAirport p = true ∧ 2 ≤ p.length)) ∧
  (p.hasDestination = true ↔ (lastIsAirport p = true ∧ 2 ≤ p.length))

instance (p : ManagedFlightPlan) : Decidable (FlagsMatchEnds p) := by
  unfold FlagsMatchEnds
  infer_instance

/-- The active index is valid: an index of a waypoint, or equal to the length
of the empty plan. -/
def ActiveIndexValid (p : ManagedFlightPlan) : Prop :=
  (0 ≤ p.activeWaypointIndex ∧ p.activeWaypointIndex < Int.ofNat p.length)
    ∨ (p.length = 0 ∧ p.activeWaypointIndex = Int.ofNat p.length)

instance (p : ManagedFlightPlan) : Decidable (ActiveIndexValid p) := by
  unfold ActiveIndexValid
  infer_instance

/-- The reading of the derived fields as the specification writes it, for a
plan without a selected approach: every waypoint but the first carries the
great-circle distance and heading from the coordinates of the waypoint before
it to its own. -/
def DerivedFromNeighbours (u : AvionicsUtils) (p : ManagedFlightPlan) : Prop :=
  ∀ (i : Nat) (a b : WayPoint), 0 < i →
    p._waypoints.get? (i - 1) = some a → p._waypoints.get? i = some b →
      b.distanceInFP
          = u.computeGreatCircleDistance a.infos.coordinates b.infos.coordinates ∧
      b.bearingInFP
          = u.computeGreatCircleHeading a.infos.coordinates b.infos.coordinates

/-- The reading of the cumulative distance as the specification writes it:
every waypoint but the first carries the cumulative distance of the waypoint
before it plus its own distance. -/
def CumulativeFromPrevious (p : ManagedFlightPlan) : Prop :=
  ∀ (i : Nat) (a b : WayPoint), 0 < i →
    p._waypoints.get? (i - 1) = some a → p._waypoints.get? i = some b →
      b.cumulativeDistanceInFP = a.cumulativeDistanceInFP + b.distanceInFP

/-- The move of a boundary on an insertion at `i` as the specification writes
it: a boundary at or after `i`, equality included, ends strictly greater, and
a boundary before `i` is unchanged. -/
def MovesAtOrAfter (i before after : Int) : Prop :=
  (i ≤ before → before < after) ∧ (before < i → after = before)

instance (i before after : Int) : Decidable (MovesAtOrAfter i before after) := by
  unfold MovesAtOrAfter
  infer_instance

/-- The move of an index on an insertion at `i` as the specification writes
it: incremented by one exactly when `i` is at or before it, equality
included. -/
def IncrementedAtOrAfter (i before after : Int) : Prop :=
  (i ≤ before → after = before + 1) ∧ (before < i → after = before)

instance (i before after : Int) : Decidable (IncrementedAtOrAfter i before after) := by
  unfold IncrementedAtOrAfter
  infer_instance

/-- The reading of "removal mirrors insertion" of the specification: the state
`t` has the boundaries, the flags and the active index of the state `s`, the
boundary `departureStart` when `s` has an origin. -/
def Restores (s t : ManagedFlightPlan) : Prop :=
  (s._hasOrigin = true → t.departureStart = s.departureStart) ∧
  t.enrouteStart = s.enrouteStart ∧ t.arrivalStart = s.arrivalStart ∧
  t.approachStart = s.approachStart ∧ t._hasOrigin = s._hasOrigin ∧
  t._hasDestination = s._hasDestination ∧ t.activeWaypointIndex = s.activeWaypointIndex

instance (s t : ManagedFlightPlan) : Decidable (Restores s t) := by
  unfold Restores
  infer_instance

/-- The three derived fields of a waypoint: bearing, distance and cumulative
distance in the plan. -/
def WayPoint.derived (w : WayPoint) : ℚ × ℚ × ℚ :=
  (w.bearingInFP, w.distanceInFP, w.cumulativeDistanceInFP)

/-- The waypoints with the coordinates of the waypoint at index `k` replaced,
and nothing else changed. -/
def setCoordinatesAt : Nat → LatLongAlt → List WayPoint → List WayPoint
  | _, _, [] => []
  | 0, c, w :: ws => { w with infos := { w.infos with coordinates := c } } :: ws
  | k + 1, c, w :: ws => w :: setCoordinatesAt k c ws

/-- The plan with the coordinates of its second-to-last waypoint replaced. -/
def withMarkerAt (p : ManagedFlightPlan) (c : LatLongAlt) : ManagedFlightPlan :=
  { p with _waypoints := setCoordinatesAt (p._waypoints.length - 2) c p._waypoints }

mutual
/-- Whether the value, or a value inside it at any depth, is an object with a
property named by one of `keys`. -/
def carries (keys : List String) : JsValue → Bool
  | JsValue.primitive _ => false
  | JsValue.string _ => false
  | JsValue.null => false
  | JsValue.object fields => carriesFields keys fields
  | JsValue.array items => carriesItems keys items
/-- Whether one of the properties is named by one of `keys`, or holds a value
that carries one. -/
def carriesFields (keys : List String) : List (String × JsValue) → Bool
  | [] => false
  | (key, value) :: rest => keys.contains key || carries keys value || carriesFields keys rest
/-- Whether one of the elements carries a property named by one of `keys`. -/
def carriesItems (keys : List String) : List JsValue → Bool
  | [] => false
  | value :: rest => carries keys value || carriesItems keys rest
end

/-- The names of the references that the sanitized copy is to be free of. -/
def unserializableKeys : List String :=
  ["_parentInstrument", "instrument", "_svgElements"]

/-! ## Sample data for evaluation -/

/-- A stand-in for `Avionics.Utils` on a flat grid. -/
def gridUtils : AvionicsUtils :=
  { computeGreatCircleHeading := fun _ _ => 0,
    computeGreatCircleDistance := fun a b => |b.lat - a.lat| + |b.long - a.long| }

/-- A waypoint of the given type and identifier at the given position, with
derived fields not yet computed. -/
def sampleWaypoint (type ident : String) (lat long : ℚ) : WayPoint :=
  { icao := ident, ident := ident, type := type,
    infos := { coordinates := { lat := lat, long := long, alt := 0 } },
    bearingInFP := 0, distanceInFP := 0, cumulativeDistanceInFP := 0 }

/-- An airport. -/
def wpA : WayPoint := sampleWaypoint "A" "KJFK" 40 (-73)

/-- A second airport. -/
def wpB : WayPoint := sampleWaypoint "A" "KBOS" 42 (-71)

/-- An intersection. -/
def wpW : WayPoint := sampleWaypoint "W" "MERIT" 41 (-73)

/-- A second intersection. -/
def wpX : WayPoint := sampleWaypoint "W" "ORW" 41 (-72)

/-- An exact-fix leg (kind 15) on the given fix, with the given origin. -/
def exactFixLeg (fixIcao originIcao : String) : ProcedureLeg :=
  { type := 15, fixIcao := fixIcao, originIcao := originIcao, altDesc := 0, altitude1 := 0,
    altitude2 := 0, course := 0, distance := 0, rho := 18520, theta := 90 }

/-- A leg of the given kind with a blank fix and the VOR `ABC` as origin. -/
def legOfKind (kind : Int) : ProcedureLeg :=
  { type := kind, fixIcao := "", originIcao := "V      ABC  ", altDesc := 0, altitude1 := 0,
    altitude2 := 0, course := 90, distance := 18520, rho := 18520, theta := 90 }

/-- The departure of the sample airport: a runway transition of two legs, one
common leg and an enroute transition of one leg. -/
def sampleDeparture : Departure :=
  { runwayTransitions :=
      [{ runwayNumber := 4, runwayDesignation := 1,
         legs := [exactFixLeg "W      MERIT" "", exactFixLeg "W      GREKI" ""], name := "" }],
    commonLegs := [exactFixLeg "W      ORW  " ""],
    enRouteTransitions := [{ legs := [exactFixLeg "W      BAF  " ""], name := "" }] }

/-- A facility loader that knows one airport with a departure, four
intersections and one VOR. -/
def sampleFacilities (icao : String) : Option Facility :=
  if icao = "A      KJFK " then
    some { icao := icao, lat := 40, lon := -73, approaches := [],
           departures := [sampleDeparture], arrivals := [], runways := [] }
  else if icao = "W      MERIT" then
    some { icao := icao, lat := 41, lon := -73, approaches := [], departures := [],
           arrivals := [], runways := [] }
  else if icao = "W      GREKI" then
    some { icao := icao, lat := 41, lon := -72, approaches := [], departures := [],
           arrivals := [], runways := [] }
  else if icao = "W      ORW  " then
    some { icao := icao, lat := 42, lon := -72, approaches := [], departures := [],
           arrivals := [], runways := [] }
  else if icao = "W      BAF  " then
    some { icao := icao, lat := 42, lon := -73, approaches := [], departures := [],
           arrivals := [], runways := [] }
  else if icao = "V      ABC  " then
    some { icao := icao, lat := 43, lon := -73, approaches := [], departures := [],
           arrivals := [], runways := [] }
  else none

/-- A stand-in for the simulator on a flat grid: the trigonometric functions
are stand-ins too, and a number is rendered by its integer part. -/
def gridSimulator : Simulator :=
  { utils := gridUtils,
    bearingDistanceToCoordinates :=
      fun _ distance lat long => { lat := lat + distance, long := long, alt := 0 },
    sin := fun x => x, cos := fun x => x, tan := fun x => x,
    asin := fun x => x, acos := fun x => x, atan := fun x => x,
    numberToString := fun x => toString (jsTrunc x),
    getFacilityRaw := sampleFacilities,
    splitIfTwoWays := fun runway => [{ designation := runway.designation }] }

/-- The sample airport as a waypoint: what `RawDataMapper.toWaypoint` makes of
its facility record. -/
def wpJFK : WayPoint :=
  { icao := "A      KJFK ", ident := "KJFK", type := "A",
    infos :=
      { coordinates := { lat := 40, long := -73, alt := 0 },
        airport := some
          { approaches := [],
            departures :=
              [{ sampleDeparture with
                 runwayTransitions := nameRunwayTransitions sampleDeparture.runwayTransitions }],
            arrivals := [], runways := [], oneWayRunways := [] } },
    bearingInFP := 0, distanceInFP := 0, cumulativeDistanceInFP := 0 }

/-- A plan of an origin, two departure waypoints and a destination, with the
boundaries where the specification puts them. -/
def planWithDeparture : ManagedFlightPlan :=
  { ManagedFlightPlan.new with
    _waypoints := [wpA, wpW, wpX, wpB], _hasOrigin := true, _hasDestination := true,
    departureStart := 1, enrouteStart := 3, arrivalStart := 3, approachStart := 3 }

/-- The plan that `addWaypoint` of the sample airport and then of a second
airport builds from a new plan, with the first departure and its first runway
transition selected. -/
def planWithSelection : ManagedFlightPlan :=
  { runOps gridUtils ManagedFlightPlan.new [Op.add wpJFK none, Op.add wpB none] with
    procedureDetails :=
      { ProcedureDetails.new with departureIndex := 0, departureRunwayIndex := 0 } }

/-- The intersection `MERIT` as `RawDataMapper.toWaypoint` makes it. -/
def wpMERIT : WayPoint :=
  { icao := "W      MERIT", ident := "MERIT", type := "W",
    infos := { coordinates := { lat := 41, long := -73, alt := 0 } },
    bearingInFP := 0, distanceInFP := 0, cumulativeDistanceInFP := 0 }

/-- The intersection `GREKI` as `RawDataMapper.toWaypoint` makes it. -/
def wpGREKI : WayPoint :=
  { icao := "W      GREKI", ident := "GREKI", type := "W",
    infos := { coordinates := { lat := 41, long := -72, alt := 0 } },
    bearingInFP := 0, distanceInFP := 0, cumulativeDistanceInFP := 0 }

/-- The plan that `addWaypoint` of an airport builds from a new plan. -/
def planOfOneAirport : ManagedFlightPlan :=
  runOps gridUtils ManagedFlightPlan.new [Op.add wpA none]

/-- The plan of one airport with a direct-to that is active and targets the
waypoint at index `0` of the plan. -/
def planWithDirectTo : ManagedFlightPlan :=
  { planOfOneAirport with
    directTo :=
      { DirectTo.new with isActive := true, waypointIsInFlightPlan := true, waypointIndex := 0 } }

/-- The plan that three calls of `addWaypoint` build from a new plan: an
airport, an airport at index `0`, an intersection at the end. -/
def planOfThree : ManagedFlightPlan :=
  runOps gridUtils ManagedFlightPlan.new [Op.add wpA none, Op.add wpB (some 0), Op.add wpX none]

/-- A plan of four waypoints with an approach selected. -/
def planWithApproach : ManagedFlightPlan :=
  { ManagedFlightPlan.new with
    _waypoints := [wpA, wpW, wpX, wpB],
    procedureDetails := { ProcedureDetails.new with approachSelected := true } }

/-- A destination airport with one arrival and one approach, each of one leg
of kind 4 with a blank fix: the leg is decoded by a projection from the
previous fix, which for the first leg is the anchor of the decoder. -/
def wpBOS : WayPoint :=
  { icao := "A      KBOS ", ident := "KBOS", type := "A",
    infos :=
      { coordinates := { lat := 42, long := -71, alt := 0 },
        airport := some
          { departures := [],
            approaches := [{ transitions := [], finalLegs := [legOfKind 4] }],
            arrivals :=
              [{ enRouteTransitions := [], commonLegs := [legOfKind 4],
                 runwayTransitions := [] }],
            runways := [], oneWayRunways := [] } },
    bearingInFP := 0, distanceInFP := 0, cumulativeDistanceInFP := 0 }

/-- The plan that `addWaypoint` of the sample origin and then of the sample
destination builds from a new plan, with the arrival and the approach of the
destination selected. -/
def planWithArrival : ManagedFlightPlan :=
  { runOps gridUtils ManagedFlightPlan.new [Op.add wpJFK none, Op.add wpBOS none] with
    procedureDetails := { ProcedureDetails.new with arrivalIndex := 0, approachIndex := 0 } }

/-- A waypoint as an object: it holds its instrument, and so does its `infos`,
which holds rendering elements too. -/
def sampleWaypointObject : JsValue :=
  JsValue.object
    [("ident", JsValue.string "MERIT"),
     ("instrument", JsValue.object [("name", JsValue.string "FMC")]),
     ("infos", JsValue.object
        [("coordinates", JsValue.object
            [("lat", JsValue.primitive "41"), ("long", JsValue.primitive "-73")]),
         ("instrument", JsValue.object [("name", JsValue.string "FMC")]),
         ("_svgElements", JsValue.array [JsValue.object []])])]

/-- A plan as an object: one waypoint, and a direct-to on a waypoint that is
not in the plan. -/
def samplePlanObject : List (String × JsValue) :=
  [("_parentInstrument", JsValue.object [("name", JsValue.string "FMC")]),
   ("_waypoints", JsValue.array [sampleWaypointObject]),
   ("activeWaypointIndex", JsValue.primitive "0"),
   ("directTo", JsValue.object
      [("waypointIsInFlightPlan", JsValue.primitive "false"),
       ("isActive", JsValue.primitive "true"),
       ("waypoint", sampleWaypointObject),
       ("waypointIndex", JsValue.primitive "0"),
       ("origin", JsValue.object [])])]

/-! ## Auxiliary facts -/

theorem jsSpliceStart_of_inRange (len : Nat) (i : Int) (h0 : 0 ≤ i) (h1 : i < Int.ofNat len) :
    jsSpliceStart len i = i.toNat := by
  unfold jsSpliceStart
  have hlt : ¬ i < 0 := by omega
  rw [if_neg hlt]
  have : i.toNat ≤ len := by
    have := Int.toNat_of_nonneg h0
    simp only [Int.ofNat_eq_coe] at h1
    omega
  exact Nat.min_eq_left this

theorem jsSpliceStart_le (len : Nat) (i : Int) : jsSpliceStart len i ≤ len := by
  unfold jsSpliceStart
  split
  · simp only [Int.ofNat_eq_coe]
    omega
  · exact Nat.min_le_right _ _

theorem jsSpliceStart_lt (len : Nat) (i : Int) (hlen : 0 < len) (h1 : i < Int.ofNat len) :
    jsSpliceStart len i < len := by
  unfold jsSpliceStart
  simp only [Int.ofNat_eq_coe] at h1 ⊢
  split
  · omega
  · have : i.toNat < len := by omega
    exact lt_of_le_of_lt (Nat.min_le_left _ _) this

theorem jsIndex_of_inRange {α : Type} (xs : List α) (i : Int) (h0 : 0 ≤ i)
    (h1 : i.toNat < xs.length) : jsIndex xs i = some (xs.get ⟨i.toNat, h1⟩) := by
  unfold jsIndex
  rw [if_pos h0]
  exact List.get?_eq_get h1

theorem reflowLoop_strip (u : AvionicsUtils) (sel : Bool) (all : List WayPoint) :
    ∀ (rest : List WayPoint) (i : Nat) (c : ℚ),
      (reflowLoop u sel all i c rest).1.map WayPoint.stripDerived
        = rest.map WayPoint.stripDerived := by
  intro rest
  induction rest with
  | nil => intro i c; simp [reflowLoop]
  | cons w rest ih =>
    intro i c
    simp only [reflowLoop]
    split_ifs <;> (try split) <;> simp [ih, WayPoint.stripDerived]

theorem reflow_plan (u : AvionicsUtils) (p : ManagedFlightPlan) :
    ∃ ws : List WayPoint,
      (_reflowDistances u p).plan = { p with _waypoints := ws } ∧
      ws.map WayPoint.stripDerived = p._waypoints.map WayPoint.stripDerived := by
  refine ⟨(reflowLoop u p.procedureDetails.approachSelected p._waypoints 0 0 p._waypoints).1,
    ?_, reflowLoop_strip _ _ _ _ _ _⟩
  unfold _reflowDistances
  simp only
  split <;> rfl

theorem shift_waypoints (p : ManagedFlightPlan) (w : WayPoint) (i : Int) :
    (_shiftSegmentIndexes p w i)._waypoints = p._waypoints := by
  simp only [_shiftSegmentIndexes, shiftActiveAndDirectTo]
  split_ifs <;> rfl

theorem unshift_waypoints (p q : ManagedFlightPlan) (w : Option WayPoint) (i : Int)
    (h : _unshiftSegmentIndexes p w i = some q) : q._waypoints = p._waypoints := by
  simp only [_unshiftSegmentIndexes, unshiftActiveAndDirectTo] at h
  split at h
  · exact absurd h (by simp)
  · simp only [Option.some.injEq] at h
    subst h
    split_ifs <;> rfl
  · split at h
    · exact absurd h (by simp)
    · simp only [Option.some.injEq] at h
      subst h
      split_ifs <;> rfl
    · simp only [Option.some.injEq] at h
      subst h
      split_ifs <;> rfl

theorem addWaypoint_push (u : AvionicsUtils) (p : ManagedFlightPlan) (w : WayPoint)
    (index : Option Int)
    (h : index = none ∨ ∃ i : Int, index = some i ∧ Int.ofNat p._waypoints.length ≤ i) :
    addWaypoint u p w index
      = _reflowDistances u
          (_shiftSegmentIndexes { p with _waypoints := p._waypoints ++ [w] } w
            (Int.ofNat p._waypoints.length)) := by
  have hlen : Int.ofNat (p._waypoints ++ [w]).length - 1 = Int.ofNat p._waypoints.length := by
    simp
  rcases h with h | ⟨i, h, hi⟩
  · subst h
    simp only [addWaypoint, hlen]
  · subst h
    have hi2 : i ≥ Int.ofNat p._waypoints.length := hi
    simp only [addWaypoint, hlen, if_pos hi2]

theorem addWaypoint_splice (u : AvionicsUtils) (p : ManagedFlightPlan) (w : WayPoint)
    (i : Int) (h : i < Int.ofNat p._waypoints.length) :
    addWaypoint u p w (some i)
      = _reflowDistances u
          (_shiftSegmentIndexes { p with _waypoints := jsSpliceInsert p._waypoints i w } w i) := by
  have hi2 : ¬ i ≥ Int.ofNat p._waypoints.length := by omega
  simp only [addWaypoint, if_neg hi2]

theorem removeWaypoint_pop (u : AvionicsUtils) (p : ManagedFlightPlan) (index : Option Int)
    (h : index = none ∨ ∃ i : Int, index = some i ∧ Int.ofNat p._waypoints.length ≤ i) :
    removeWaypoint u p index
      = match _unshiftSegmentIndexes { p with _waypoints := p._waypoints.dropLast }
            p._waypoints.getLast? (Int.ofNat p._waypoints.length) with
        | none => Outcome.threw { p with _waypoints := p._waypoints.dropLast }
        | some q => _reflowDistances u q := by
  rcases h with h | ⟨i, h, hi⟩
  · subst h
    simp only [removeWaypoint]
  · subst h
    have hi2 : i ≥ Int.ofNat p._waypoints.length := hi
    simp only [removeWaypoint, if_pos hi2]

theorem removeWaypoint_splice (u : AvionicsUtils) (p : ManagedFlightPlan) (i : Int)
    (h : i < Int.ofNat p._waypoints.length) :
    removeWaypoint u p (some i)
      = match _unshiftSegmentIndexes { p with _waypoints := jsSpliceRemove p._waypoints i }
            (jsIndex p._waypoints i) i with
        | none => Outcome.threw { p with _waypoints := jsSpliceRemove p._waypoints i }
        | some q => _reflowDistances u q := by
  have hi2 : ¬ i ≥ Int.ofNat p._waypoints.length := by omega
  simp only [removeWaypoint, if_neg hi2]

/-- Whatever the index, the waypoints after `addWaypoint` are, up to derived
fields, those put in place by the push or the splice. -/
theorem addWaypoint_waypoints (u : AvionicsUtils) (p : ManagedFlightPlan) (w : WayPoint)
    (index : Option Int) :
    ((index = none ∨ ∃ i : Int, index = some i ∧ Int.ofNat p._waypoints.length ≤ i) ∧
      (addWaypoint u p w index).plan._waypoints.map WayPoint.stripDerived
        = (p._waypoints ++ [w]).map WayPoint.stripDerived) ∨
    (∃ i : Int, index = some i ∧ i < Int.ofNat p._waypoints.length ∧
      (addWaypoint u p w index).plan._waypoints.map WayPoint.stripDerived
        = (jsSpliceInsert p._waypoints i w).map WayPoint.stripDerived) := by
  have key : ∀ q : ManagedFlightPlan, ∀ j : Int,
      (_reflowDistances u (_shiftSegmentIndexes q w j)).plan._waypoints.map WayPoint.stripDerived
        = q._waypoints.map WayPoint.stripDerived := by
    intro q j
    obtain ⟨ws, h1, h2⟩ := reflow_plan u (_shiftSegmentIndexes q w j)
    rw [h1, ← shift_waypoints q w j]
    exact h2
  cases index with
  | none =>
    left
    refine ⟨Or.inl rfl, ?_⟩
    rw [addWaypoint_push u p w none (Or.inl rfl), key]
  | some i =>
    by_cases h : i < Int.ofNat p._waypoints.length
    · right
      refine ⟨i, rfl, h, ?_⟩
      rw [addWaypoint_splice u p w i h, key]
    · left
      have h2 : Int.ofNat p._waypoints.length ≤ i := by omega
      refine ⟨Or.inr ⟨i, rfl, h2⟩, ?_⟩
      rw [addWaypoint_push u p w (some i) (Or.inr ⟨i, rfl, h2⟩), key]

/-- Whatever the index, the waypoints after `removeWaypoint` are, up to derived
fields, those left by the pop or the splice. -/
theorem removeWaypoint_waypoints (u : AvionicsUtils) (p : ManagedFlightPlan)
    (index : Option Int) :
    ((index = none ∨ ∃ i : Int, index = some i ∧ Int.ofNat p._waypoints.length ≤ i) ∧
      (removeWaypoint u p index).plan._waypoints.map WayPoint.stripDerived
        = p._waypoints.dropLast.map WayPoint.stripDerived) ∨
    (∃ i : Int, index = some i ∧ i < Int.ofNat p._waypoints.length ∧
      (removeWaypoint u p index).plan._waypoints.map WayPoint.stripDerived
        = (jsSpliceRemove p._waypoints i).map WayPoint.stripDerived) := by
  have key : ∀ (q : ManagedFlightPlan) (w : Option WayPoint) (j : Int),
      (match _unshiftSegmentIndexes q w j with
        | none => Outcome.threw q
        | some r => _reflowDistances u r).plan._waypoints.map WayPoint.stripDerived
        = q._waypoints.map WayPoint.stripDerived := by
    intro q w j
    cases hq : _unshiftSegmentIndexes q w j with
    | none => rfl
    | some r =>
      obtain ⟨ws, h1, h2⟩ := reflow_plan u r
      simp only [h1]
      rw [← unshift_waypoints q r w j hq]
      exact h2
  cases index with
  | none =>
    left
    refine ⟨Or.inl rfl, ?_⟩
    rw [removeWaypoint_pop u p none (Or.inl rfl)]
    exact key _ _ _
  | some i =>
    by_cases h : i < Int.ofNat p._waypoints.length
    · right
      refine ⟨i, rfl, h, ?_⟩
      rw [removeWaypoint_splice u p i h]
      exact key _ _ _
    · left
      have h2 : Int.ofNat p._waypoints.length ≤ i := by omega
      refine ⟨Or.inr ⟨i, rfl, h2⟩, ?_⟩
      rw [removeWaypoint_pop u p (some i) (Or.inr ⟨i, rfl, h2⟩)]
      exact key _ _ _

/-! ## Insertion and removal act on the waypoint sequence -/

/-- C2: `addWaypoint(w, i)` with `0 ≤ i < length` yields
`ws[0..i) ++ [w] ++ ws[i..]`; with the index omitted or `i ≥ length` it yields
`ws ++ [w]`; the length grows by exactly one and the existing waypoints keep
their relative order. Waypoints are compared up to the derived fields that the
reflow at the end of the call rewrites. -/
theorem addWaypoint_inserts_or_appends (u : AvionicsUtils) (p : ManagedFlightPlan)
    (w : WayPoint) (index : Option Int) :
    (∀ i : Int, index = some i → 0 ≤ i → i < Int.ofNat p.length →
      (addWaypoint u p w index).plan._waypoints.map WayPoint.stripDerived
        = (p._waypoints.take i.toNat ++ [w] ++ p._waypoints.drop i.toNat).map
            WayPoint.stripDerived) ∧
    ((index = none ∨ ∃ i : Int, index = some i ∧ Int.ofNat p.length ≤ i) →
      (addWaypoint u p w index).plan._waypoints.map WayPoint.stripDerived
        = (p._waypoints ++ [w]).map WayPoint.stripDerived) ∧
    (addWaypoint u p w index).plan.length = p.length + 1 ∧
    (p._waypoints.map WayPoint.stripDerived).Sublist
      ((addWaypoint u p w index).plan._waypoints.map WayPoint.stripDerived) := by
  have hlenmap : ∀ xs ys : List WayPoint,
      xs.map WayPoint.stripDerived = ys.map WayPoint.stripDerived → xs.length = ys.length := by
    intro xs ys h
    have := congrArg List.length h
    simpa using this
  unfold ManagedFlightPlan.length
  rcases addWaypoint_waypoints u p w index with ⟨hidx, hw⟩ | ⟨j, hj, hlt, hw⟩
  · refine ⟨?_, fun _ => hw, ?_, ?_⟩
    · intro i hi h0 h1
      rcases hidx with hnone | ⟨k, hk, hge⟩
      · rw [hnone] at hi
        exact absurd hi (by simp)
      · rw [hk] at hi
        cases hi
        omega
    · rw [hlenmap _ _ hw]
      simp
    · rw [hw, List.map_append]
      exact List.sublist_append_left _ _
  · have hsub : (p._waypoints.map WayPoint.stripDerived).Sublist
        ((jsSpliceInsert p._waypoints j w).map WayPoint.stripDerived) := by
      apply List.Sublist.map
      unfold jsSpliceInsert
      conv_lhs => rw [← List.take_append_drop (jsSpliceStart p._waypoints.length j) p._waypoints]
      exact List.Sublist.append (List.Sublist.refl _) (List.sublist_cons_self _ _)
    have hlen : (jsSpliceInsert p._waypoints j w).length = p._waypoints.length + 1 := by
      unfold jsSpliceInsert
      have := jsSpliceStart_le p._waypoints.length j
      simp only [List.length_append, List.length_take, List.length_cons, List.length_drop]
      omega
    refine ⟨?_, ?_, ?_, ?_⟩
    · intro i hi h0 h1
      rw [hj] at hi
      cases hi
      rw [hw]
      unfold jsSpliceInsert
      rw [jsSpliceStart_of_inRange _ _ h0 h1]
      simp
    · intro h
      rcases h with hnone | ⟨k, hk, hge⟩
      · rw [hnone] at hj
        exact absurd hj (by simp)
      · rw [hk] at hj
        cases hj
        omega
    · rw [hlenmap _ _ hw, hlen]
    · rw [hw]
      exact hsub

/-- C2, at a plan of two waypoints: `addWaypoint(w, 1)` puts the waypoint
between them and `addWaypoint(w)` puts it last. -/
theorem addWaypoint_inserts_or_appends_witness :
    (addWaypoint gridUtils { ManagedFlightPlan.new with _waypoints := [wpA, wpB] } wpW
        (some 1)).plan._waypoints.map WayPoint.stripDerived
      = ([wpA, wpB].take (1 : Int).toNat ++ [wpW] ++ [wpA, wpB].drop (1 : Int).toNat).map
          WayPoint.stripDerived ∧
    (addWaypoint gridUtils { ManagedFlightPlan.new with _waypoints := [wpA, wpB] } wpW
        none).plan._waypoints.map WayPoint.stripDerived
      = ([wpA, wpB] ++ [wpW]).map WayPoint.stripDerived :=
  ⟨(addWaypoint_inserts_or_appends gridUtils
      { ManagedFlightPlan.new with _waypoints := [wpA, wpB] } wpW (some 1)).1
      1 rfl (by decide) (by decide),
   (addWaypoint_inserts_or_appends gridUtils
      { ManagedFlightPlan.new with _waypoints := [wpA, wpB] } wpW none).2.1 (Or.inl rfl)⟩

/-- C3: on a non-empty plan `removeWaypoint(i)` with `0 ≤ i < length` yields the
waypoints with exactly the element at position `i` removed; with the index
omitted or `i ≥ length` it yields them without the last one; the length shrinks
by exactly one. Waypoints are compared up to the derived fields that the reflow
at the end of the call rewrites. -/
theorem removeWaypoint_removes_or_pops (u : AvionicsUtils) (p : ManagedFlightPlan)
    (index : Option Int) (hne : p._waypoints ≠ []) :
    (∀ i : Int, index = some i → 0 ≤ i → i < Int.ofNat p.length →
      (removeWaypoint u p index).plan._waypoints.map WayPoint.stripDerived
        = (p._waypoints.eraseIdx i.toNat).map WayPoint.stripDerived) ∧
    ((index = none ∨ ∃ i : Int, index = some i ∧ Int.ofNat p.length ≤ i) →
      (removeWaypoint u p index).plan._waypoints.map WayPoint.stripDerived
        = p._waypoints.dropLast.map WayPoint.stripDerived) ∧
    (removeWaypoint u p index).plan.length + 1 = p.length := by
  have hlenmap : ∀ xs ys : List WayPoint,
      xs.map WayPoint.stripDerived = ys.map WayPoint.stripDerived → xs.length = ys.length := by
    intro xs ys h
    have := congrArg List.length h
    simpa using this
  have hpos : 0 < p._waypoints.length := List.length_pos.mpr hne
  unfold ManagedFlightPlan.length
  rcases removeWaypoint_waypoints u p index with ⟨hidx, hw⟩ | ⟨j, hj, hlt, hw⟩
  · refine ⟨?_, fun _ => hw, ?_⟩
    · intro i hi h0 h1
      rcases hidx with hnone | ⟨k, hk, hge⟩
      · rw [hnone] at hi
        exact absurd hi (by simp)
      · rw [hk] at hi
        cases hi
        omega
    · rw [hlenmap _ _ hw, List.length_dropLast]
      omega
  · refine ⟨?_, ?_, ?_⟩
    · intro i hi h0 h1
      rw [hj] at hi
      cases hi
      rw [hw]
      unfold jsSpliceRemove
      rw [jsSpliceStart_of_inRange _ _ h0 h1]
    · intro h
      rcases h with hnone | ⟨k, hk, hge⟩
      · rw [hnone] at hj
        exact absurd hj (by simp)
      · rw [hk] at hj
        cases hj
        omega
    · rw [hlenmap _ _ hw]
      unfold jsSpliceRemove
      rw [List.length_eraseIdx_of_lt (jsSpliceStart_lt _ _ hpos hlt)]
      omega

/-- C3, at a plan of three waypoints: the middle one is removed by
`removeWaypoint(1)` and the last one by `removeWaypoint()`. -/
theorem removeWaypoint_removes_or_pops_witness :
    ({ ManagedFlightPlan.new with _waypoints := [wpA, wpW, wpB] } : ManagedFlightPlan)._waypoints
        ≠ [] ∧
      (removeWaypoint gridUtils { ManagedFlightPlan.new with _waypoints := [wpA, wpW, wpB] }
          (some 1)).plan._waypoints.map WayPoint.stripDerived
        = ([wpA, wpW, wpB].eraseIdx (1 : Int).toNat).map WayPoint.stripDerived ∧
      (removeWaypoint gridUtils { ManagedFlightPlan.new with _waypoints := [wpA, wpW, wpB] }
          none).plan._waypoints.map WayPoint.stripDerived
        = [wpA, wpW, wpB].dropLast.map WayPoint.stripDerived :=
  ⟨by simp,
   (removeWaypoint_removes_or_pops gridUtils
      { ManagedFlightPlan.new with _waypoints := [wpA, wpW, wpB] } (some 1) (by simp)).1
      1 rfl (by decide) (by decide),
   (removeWaypoint_removes_or_pops gridUtils
      { ManagedFlightPlan.new with _waypoints := [wpA, wpW, wpB] } none (by simp)).2.1
      (Or.inl rfl)⟩

/-- C4: `getWaypoint(index)` is `none` when `index < 0` or `index ≥ length`,
the empty plan included, and otherwise the waypoint stored at that position;
the method has no throwing path. -/
theorem getWaypoint_none_or_stored (p : ManagedFlightPlan) (index : Int) :
    ((index < 0 ∨ Int.ofNat p.length ≤ index) → getWaypoint p index = none) ∧
    (∀ (_ : 0 ≤ index) (h1 : index.toNat < p._waypoints.length),
      getWaypoint p index = some (p._waypoints.get ⟨index.toNat, h1⟩)) := by
  unfold ManagedFlightPlan.length
  constructor
  · intro h
    unfold getWaypoint
    rw [if_neg]
    omega
  · intro h0 h1
    unfold getWaypoint
    have hlt : index < Int.ofNat p._waypoints.length := by
      simp only [Int.ofNat_eq_coe]
      omega
    rw [if_pos ⟨h0, hlt⟩]
    exact jsIndex_of_inRange _ _ h0 h1

/-- C4, at a plan of two waypoints and at the empty plan. -/
theorem getWaypoint_none_or_stored_witness :
    getWaypoint { ManagedFlightPlan.new with _waypoints := [wpA, wpB] } (-1) = none ∧
    getWaypoint { ManagedFlightPlan.new with _waypoints := [wpA, wpB] } 2 = none ∧
    getWaypoint ManagedFlightPlan.new 0 = none ∧
    getWaypoint { ManagedFlightPlan.new with _waypoints := [wpA, wpB] } 1 = some wpB :=
  ⟨(getWaypoint_none_or_stored { ManagedFlightPlan.new with _waypoints := [wpA, wpB] } (-1)).1
      (Or.inl (by decide)),
   (getWaypoint_none_or_stored { ManagedFlightPlan.new with _waypoints := [wpA, wpB] } 2).1
      (Or.inr (by decide)),
   (getWaypoint_none_or_stored ManagedFlightPlan.new 0).1 (Or.inr (by decide)),
   (getWaypoint_none_or_stored { ManagedFlightPlan.new with _waypoints := [wpA, wpB] } 1).2
      (by decide) (by decide)⟩

/-! ## The segment boundaries under insertion and removal -/

theorem shift_ordered (p : ManagedFlightPlan) (w : WayPoint) (i : Int)
    (h : BoundariesOrdered p) : BoundariesOrdered (_shiftSegmentIndexes p w i) := by
  unfold BoundariesOrdered at h ⊢
  simp only [_shiftSegmentIndexes, shiftActiveAndDirectTo]
  split_ifs <;> simp only [] <;> omega

theorem unshift_ordered (p q : ManagedFlightPlan) (w : Option WayPoint) (i : Int)
    (hq : _unshiftSegmentIndexes p w i = some q) (h : BoundariesOrdered p) :
    BoundariesOrdered q := by
  unfold BoundariesOrdered at h ⊢
  simp only [_unshiftSegmentIndexes, unshiftActiveAndDirectTo] at hq
  split at hq
  · exact absurd hq (by simp)
  · simp only [Option.some.injEq] at hq
    subst hq
    split_ifs <;> simp only [] <;> omega
  · split at hq
    · exact absurd hq (by simp)
    · simp only [Option.some.injEq] at hq
      subst hq
      split_ifs <;> simp only [] <;> omega
    · simp only [Option.some.injEq] at hq
      subst hq
      split_ifs <;> simp only [] <;> omega

theorem reflow_ordered (u : AvionicsUtils) (p : ManagedFlightPlan)
    (h : BoundariesOrdered p) : BoundariesOrdered (_reflowDistances u p).plan := by
  obtain ⟨ws, h1, _⟩ := reflow_plan u p
  rw [h1]
  exact h

theorem apply_ordered (u : AvionicsUtils) (p : ManagedFlightPlan) (op : Op)
    (h : BoundariesOrdered p) : BoundariesOrdered (op.apply u p) := by
  cases op with
  | add w index =>
    simp only [Op.apply, addWaypoint]
    apply reflow_ordered
    apply shift_ordered
    cases index with
    | none => exact h
    | some i =>
      simp only []
      split <;> exact h
  | remove index =>
    have key : ∀ (q : ManagedFlightPlan) (w : Option WayPoint) (j : Int),
        BoundariesOrdered q →
        BoundariesOrdered (match _unshiftSegmentIndexes q w j with
          | none => Outcome.threw q
          | some r => _reflowDistances u r).plan := by
      intro q w j hq
      cases hr : _unshiftSegmentIndexes q w j with
      | none => exact hq
      | some r => exact reflow_ordered u r (unshift_ordered q r w j hr hq)
    simp only [Op.apply, removeWaypoint]
    apply key
    cases index with
    | none => exact h
    | some i =>
      simp only []
      split <;> exact h

/-- C1, as the specification states it, fails: on a new plan one `addWaypoint`
of an intersection leaves `departureStart = -1`; one `addWaypoint` of an
airport leaves `departureStart = 1` above `enrouteStart = 0`; and when that
airport is popped again `approachStart = 1` stands above the length `0`. -/
theorem segmentsWithinPlan_fails :
    ¬ SegmentsWithinPlan (runOps gridUtils ManagedFlightPlan.new [Op.add wpW none]) ∧
    (runOps gridUtils ManagedFlightPlan.new [Op.add wpW none]).departureStart = -1 ∧
    ¬ SegmentsWithinPlan (runOps gridUtils ManagedFlightPlan.new [Op.add wpA none]) ∧
    (runOps gridUtils ManagedFlightPlan.new [Op.add wpA none]).departureStart = 1 ∧
    (runOps gridUtils ManagedFlightPlan.new [Op.add wpA none]).enrouteStart = 0 ∧
    (runOps gridUtils ManagedFlightPlan.new [Op.add wpA none, Op.remove none]).approachStart = 1 ∧
    (runOps gridUtils ManagedFlightPlan.new [Op.add wpA none, Op.remove none]).length = 0 := by
  decide

/-- C1, amended: starting from a new plan, after every finite sequence of
`addWaypoint` and `removeWaypoint` calls (any waypoints, any indices, thrown
calls included) `enrouteStart ≤ arrivalStart ≤ approachStart` holds and
`departureStart` is `-1`, `0` or `1`. -/
theorem boundaries_ordered_after_every_sequence (u : AvionicsUtils) (ops : List Op) :
    (runOps u ManagedFlightPlan.new ops).enrouteStart
        ≤ (runOps u ManagedFlightPlan.new ops).arrivalStart ∧
    (runOps u ManagedFlightPlan.new ops).arrivalStart
        ≤ (runOps u ManagedFlightPlan.new ops).approachStart ∧
    ((runOps u ManagedFlightPlan.new ops).departureStart = -1 ∨
      (runOps u ManagedFlightPlan.new ops).departureStart = 0 ∨
      (runOps u ManagedFlightPlan.new ops).departureStart = 1) := by
  have gen : ∀ (l : List Op) (p : ManagedFlightPlan),
      BoundariesOrdered p → BoundariesOrdered (runOps u p l) := by
    intro l
    induction l with
    | nil => intro p hp; exact hp
    | cons op rest ih =>
      intro p hp
      exact ih (op.apply u p) (apply_ordered u p op hp)
  have h0 : BoundariesOrdered ManagedFlightPlan.new := by decide
  have h := gen ops ManagedFlightPlan.new h0
  unfold BoundariesOrdered at h
  refine ⟨h.1, h.2.1, ?_⟩
  omega

/-! ## Origin and destination -/

theorem reflow_fields (u : AvionicsUtils) (p : ManagedFlightPlan) :
    (_reflowDistances u p).plan._hasOrigin = p._hasOrigin ∧
    (_reflowDistances u p).plan._hasDestination = p._hasDestination ∧
    (_reflowDistances u p).plan.departureStart = p.departureStart ∧
    (_reflowDistances u p).plan.enrouteStart = p.enrouteStart ∧
    (_reflowDistances u p).plan.arrivalStart = p.arrivalStart ∧
    (_reflowDistances u p).plan.approachStart = p.approachStart ∧
    (_reflowDistances u p).plan.activeWaypointIndex = p.activeWaypointIndex ∧
    (_reflowDistances u p).plan._waypoints.length = p._waypoints.length := by
  obtain ⟨ws, h1, h2⟩ := reflow_plan u p
  rw [h1]
  refine ⟨rfl, rfl, rfl, rfl, rfl, rfl, rfl, ?_⟩
  have := congrArg List.length h2
  simpa using this

theorem shift_hasOrigin (p : ManagedFlightPlan) (w : WayPoint) (i : Int) :
    (_shiftSegmentIndexes p w i)._hasOrigin = true
      ↔ (p._hasOrigin = true ∨ (i = 0 ∧ w.type = "A")) := by
  unfold _shiftSegmentIndexes shiftActiveAndDirectTo
  by_cases h1 : i = 0 ∧ w.type = "A"
  · simp only [if_pos h1]
    split_ifs <;> exact ⟨fun _ => Or.inr h1, fun _ => rfl⟩
  · simp only [if_neg h1]
    split_ifs <;> exact ⟨Or.inl, fun h => h.elim id (fun h2 => absurd h2 h1)⟩

theorem shift_hasDestination (p : ManagedFlightPlan) (w : WayPoint) (i : Int) :
    (_shiftSegmentIndexes p w i)._hasDestination = true
      ↔ (p._hasDestination = true ∨
          (i = Int.ofNat p._waypoints.length - 1 ∧ Int.ofNat p._waypoints.length > 1
            ∧ w.type = "A")) := by
  unfold _shiftSegmentIndexes shiftActiveAndDirectTo
  by_cases h1 : i = 0 ∧ w.type = "A"
  · have h2 : ¬ (i = Int.ofNat p._waypoints.length - 1 ∧ Int.ofNat p._waypoints.length > 1
        ∧ w.type = "A") := by
      intro h
      have := h1.1
      omega
    simp only [if_pos h1]
    split_ifs <;> exact ⟨Or.inl, fun h => h.elim id (fun h3 => absurd h3 h2)⟩
  · simp only [if_neg h1]
    by_cases h2 : i = Int.ofNat p._waypoints.length - 1 ∧ Int.ofNat p._waypoints.length > 1
        ∧ w.type = "A"
    · simp only [if_pos h2]
      split_ifs <;> exact ⟨fun _ => Or.inr h2, fun _ => rfl⟩
    · simp only [if_neg h2]
      split_ifs <;> exact ⟨Or.inl, fun h => h.elim id (fun h3 => absurd h3 h2)⟩

theorem shift_origin (p : ManagedFlightPlan) (w : WayPoint) (i : Int) (hi : i = 0)
    (hw : w.type = "A") : (_shiftSegmentIndexes p w i).departureStart = 1 := by
  have h1 : i = 0 ∧ w.type = "A" := ⟨hi, hw⟩
  unfold _shiftSegmentIndexes shiftActiveAndDirectTo
  simp only [if_pos h1]
  split_ifs <;> rfl

theorem shift_destination (p : ManagedFlightPlan) (w : WayPoint) (i : Int)
    (hi : i = Int.ofNat p._waypoints.length - 1) (hlen : Int.ofNat p._waypoints.length > 1)
    (hw : w.type = "A") :
    (_shiftSegmentIndexes p w i).departureStart = p.departureStart ∧
    (_shiftSegmentIndexes p w i).enrouteStart = p.enrouteStart ∧
    (_shiftSegmentIndexes p w i).arrivalStart = p.arrivalStart ∧
    (_shiftSegmentIndexes p w i).approachStart = p.approachStart := by
  have h1 : ¬ (i = 0 ∧ w.type = "A") := by
    intro h
    have := h.1
    omega
  have h2 : i = Int.ofNat p._waypoints.length - 1 ∧ Int.ofNat p._waypoints.length > 1
      ∧ w.type = "A" := ⟨hi, hlen, hw⟩
  unfold _shiftSegmentIndexes shiftActiveAndDirectTo
  simp only [if_neg h1, if_pos h2]
  split_ifs <;> exact ⟨rfl, rfl, rfl, rfl⟩

theorem shiftTail_active (p : ManagedFlightPlan) (i : Int) :
    (shiftActiveAndDirectTo p i).activeWaypointIndex
      = if i < p.activeWaypointIndex then p.activeWaypointIndex + 1
        else p.activeWaypointIndex := by
  unfold shiftActiveAndDirectTo
  by_cases ha : i < p.activeWaypointIndex
  · simp only [if_pos ha]
    split_ifs <;> rfl
  · simp only [if_neg ha]
    split_ifs <;> rfl

theorem unshiftTail_frame (p : ManagedFlightPlan) (i : Int) :
    (unshiftActiveAndDirectTo p i)._waypoints = p._waypoints ∧
    (unshiftActiveAndDirectTo p i)._hasOrigin = p._hasOrigin ∧
    (unshiftActiveAndDirectTo p i)._hasDestination = p._hasDestination ∧
    (unshiftActiveAndDirectTo p i).departureStart = p.departureStart ∧
    (unshiftActiveAndDirectTo p i).enrouteStart = p.enrouteStart ∧
    (unshiftActiveAndDirectTo p i).arrivalStart = p.arrivalStart ∧
    (unshiftActiveAndDirectTo p i).approachStart = p.approachStart ∧
    (unshiftActiveAndDirectTo p i).activeWaypointIndex
      = (if i < p.activeWaypointIndex then p.activeWaypointIndex - 1
         else p.activeWaypointIndex) := by
  unfold unshiftActiveAndDirectTo
  by_cases ha : i < p.activeWaypointIndex
  · simp only [if_pos ha]
    split_ifs <;> exact ⟨rfl, rfl, rfl, rfl, rfl, rfl, rfl, rfl⟩
  · simp only [if_neg ha]
    split_ifs <;> exact ⟨rfl, rfl, rfl, rfl, rfl, rfl, rfl, rfl⟩

theorem shift_active (p : ManagedFlightPlan) (w : WayPoint) (i : Int) :
    (_shiftSegmentIndexes p w i).activeWaypointIndex
      = if i < p.activeWaypointIndex then p.activeWaypointIndex + 1
        else p.activeWaypointIndex := by
  unfold _shiftSegmentIndexes
  simp only [shiftTail_active]
  split_ifs <;> rfl

theorem originTest_true (w : Option WayPoint) (i : Int)
    (h : (if i = 0 then typeIsAirport w else some false) = some true) :
    i = 0 ∧ ∃ x : WayPoint, w = some x ∧ x.type = "A" := by
  by_cases hi : i = 0
  · rw [if_pos hi] at h
    refine ⟨hi, ?_⟩
    cases w with
    | none => exact absurd h (by simp [typeIsAirport])
    | some x =>
      refine ⟨x, rfl, ?_⟩
      simp only [typeIsAirport, Option.map_some', Option.some.injEq, WayPoint.isAirport] at h
      exact of_decide_eq_true h
  · rw [if_neg hi] at h
    exact absurd h (by simp)

theorem originTest_false (w : Option WayPoint) (i : Int)
    (h : (if i = 0 then typeIsAirport w else some false) = some false) :
    ¬ (i = 0 ∧ ∃ x : WayPoint, w = some x ∧ x.type = "A") := by
  rintro ⟨hi, x, hx, hA⟩
  rw [if_pos hi, hx] at h
  simp only [typeIsAirport, Option.map_some', Option.some.injEq, WayPoint.isAirport] at h
  exact absurd hA (of_decide_eq_false h)

/-- What `_unshiftSegmentIndexes` does when it returns: the branch block acts on
the plan, then the tail. -/
theorem unshift_some (p q : ManagedFlightPlan) (w : Option WayPoint) (i : Int)
    (hq : _unshiftSegmentIndexes p w i = some q) :
    ∃ p1 : ManagedFlightPlan, q = unshiftActiveAndDirectTo p1 i ∧
      p1.activeWaypointIndex = p.activeWaypointIndex ∧
      (((i = 0 ∧ ∃ x : WayPoint, w = some x ∧ x.type = "A") ∧
          p1._hasOrigin = false ∧ p1.departureStart = 0) ∨
       (¬ (i = 0 ∧ ∃ x : WayPoint, w = some x ∧ x.type = "A") ∧
          p1._hasOrigin = p._hasOrigin ∧ p1.departureStart = p.departureStart)) := by
  unfold _unshiftSegmentIndexes at hq
  split at hq
  · exact absurd hq (by simp)
  · rename_i heq
    simp only [Option.some.injEq] at hq
    exact ⟨_, hq.symm, rfl, Or.inl ⟨originTest_true w i heq, rfl, rfl⟩⟩
  · rename_i heq
    have hO := originTest_false w i heq
    split at hq
    · exact absurd hq (by simp)
    · simp only [Option.some.injEq] at hq
      exact ⟨_, hq.symm, rfl, Or.inr ⟨hO, rfl, rfl⟩⟩
    · simp only [Option.some.injEq] at hq
      exact ⟨_, hq.symm, rfl, Or.inr ⟨hO, rfl, rfl⟩⟩

theorem unshift_isSome_of_some (p : ManagedFlightPlan) (x : WayPoint) (i : Int) :
    ∃ q : ManagedFlightPlan, _unshiftSegmentIndexes p (some x) i = some q := by
  unfold _unshiftSegmentIndexes
  simp only [typeIsAirport, Option.map_some']
  split
  · rename_i heq
    split_ifs at heq
  · exact ⟨_, rfl⟩
  · split
    · rename_i heq
      split_ifs at heq
    · exact ⟨_, rfl⟩
    · exact ⟨_, rfl⟩

theorem unshift_active (p q : ManagedFlightPlan) (w : Option WayPoint) (i : Int)
    (hq : _unshiftSegmentIndexes p w i = some q) :
    q.activeWaypointIndex
      = if i < p.activeWaypointIndex then p.activeWaypointIndex - 1
        else p.activeWaypointIndex := by
  obtain ⟨p1, h1, h2, _⟩ := unshift_some p q w i hq
  rw [h1, (unshiftTail_frame p1 i).2.2.2.2.2.2.2, h2]

theorem unshift_hasOrigin (p q : ManagedFlightPlan) (w : Option WayPoint) (i : Int)
    (hq : _unshiftSegmentIndexes p w i = some q) :
    (q._hasOrigin = true
      ↔ (p._hasOrigin = true ∧ ¬ (i = 0 ∧ ∃ x : WayPoint, w = some x ∧ x.type = "A"))) ∧
    ((i = 0 ∧ ∃ x : WayPoint, w = some x ∧ x.type = "A") → q.departureStart = 0) := by
  obtain ⟨p1, h1, _, h3⟩ := unshift_some p q w i hq
  have hf := unshiftTail_frame p1 i
  rw [h1, hf.2.1, hf.2.2.2.1]
  rcases h3 with ⟨hO, ho, hd⟩ | ⟨hO, ho, hd⟩
  · rw [ho, hd]
    exact ⟨⟨fun h => absurd h (by simp), fun h => absurd hO h.2⟩, fun _ => rfl⟩
  · rw [ho]
    exact ⟨⟨fun h => ⟨h, hO⟩, fun h => h.1⟩, fun h => absurd h hO⟩

theorem length_eq_of_strip_eq (xs ys : List WayPoint)
    (h : xs.map WayPoint.stripDerived = ys.map WayPoint.stripDerived) :
    xs.length = ys.length := by
  have := congrArg List.length h
  simpa using this

theorem head_of_strip_eq (xs ys : List WayPoint) (a : WayPoint)
    (h : xs.map WayPoint.stripDerived = (a :: ys).map WayPoint.stripDerived) :
    ∃ (b : WayPoint) (t : List WayPoint), xs = b :: t ∧ b.type = a.type := by
  cases xs with
  | nil => exact absurd h (by simp)
  | cons b t =>
    refine ⟨b, t, rfl, ?_⟩
    simp only [List.map_cons, List.cons.injEq] at h
    have := congrArg WayPoint.type h.1
    exact this

theorem addWaypoint_length (u : AvionicsUtils) (p : ManagedFlightPlan) (w : WayPoint)
    (index : Option Int) :
    (addWaypoint u p w index).plan._waypoints.length = p._waypoints.length + 1 := by
  rcases addWaypoint_waypoints u p w index with ⟨_, hw⟩ | ⟨j, _, _, hw⟩
  · rw [length_eq_of_strip_eq _ _ hw]
    simp
  · rw [length_eq_of_strip_eq _ _ hw]
    unfold jsSpliceInsert
    have := jsSpliceStart_le p._waypoints.length j
    simp only [List.length_append, List.length_take, List.length_cons, List.length_drop]
    omega

theorem removeWaypoint_length (u : AvionicsUtils) (p : ManagedFlightPlan)
    (index : Option Int) :
    (removeWaypoint u p index).plan._waypoints.length = p._waypoints.length - 1 := by
  rcases removeWaypoint_waypoints u p index with ⟨_, hw⟩ | ⟨j, _, hlt, hw⟩
  · rw [length_eq_of_strip_eq _ _ hw, List.length_dropLast]
  · rw [length_eq_of_strip_eq _ _ hw]
    unfold jsSpliceRemove
    by_cases hpos : 0 < p._waypoints.length
    · rw [List.length_eraseIdx_of_lt (jsSpliceStart_lt _ _ hpos hlt)]
    · have hnil : p._waypoints = [] := by
        cases hws : p._waypoints with
        | nil => rfl
        | cons a t =>
          rw [hws] at hpos
          exact absurd (Nat.succ_pos _) hpos
      rw [hnil]
      rfl

/-- The plan after `addWaypoint` has the flags, boundaries and active index
that `_shiftSegmentIndexes` computed, at the index the source hands to it. -/
theorem addWaypoint_shifted (u : AvionicsUtils) (p : ManagedFlightPlan) (w : WayPoint)
    (index : Option Int) :
    ∃ (P : ManagedFlightPlan) (idx : Int),
      P._waypoints.length = p._waypoints.length + 1 ∧
      P._hasOrigin = p._hasOrigin ∧ P._hasDestination = p._hasDestination ∧
      P.departureStart = p.departureStart ∧ P.enrouteStart = p.enrouteStart ∧
      P.arrivalStart = p.arrivalStart ∧ P.approachStart = p.approachStart ∧
      P.activeWaypointIndex = p.activeWaypointIndex ∧
      (((index = none ∨ ∃ i : Int, index = some i ∧ Int.ofNat p._waypoints.length ≤ i) ∧
          idx = Int.ofNat p._waypoints.length) ∨
        (index = some idx ∧ idx < Int.ofNat p._waypoints.length)) ∧
      addWaypoint u p w index = _reflowDistances u (_shiftSegmentIndexes P w idx) := by
  by_cases h : index = none ∨ ∃ i : Int, index = some i ∧ Int.ofNat p._waypoints.length ≤ i
  · refine ⟨{ p with _waypoints := p._waypoints ++ [w] }, Int.ofNat p._waypoints.length,
      by simp, rfl, rfl, rfl, rfl, rfl, rfl, rfl, Or.inl ⟨h, rfl⟩, addWaypoint_push u p w index h⟩
  · cases index with
    | none => exact absurd (Or.inl rfl) h
    | some i =>
      have hlt : i < Int.ofNat p._waypoints.length := by
        by_contra hc
        exact h (Or.inr ⟨i, rfl, by omega⟩)
      refine ⟨{ p with _waypoints := jsSpliceInsert p._waypoints i w }, i, ?_,
        rfl, rfl, rfl, rfl, rfl, rfl, rfl, Or.inr ⟨rfl, hlt⟩, addWaypoint_splice u p w i hlt⟩
      show (jsSpliceInsert p._waypoints i w).length = p._waypoints.length + 1
      unfold jsSpliceInsert
      have := jsSpliceStart_le p._waypoints.length i
      simp only [List.length_append, List.length_take, List.length_cons, List.length_drop]
      omega

/-- The plan after `removeWaypoint`: either `_unshiftSegmentIndexes` threw and
only the array changed, or the plan has the flags, boundaries and active index
that `_unshiftSegmentIndexes` computed. -/
theorem removeWaypoint_unshifted (u : AvionicsUtils) (p : ManagedFlightPlan)
    (index : Option Int) :
    ∃ (P : ManagedFlightPlan) (wp : Option WayPoint) (idx : Int),
      P._hasOrigin = p._hasOrigin ∧ P._hasDestination = p._hasDestination ∧
      P.departureStart = p.departureStart ∧
      P.activeWaypointIndex = p.activeWaypointIndex ∧
      (((index = none ∨ ∃ i : Int, index = some i ∧ Int.ofNat p._waypoints.length ≤ i) ∧
          idx = Int.ofNat p._waypoints.length ∧ wp = p._waypoints.getLast?) ∨
        (index = some idx ∧ idx < Int.ofNat p._waypoints.length ∧
          wp = jsIndex p._waypoints idx)) ∧
      ((_unshiftSegmentIndexes P wp idx = none ∧ removeWaypoint u p index = Outcome.threw P) ∨
        (∃ q : ManagedFlightPlan, _unshiftSegmentIndexes P wp idx = some q ∧
          removeWaypoint u p index = _reflowDistances u q)) := by
  have key : ∀ (P : ManagedFlightPlan) (wp : Option WayPoint) (idx : Int) (o : Outcome),
      o = (match _unshiftSegmentIndexes P wp idx with
            | none => Outcome.threw P
            | some q => _reflowDistances u q) →
      ((_unshiftSegmentIndexes P wp idx = none ∧ o = Outcome.threw P) ∨
        (∃ q : ManagedFlightPlan, _unshiftSegmentIndexes P wp idx = some q ∧
          o = _reflowDistances u q)) := by
    intro P wp idx o ho
    cases hq : _unshiftSegmentIndexes P wp idx with
    | none =>
      rw [hq] at ho
      exact Or.inl ⟨rfl, ho⟩
    | some q =>
      rw [hq] at ho
      exact Or.inr ⟨q, rfl, ho⟩
  by_cases h : index = none ∨ ∃ i : Int, index = some i ∧ Int.ofNat p._waypoints.length ≤ i
  · exact ⟨{ p with _waypoints := p._waypoints.dropLast }, p._waypoints.getLast?,
      Int.ofNat p._waypoints.length, rfl, rfl, rfl, rfl, Or.inl ⟨h, rfl, rfl⟩,
      key _ _ _ _ (removeWaypoint_pop u p index h)⟩
  · cases index with
    | none => exact absurd (Or.inl rfl) h
    | some i =>
      have hlt : i < Int.ofNat p._waypoints.length := by
        by_contra hc
        exact h (Or.inr ⟨i, rfl, by omega⟩)
      exact ⟨{ p with _waypoints := jsSpliceRemove p._waypoints i }, jsIndex p._waypoints i, i,
        rfl, rfl, rfl, rfl, Or.inr ⟨rfl, hlt, rfl⟩,
        key _ _ _ _ (removeWaypoint_splice u p i hlt)⟩

theorem bool_eq_of_iff (a b : Bool) (h : a = true ↔ b = true) : a = b := by
  cases a <;> cases b <;> simp_all

/-- C5: on an empty plan `removeWaypoint` with the index omitted, or with an
index at or past the length, does not complete normally: `pop()` yields
`undefined`, the index is `0`, and `_unshiftSegmentIndexes` throws on reading
`waypoint.type`. The plan is left empty. -/
theorem removeWaypoint_on_empty_plan_throws :
    (removeWaypoint gridUtils ManagedFlightPlan.new none).hasThrown = true ∧
    (removeWaypoint gridUtils ManagedFlightPlan.new (some 0)).hasThrown = true ∧
    (removeWaypoint gridUtils ManagedFlightPlan.new (some 3)).hasThrown = true ∧
    (removeWaypoint gridUtils ManagedFlightPlan.new none).plan = ManagedFlightPlan.new := by
  decide

/-- C6: on a plan of length at least one, `addWaypoint(a, 0)` of an airport `a`
sets `hasOrigin = true` and `departureStart = 1`; the `removeWaypoint(0)` that
follows sets `hasOrigin = false` and `departureStart = 0`. -/
theorem origin_set_by_insert_and_cleared_by_remove (u : AvionicsUtils)
    (p : ManagedFlightPlan) (a : WayPoint) (hlen : 1 ≤ p.length) (ha : a.type = "A") :
    (addWaypoint u p a (some 0)).plan.hasOrigin = true ∧
    (addWaypoint u p a (some 0)).plan.departureStart = 1 ∧
    (removeWaypoint u (addWaypoint u p a (some 0)).plan (some 0)).plan.hasOrigin = false ∧
    (removeWaypoint u (addWaypoint u p a (some 0)).plan (some 0)).plan.departureStart = 0 := by
  unfold ManagedFlightPlan.length at hlen
  unfold ManagedFlightPlan.hasOrigin
  have hlt : (0 : Int) < Int.ofNat p._waypoints.length := by
    simp only [Int.ofNat_eq_coe]
    omega
  -- the insertion
  have hadd := addWaypoint_splice u p a 0 hlt
  have hf := reflow_fields u
    (_shiftSegmentIndexes { p with _waypoints := jsSpliceInsert p._waypoints 0 a } a 0)
  have hO : (addWaypoint u p a (some 0)).plan._hasOrigin = true := by
    rw [hadd, hf.1]
    exact (shift_hasOrigin _ a 0).mpr (Or.inr ⟨rfl, ha⟩)
  have hD : (addWaypoint u p a (some 0)).plan.departureStart = 1 := by
    rw [hadd, hf.2.2.1]
    exact shift_origin _ a 0 rfl ha
  -- the waypoint now at index 0 is the airport
  have hws : (addWaypoint u p a (some 0)).plan._waypoints.map WayPoint.stripDerived
      = (a :: p._waypoints).map WayPoint.stripDerived := by
    rcases addWaypoint_waypoints u p a (some 0) with ⟨hidx, _⟩ | ⟨j, hj, _, hw⟩
    · rcases hidx with hnone | ⟨k, hk, hge⟩
      · exact absurd hnone (by simp)
      · cases hk
        omega
    · cases hj
      rw [hw]
      unfold jsSpliceInsert
      rw [jsSpliceStart_of_inRange _ _ (le_refl 0) hlt]
      simp
  obtain ⟨b, t, hbt, hb⟩ := head_of_strip_eq _ _ _ hws
  -- the removal
  obtain ⟨P, wp, idx, hPo, _, _, _, hcase, hres⟩ :=
    removeWaypoint_unshifted u (addWaypoint u p a (some 0)).plan (some 0)
  have hwp : idx = 0 ∧ wp = some b := by
    rcases hcase with ⟨hidx, _, _⟩ | ⟨hidx, _, hwp⟩
    · rcases hidx with hnone | ⟨k, hk, hge⟩
      · exact absurd hnone (by simp)
      · cases hk
        rw [hbt] at hge
        simp only [List.length_cons, Int.ofNat_eq_coe] at hge
        omega
    · cases hidx
      refine ⟨rfl, ?_⟩
      rw [hwp, hbt]
      rfl
  obtain ⟨hidx0, hwpb⟩ := hwp
  subst hidx0
  subst hwpb
  have horigin : (0 : Int) = 0 ∧ ∃ x : WayPoint, some b = some x ∧ x.type = "A" :=
    ⟨rfl, b, rfl, hb.trans ha⟩
  rcases hres with ⟨hnone, _⟩ | ⟨q, hq, hr⟩
  · obtain ⟨q, hq⟩ := unshift_isSome_of_some P b 0
    rw [hq] at hnone
    exact absurd hnone (by simp)
  · have hfr := reflow_fields u q
    have hu := unshift_hasOrigin P q (some b) 0 hq
    refine ⟨hO, hD, ?_, ?_⟩
    · rw [hr, hfr.1]
      cases hqo : q._hasOrigin with
      | false => rfl
      | true => exact absurd horigin (hu.1.mp hqo).2
    · rw [hr, hfr.2.2.1]
      exact hu.2 horigin

/-- C6, at a plan of one intersection. -/
theorem origin_set_by_insert_and_cleared_by_remove_witness :
    (1 ≤ ({ ManagedFlightPlan.new with _waypoints := [wpW] } : ManagedFlightPlan).length ∧
      wpA.type = "A") ∧
    (addWaypoint gridUtils { ManagedFlightPlan.new with _waypoints := [wpW] } wpA
        (some 0)).plan.hasOrigin = true ∧
    (addWaypoint gridUtils { ManagedFlightPlan.new with _waypoints := [wpW] } wpA
        (some 0)).plan.departureStart = 1 ∧
    (removeWaypoint gridUtils
        (addWaypoint gridUtils { ManagedFlightPlan.new with _waypoints := [wpW] } wpA
          (some 0)).plan (some 0)).plan.hasOrigin = false ∧
    (removeWaypoint gridUtils
        (addWaypoint gridUtils { ManagedFlightPlan.new with _waypoints := [wpW] } wpA
          (some 0)).plan (some 0)).plan.departureStart = 0 :=
  ⟨⟨by decide, by decide⟩,
   origin_set_by_insert_and_cleared_by_remove gridUtils
     { ManagedFlightPlan.new with _waypoints := [wpW] } wpA (by decide) (by decide)⟩

/-- C7: on a non-empty plan an airport appended as the new last element (index
omitted or at or past the length) sets `hasDestination = true` and leaves
`departureStart`, `enrouteStart`, `arrivalStart`, `approachStart` and
`hasOrigin` as they were. -/
theorem appended_airport_marks_destination (u : AvionicsUtils) (p : ManagedFlightPlan)
    (a : WayPoint) (index : Option Int) (hne : p._waypoints ≠ []) (ha : a.type = "A")
    (hidx : index = none ∨ ∃ i : Int, index = some i ∧ Int.ofNat p.length ≤ i) :
    (addWaypoint u p a index).plan.hasDestination = true ∧
    (addWaypoint u p a index).plan.departureStart = p.departureStart ∧
    (addWaypoint u p a index).plan.enrouteStart = p.enrouteStart ∧
    (addWaypoint u p a index).plan.arrivalStart = p.arrivalStart ∧
    (addWaypoint u p a index).plan.approachStart = p.approachStart ∧
    (addWaypoint u p a index).plan.hasOrigin = p.hasOrigin := by
  unfold ManagedFlightPlan.length at hidx
  unfold ManagedFlightPlan.hasOrigin ManagedFlightPlan.hasDestination
  have hpos : 0 < p._waypoints.length := List.length_pos.mpr hne
  rw [addWaypoint_push u p a index hidx]
  have hf := reflow_fields u
    (_shiftSegmentIndexes { p with _waypoints := p._waypoints ++ [a] } a
      (Int.ofNat p._waypoints.length))
  have hi : Int.ofNat p._waypoints.length
      = Int.ofNat ({ p with _waypoints := p._waypoints ++ [a] } : ManagedFlightPlan)._waypoints.length
        - 1 := by
    simp
  have hgt : Int.ofNat
      ({ p with _waypoints := p._waypoints ++ [a] } : ManagedFlightPlan)._waypoints.length > 1 := by
    simp only [List.length_append, List.length_singleton, Int.ofNat_eq_coe]
    omega
  have hd := shift_destination { p with _waypoints := p._waypoints ++ [a] } a _ hi hgt ha
  refine ⟨?_, ?_, ?_, ?_, ?_, ?_⟩
  · rw [hf.2.1]
    exact (shift_hasDestination _ a _).mpr (Or.inr ⟨hi, hgt, ha⟩)
  · rw [hf.2.2.1]
    exact hd.1
  · rw [hf.2.2.2.1]
    exact hd.2.1
  · rw [hf.2.2.2.2.1]
    exact hd.2.2.1
  · rw [hf.2.2.2.2.2.1]
    exact hd.2.2.2
  · rw [hf.1]
    apply bool_eq_of_iff
    rw [shift_hasOrigin]
    constructor
    · intro h
      rcases h with h | ⟨h0, _⟩
      · exact h
      · simp only [Int.ofNat_eq_coe] at h0
        omega
    · intro h
      exact Or.inl h

/-- C7, at a plan of one intersection, with the index omitted. -/
theorem appended_airport_marks_destination_witness :
    (({ ManagedFlightPlan.new with _waypoints := [wpW] } : ManagedFlightPlan)._waypoints ≠ [] ∧
      wpA.type = "A") ∧
    (addWaypoint gridUtils { ManagedFlightPlan.new with _waypoints := [wpW] } wpA
        none).plan.hasDestination = true ∧
    (addWaypoint gridUtils { ManagedFlightPlan.new with _waypoints := [wpW] } wpA
        none).plan.approachStart = -1 :=
  ⟨⟨by simp, by decide⟩,
   (appended_airport_marks_destination gridUtils
      { ManagedFlightPlan.new with _waypoints := [wpW] } wpA none (by simp) (by decide)
      (Or.inl rfl)).1,
   (appended_airport_marks_destination gridUtils
      { ManagedFlightPlan.new with _waypoints := [wpW] } wpA none (by simp) (by decide)
      (Or.inl rfl)).2.2.2.2.1⟩

/-- C8: on the plan `[intersection, airport]`, built by two `addWaypoint` calls
and so with `hasDestination = true`, removing the last waypoint, by
`removeWaypoint(1)` or by `removeWaypoint()`, completes and leaves
`hasDestination = true`: the test `index === length - 1` reads the length after
the removal. -/
theorem removing_last_airport_keeps_hasDestination :
    (runOps gridUtils ManagedFlightPlan.new [Op.add wpW none, Op.add wpA none]).length = 2 ∧
    lastIsAirport
      (runOps gridUtils ManagedFlightPlan.new [Op.add wpW none, Op.add wpA none]) = true ∧
    (runOps gridUtils ManagedFlightPlan.new
      [Op.add wpW none, Op.add wpA none]).hasDestination = true ∧
    (removeWaypoint gridUtils
      (runOps gridUtils ManagedFlightPlan.new [Op.add wpW none, Op.add wpA none])
      (some 1)).hasThrown = false ∧
    (removeWaypoint gridUtils
      (runOps gridUtils ManagedFlightPlan.new [Op.add wpW none, Op.add wpA none])
      (some 1)).plan.hasDestination = true ∧
    (removeWaypoint gridUtils
      (runOps gridUtils ManagedFlightPlan.new [Op.add wpW none, Op.add wpA none])
      none).hasThrown = false ∧
    (removeWaypoint gridUtils
      (runOps gridUtils ManagedFlightPlan.new [Op.add wpW none, Op.add wpA none])
      none).plan.hasDestination = true := by
  decide

/-- C9, as the specification states it, fails: after one `addWaypoint` of an
airport on a new plan `hasOrigin` is true although the plan holds no other
waypoint; and after an intersection is then inserted at index 0 `hasOrigin` is
still true although the first waypoint is not an airport. -/
theorem flagsMatchEnds_fails :
    ¬ FlagsMatchEnds (runOps gridUtils ManagedFlightPlan.new [Op.add wpA none]) ∧
    (runOps gridUtils ManagedFlightPlan.new [Op.add wpA none]).hasOrigin = true ∧
    (runOps gridUtils ManagedFlightPlan.new [Op.add wpA none]).length = 1 ∧
    ¬ FlagsMatchEnds
      (runOps gridUtils ManagedFlightPlan.new [Op.add wpA none, Op.add wpW (some 0)]) ∧
    (runOps gridUtils ManagedFlightPlan.new
      [Op.add wpA none, Op.add wpW (some 0)]).hasOrigin = true ∧
    firstIsAirport
      (runOps gridUtils ManagedFlightPlan.new [Op.add wpA none, Op.add wpW (some 0)]) = false := by
  decide

/-- C9, amended: the flags follow the calls, not the ends of the plan. After
`addWaypoint`, `hasOrigin` is true iff it was true before or the call put an
airport at index 0 (index 0 given, or an append to the empty plan), and
`hasDestination` is true iff it was true before or the call appended an airport
to a non-empty plan. After `removeWaypoint` at an index inside the plan,
`0 ≤ i < length`, `hasOrigin` is true iff it was true before and the call did
not remove an airport from index 0. -/
theorem flags_follow_the_calls (u : AvionicsUtils) (p : ManagedFlightPlan) (w : WayPoint)
    (index : Option Int) :
    ((addWaypoint u p w index).plan.hasOrigin = true ↔
      (p.hasOrigin = true ∨
        (w.type = "A" ∧
          (index = some 0 ∨
            (p.length = 0 ∧ (index = none ∨ ∃ i : Int, index = some i ∧ 0 ≤ i)))))) ∧
    ((addWaypoint u p w index).plan.hasDestination = true ↔
      (p.hasDestination = true ∨
        (w.type = "A" ∧ 1 ≤ p.length ∧
          (index = none ∨ ∃ i : Int, index = some i ∧ Int.ofNat p.length ≤ i)))) ∧
    (∀ i : Int, index = some i → 0 ≤ i → i < Int.ofNat p.length →
      ((removeWaypoint u p index).plan.hasOrigin = true ↔
        (p.hasOrigin = true ∧ ¬ (i = 0 ∧ firstIsAirport p = true)))) := by
  unfold ManagedFlightPlan.hasOrigin ManagedFlightPlan.hasDestination ManagedFlightPlan.length
  refine ⟨?_, ?_, ?_⟩
  · obtain ⟨P, idx, hPlen, hPo, _, _, _, _, _, _, hcase, hadd⟩ := addWaypoint_shifted u p w index
    rw [hadd, (reflow_fields u _).1, shift_hasOrigin, hPo]
    apply or_congr_right
    constructor
    · rintro ⟨h0, hA⟩
      refine ⟨hA, ?_⟩
      rcases hcase with ⟨hidx, hlen⟩ | ⟨hidx, _⟩
      · right
        have hz : p._waypoints.length = 0 := by
          simp only [Int.ofNat_eq_coe] at hlen
          omega
        refine ⟨hz, ?_⟩
        rcases hidx with hnone | ⟨k, hk, hge⟩
        · exact Or.inl hnone
        · exact Or.inr ⟨k, hk, by simp only [Int.ofNat_eq_coe] at hge; omega⟩
      · left
        rw [hidx, h0]
    · rintro ⟨hA, h⟩
      refine ⟨?_, hA⟩
      rcases h with h0 | ⟨hz, h⟩
      · rcases hcase with ⟨hidx, hlen⟩ | ⟨hidx, _⟩
        · rcases hidx with hnone | ⟨k, hk, hge⟩
          · rw [hnone] at h0
            exact absurd h0 (by simp)
          · rw [hk] at h0
            cases h0
            simp only [Int.ofNat_eq_coe] at hge hlen
            omega
        · rw [hidx] at h0
          cases h0
          rfl
      · rcases hcase with ⟨_, hlen⟩ | ⟨hidx, hlt⟩
        · simp only [Int.ofNat_eq_coe] at hlen
          omega
        · rcases h with hnone | ⟨k, hk, hge⟩
          · rw [hnone] at hidx
            exact absurd hidx (by simp)
          · rw [hk] at hidx
            cases hidx
            simp only [Int.ofNat_eq_coe] at hlt
            omega
  · obtain ⟨P, idx, hPlen, _, hPd, _, _, _, _, _, hcase, hadd⟩ := addWaypoint_shifted u p w index
    rw [hadd, (reflow_fields u _).2.1, shift_hasDestination, hPd, hPlen]
    apply or_congr_right
    simp only [Int.ofNat_eq_coe] at hcase ⊢
    constructor
    · rintro ⟨hi, hgt, hA⟩
      refine ⟨hA, by omega, ?_⟩
      rcases hcase with ⟨hidx, _⟩ | ⟨_, hlt⟩
      · exact hidx
      · omega
    · rintro ⟨hA, hpos, hidx⟩
      refine ⟨?_, by omega, hA⟩
      rcases hcase with ⟨_, hlen⟩ | ⟨hsome, hlt⟩
      · omega
      · rcases hidx with hnone | ⟨k, hk, hge⟩
        · rw [hnone] at hsome
          exact absurd hsome (by simp)
        · rw [hk] at hsome
          cases hsome
          omega
  · have hcall : (removeWaypoint u p index).plan._hasOrigin = true ↔
        (p._hasOrigin = true ∧ ¬ (index = some 0 ∧ firstIsAirport p = true)) := by
      obtain ⟨P, wp, idx, hPo, _, _, _, hcase, hres⟩ := removeWaypoint_unshifted u p index
      -- the origin test of the source, in terms of the call
      have horigin : (idx = 0 ∧ ∃ x : WayPoint, wp = some x ∧ x.type = "A")
          ↔ (index = some 0 ∧ firstIsAirport p = true) := by
        rcases hcase with ⟨hidx, hlen, hwp⟩ | ⟨hidx, hlt, hwp⟩
        · constructor
          · rintro ⟨h0, x, hx, _⟩
            have hz : p._waypoints = [] := by
              apply List.eq_nil_of_length_eq_zero
              simp only [Int.ofNat_eq_coe] at hlen
              omega
            rw [hwp, hz] at hx
            exact absurd hx (by simp)
          · rintro ⟨h0, hfirst⟩
            rcases hidx with hnone | ⟨k, hk, hge⟩
            · rw [hnone] at h0
              exact absurd h0 (by simp)
            · rw [hk] at h0
              cases h0
              have hz : p._waypoints = [] := by
                apply List.eq_nil_of_length_eq_zero
                simp only [Int.ofNat_eq_coe] at hge
                omega
              unfold firstIsAirport at hfirst
              rw [hz] at hfirst
              exact absurd hfirst (by simp)
        · constructor
          · rintro ⟨h0, x, hx, hA⟩
            subst h0
            refine ⟨hidx, ?_⟩
            unfold firstIsAirport
            cases hws : p._waypoints with
            | nil =>
              rw [hws] at hlt
              exact absurd hlt (by simp)
            | cons b t =>
              rw [hwp, hws] at hx
              have hb : b = x := by
                have : jsIndex (b :: t) 0 = some b := rfl
                rw [this] at hx
                exact Option.some.inj hx
              subst hb
              simp only [List.head?_cons, WayPoint.isAirport]
              exact decide_eq_true hA
          · rintro ⟨h0, hfirst⟩
            rw [hidx] at h0
            cases h0
            refine ⟨rfl, ?_⟩
            unfold firstIsAirport at hfirst
            cases hws : p._waypoints with
            | nil =>
              rw [hws] at hfirst
              exact absurd hfirst (by simp)
            | cons b t =>
              rw [hws] at hfirst
              simp only [List.head?_cons, WayPoint.isAirport] at hfirst
              refine ⟨b, ?_, of_decide_eq_true hfirst⟩
              rw [hwp, hws]
              rfl
      rcases hres with ⟨hnone, hr⟩ | ⟨q, hq, hr⟩
      · rw [hr]
        show P._hasOrigin = true ↔ _
        rw [hPo]
        constructor
        · intro h
          refine ⟨h, ?_⟩
          intro hc
          obtain ⟨h0, x, hx, _⟩ := horigin.mpr hc
          subst hx
          obtain ⟨q, hq⟩ := unshift_isSome_of_some P x idx
          rw [hq] at hnone
          exact absurd hnone (by simp)
        · intro h
          exact h.1
      · rw [hr, (reflow_fields u q).1, (unshift_hasOrigin P q wp idx hq).1, hPo, horigin]
    intro i hi _ _
    rw [hcall, hi]
    simp only [Option.some.injEq]

/-! ## The active waypoint index -/

/-- C10, as the specification states it, fails: on a plan of two waypoints whose
active index is `1`, a valid index, `removeWaypoint(1)` and `removeWaypoint()`
leave the active index at `1`, the length of the now one-waypoint plan. A
negative index breaks validity as well: `addWaypoint(w, -1)` on a new plan
leaves the active index at `1` on a one-waypoint plan, and `removeWaypoint(-1)`
on a one-waypoint plan with active index `0` leaves it at `-1`. -/
theorem activeIndexValid_fails :
    ActiveIndexValid ManagedFlightPlan.new ∧
    ¬ ActiveIndexValid (addWaypoint gridUtils ManagedFlightPlan.new wpW (some (-1))).plan ∧
    ActiveIndexValid { ManagedFlightPlan.new with _waypoints := [wpW] } ∧
    (removeWaypoint gridUtils { ManagedFlightPlan.new with _waypoints := [wpW] }
        (some (-1))).plan.activeWaypointIndex = -1 ∧
    ActiveIndexValid
      { ManagedFlightPlan.new with _waypoints := [wpW, wpX], activeWaypointIndex := 1 } ∧
    ¬ ActiveIndexValid
      (removeWaypoint gridUtils
        { ManagedFlightPlan.new with _waypoints := [wpW, wpX], activeWaypointIndex := 1 }
        (some 1)).plan ∧
    ¬ ActiveIndexValid
      (removeWaypoint gridUtils
        { ManagedFlightPlan.new with _waypoints := [wpW, wpX], activeWaypointIndex := 1 }
        none).plan ∧
    (removeWaypoint gridUtils
        { ManagedFlightPlan.new with _waypoints := [wpW, wpX], activeWaypointIndex := 1 }
        (some 1)).plan.activeWaypointIndex = 1 ∧
    (removeWaypoint gridUtils
        { ManagedFlightPlan.new with _waypoints := [wpW, wpX], activeWaypointIndex := 1 }
        (some 1)).plan.length = 1 := by
  decide

/-- C10, amended: from a plan whose active index is valid, and for an index
omitted or non-negative, the active index is valid again after `addWaypoint`,
and after `removeWaypoint` it lies between `0` and the new length, both
included. -/
theorem active_index_after_a_call (u : AvionicsUtils) (p : ManagedFlightPlan) (w : WayPoint)
    (index : Option Int) (hv : ActiveIndexValid p)
    (hidx : index = none ∨ ∃ i : Int, index = some i ∧ 0 ≤ i) :
    ActiveIndexValid (addWaypoint u p w index).plan ∧
    0 ≤ (removeWaypoint u p index).plan.activeWaypointIndex ∧
    (removeWaypoint u p index).plan.activeWaypointIndex
      ≤ Int.ofNat (removeWaypoint u p index).plan.length := by
  unfold ActiveIndexValid ManagedFlightPlan.length at *
  have hnonneg : ∀ j : Int, index = some j → 0 ≤ j := by
    intro j hj
    rcases hidx with hnone | ⟨k, hk, h0⟩
    · rw [hnone] at hj
      exact absurd hj (by simp)
    · rw [hk] at hj
      cases hj
      exact h0
  constructor
  · have hlen := addWaypoint_length u p w index
    obtain ⟨P, idx, _, _, _, _, _, _, _, hPa, hcase, hadd⟩ := addWaypoint_shifted u p w index
    have hact : (addWaypoint u p w index).plan.activeWaypointIndex
        = if idx < p.activeWaypointIndex then p.activeWaypointIndex + 1
          else p.activeWaypointIndex := by
      rw [hadd, (reflow_fields u _).2.2.2.2.2.2.1, shift_active, hPa]
    rw [hlen, hact]
    left
    simp only [Int.ofNat_eq_coe] at hv hcase ⊢
    rcases hcase with ⟨_, hi⟩ | ⟨hsome, hlt⟩
    · split_ifs <;> omega
    · have := hnonneg idx hsome
      split_ifs <;> omega
  · have hlen := removeWaypoint_length u p index
    obtain ⟨P, wp, idx, _, _, _, hPa, hcase, hres⟩ := removeWaypoint_unshifted u p index
    rw [hlen]
    rcases hres with ⟨hnone, hr⟩ | ⟨q, hq, hr⟩
    · -- the call threw: the plan was empty
      have hact : (removeWaypoint u p index).plan.activeWaypointIndex
          = p.activeWaypointIndex := by
        rw [hr]
        exact hPa
      have hempty : p._waypoints.length = 0 := by
        rcases hcase with ⟨_, _, hwp⟩ | ⟨hsome, hlt, hwp⟩
        · cases hws : p._waypoints with
          | nil => rfl
          | cons b t =>
            rw [hws] at hwp
            have hsome : ∃ x : WayPoint, wp = some x := by
              rw [hwp]
              exact ⟨(b :: t).getLast (by simp), List.getLast?_eq_getLast _ (by simp)⟩
            obtain ⟨x, hx⟩ := hsome
            rw [hx] at hnone
            obtain ⟨q, hq⟩ := unshift_isSome_of_some P x idx
            rw [hq] at hnone
            exact absurd hnone (by simp)
        · have h0 := hnonneg idx hsome
          have hin : idx.toNat < p._waypoints.length := by
            simp only [Int.ofNat_eq_coe] at hlt
            omega
          rw [jsIndex_of_inRange _ _ h0 hin] at hwp
          rw [hwp] at hnone
          obtain ⟨q, hq⟩ := unshift_isSome_of_some P (p._waypoints.get ⟨idx.toNat, hin⟩) idx
          rw [hq] at hnone
          exact absurd hnone (by simp)
      rw [hact]
      simp only [Int.ofNat_eq_coe] at hv ⊢
      omega
    · have hact : (removeWaypoint u p index).plan.activeWaypointIndex
          = if idx < p.activeWaypointIndex then p.activeWaypointIndex - 1
            else p.activeWaypointIndex := by
        rw [hr, (reflow_fields u _).2.2.2.2.2.2.1, unshift_active P q wp idx hq, hPa]
      rw [hact]
      simp only [Int.ofNat_eq_coe] at hv hcase ⊢
      rcases hcase with ⟨_, hi, _⟩ | ⟨hsome, hlt, _⟩
      · split_ifs <;> omega
      · have := hnonneg idx hsome
        split_ifs <;> omega

/-- C10, amended, at a plan of two waypoints with active index `1` and the
call index `1`. -/
theorem active_index_after_a_call_witness :
    (ActiveIndexValid
        { ManagedFlightPlan.new with _waypoints := [wpW, wpX], activeWaypointIndex := 1 } ∧
      ((some 1 : Option Int) = none ∨ ∃ i : Int, (some 1 : Option Int) = some i ∧ 0 ≤ i)) ∧
    ActiveIndexValid
      (addWaypoint gridUtils
        { ManagedFlightPlan.new with _waypoints := [wpW, wpX], activeWaypointIndex := 1 }
        wpA (some 1)).plan ∧
    0 ≤ (removeWaypoint gridUtils
        { ManagedFlightPlan.new with _waypoints := [wpW, wpX], activeWaypointIndex := 1 }
        (some 1)).plan.activeWaypointIndex ∧
    (removeWaypoint gridUtils
        { ManagedFlightPlan.new with _waypoints := [wpW, wpX], activeWaypointIndex := 1 }
        (some 1)).plan.activeWaypointIndex
      ≤ Int.ofNat (removeWaypoint gridUtils
        { ManagedFlightPlan.new with _waypoints := [wpW, wpX], activeWaypointIndex := 1 }
        (some 1)).plan.length :=
  ⟨⟨by decide, Or.inr ⟨1, rfl, by decide⟩⟩,
   active_index_after_a_call gridUtils
     { ManagedFlightPlan.new with _waypoints := [wpW, wpX], activeWaypointIndex := 1 }
     wpA (some 1) (by decide) (Or.inr ⟨1, rfl, by decide⟩)⟩

/-! ## Clearing the plan -/

/-- C13: `clearPlan` is idempotent. A call that completes leaves the state of
a newly constructed plan (no waypoints, the four boundaries at `-1`, both
flags false, active index `0`, cruise altitude `0`, all procedure indices
`-1`, direct-to inactive), and a second call leaves the same state. -/
theorem clearPlan_idempotent (p : ManagedFlightPlan) :
    clearPlan true p = Outcome.returned ManagedFlightPlan.new ∧
    clearPlan true (clearPlan true p).plan = clearPlan true p ∧
    (clearPlan true p).plan._waypoints = [] ∧
    (clearPlan true p).plan.departureStart = -1 ∧
    (clearPlan true p).plan.enrouteStart = -1 ∧
    (clearPlan true p).plan.arrivalStart = -1 ∧
    (clearPlan true p).plan.approachStart = -1 ∧
    (clearPlan true p).plan.hasOrigin = false ∧
    (clearPlan true p).plan.hasDestination = false ∧
    (clearPlan true p).plan.activeWaypointIndex = 0 ∧
    (clearPlan true p).plan.cruiseAltitude = 0 ∧
    (clearPlan true p).plan.procedureDetails = ProcedureDetails.new ∧
    (clearPlan true p).plan.directTo.isActive = false := by
  have h : clearPlan true p = Outcome.returned ManagedFlightPlan.new := by
    unfold clearPlan
    simp only [if_true]
    rfl
  have h2 : clearPlan true ManagedFlightPlan.new = Outcome.returned ManagedFlightPlan.new := by
    unfold clearPlan
    simp only [if_true]
    rfl
  rw [h]
  exact ⟨rfl, h2, rfl, rfl, rfl, rfl, rfl, rfl, rfl, rfl, rfl, rfl, rfl⟩

/-! ## The decoder -/

theorem mapLeg_unrecognized (sim : Simulator) (procedure : LegsProcedure) (leg : ProcedureLeg)
    (hkind : leg.type ≠ 3 ∧ leg.type ≠ 4 ∧ leg.type ≠ 5 ∧ leg.type ≠ 9 ∧ leg.type ≠ 15
      ∧ leg.type ≠ 17 ∧ leg.type ≠ 18) :
    LegsProcedure.mapLeg sim procedure leg = none := by
  obtain ⟨h3, h4, h5, h9, h15, h17, h18⟩ := hkind
  unfold LegsProcedure.mapLeg
  rw [if_neg h3, if_neg h4, if_neg h5, if_neg h9, if_neg]
  rintro (h | h | h)
  · exact h15 h
  · exact h17 h
  · exact h18 h

theorem mapLeg_exactFix (sim : Simulator) (procedure : LegsProcedure) (leg : ProcedureLeg)
    (hkind : leg.type = 15 ∨ leg.type = 17 ∨ leg.type = 18) :
    LegsProcedure.mapLeg sim procedure leg = some (LegsProcedure.mapExactFix sim leg) := by
  have h3 : leg.type ≠ 3 := by omega
  have h4 : leg.type ≠ 4 := by omega
  have h5 : leg.type ≠ 5 := by omega
  have h9 : leg.type ≠ 9 := by omega
  unfold LegsProcedure.mapLeg
  rw [if_neg h3, if_neg h4, if_neg h5, if_neg h9, if_pos hkind]

theorem getNextLoop_unrecognized (sim : Simulator) (leg : ProcedureLeg)
    (hkind : leg.type ≠ 3 ∧ leg.type ≠ 4 ∧ leg.type ≠ 5 ∧ leg.type ≠ 9 ∧ leg.type ≠ 15
      ∧ leg.type ≠ 17 ∧ leg.type ≠ 18) :
    ∀ (fuel : Nat) (procedure : LegsProcedure),
      LegsProcedure.getNextLoop sim (some leg) fuel procedure
        = GetNextResult.running
            { procedure with _currentIndex := procedure._currentIndex + Int.ofNat fuel } := by
  intro fuel
  induction fuel with
  | zero =>
    intro procedure
    simp [LegsProcedure.getNextLoop]
  | succ n ih =>
    intro procedure
    rw [LegsProcedure.getNextLoop]
    simp only [mapLeg_unrecognized sim procedure leg hkind]
    rw [ih]
    simp only [Int.ofNat_eq_coe, Nat.cast_add, Nat.cast_one, GetNextResult.running.injEq,
      LegsProcedure.mk.injEq, true_and]
    omega

/-- C14: when the current leg has an unrecognized kind, `getNext` does not
return, whatever the legs that follow: the loop reads the current leg once,
before it starts, so every iteration takes the `default` case and only
increments `_currentIndex`. After any number of iterations the loop is still
running and no waypoint has been produced. -/
theorem getNext_on_unrecognized_kind_never_returns (sim : Simulator)
    (procedure : LegsProcedure) (leg : ProcedureLeg) (fuel : Nat)
    (hleg : jsIndex procedure._legs procedure._currentIndex = some leg)
    (hkind : leg.type ≠ 3 ∧ leg.type ≠ 4 ∧ leg.type ≠ 5 ∧ leg.type ≠ 9 ∧ leg.type ≠ 15
      ∧ leg.type ≠ 17 ∧ leg.type ≠ 18) :
    LegsProcedure.getNext sim fuel procedure
      = GetNextResult.running
          { procedure with _currentIndex := procedure._currentIndex + Int.ofNat fuel } := by
  unfold LegsProcedure.getNext
  rw [hleg]
  exact getNextLoop_unrecognized sim leg hkind fuel procedure

/-- C14, at the legs `[kind 1, kind 17]`: after a thousand iterations the loop
is still running, at index `1000`, although the second leg is an exact fix. -/
theorem getNext_on_unrecognized_kind_never_returns_witness :
    (jsIndex (LegsProcedure.new [legOfKind 1, legOfKind 17] (some wpA))._legs
        (LegsProcedure.new [legOfKind 1, legOfKind 17] (some wpA))._currentIndex
      = some (legOfKind 1)) ∧
    LegsProcedure.getNext gridSimulator 1000
        (LegsProcedure.new [legOfKind 1, legOfKind 17] (some wpA))
      = GetNextResult.running
          { LegsProcedure.new [legOfKind 1, legOfKind 17] (some wpA) with
            _currentIndex :=
              (LegsProcedure.new [legOfKind 1, legOfKind 17] (some wpA))._currentIndex
                + Int.ofNat 1000 } :=
  ⟨rfl,
   getNext_on_unrecognized_kind_never_returns gridSimulator
     (LegsProcedure.new [legOfKind 1, legOfKind 17] (some wpA)) (legOfKind 1) 1000 rfl
     (by decide)⟩

theorem nameApproachTransitions_isSome (transitions : List EnrouteTransition)
    (h : ∀ t ∈ transitions, t.legs ≠ []) :
    ∃ named, nameApproachTransitions transitions = some named := by
  induction transitions with
  | nil => exact ⟨[], rfl⟩
  | cons t rest ih =>
    obtain ⟨named, hn⟩ := ih (fun x hx => h x (List.mem_cons_of_mem _ hx))
    have ht := h t (List.mem_cons_self _ _)
    cases hl : t.legs with
    | nil => exact absurd hl ht
    | cons leg legs =>
      refine ⟨{ t with name := icaoIdent leg.fixIcao } :: named, ?_⟩
      simp only [nameApproachTransitions, hl, hn]

theorem nameApproaches_isSome (approaches : List Approach)
    (h : ∀ a ∈ approaches, ∀ t ∈ a.transitions, t.legs ≠ []) :
    ∃ named, nameApproaches approaches = some named := by
  induction approaches with
  | nil => exact ⟨[], rfl⟩
  | cons a rest ih =>
    obtain ⟨named, hn⟩ := ih (fun x hx => h x (List.mem_cons_of_mem _ hx))
    obtain ⟨ts, hts⟩ := nameApproachTransitions_isSome a.transitions
      (h a (List.mem_cons_self _ _))
    refine ⟨{ a with transitions := ts } :: named, ?_⟩
    simp only [nameApproaches, hts, hn]

theorem toWaypoint_fields (sim : Simulator) (f : Facility) (w : WayPoint)
    (h : RawDataMapper.toWaypoint sim f = some w) :
    w.type = jsFirstChar f.icao ∧ w.ident = jsTrim (jsSubstring f.icao 7 12) ∧
    w.icao = f.icao ∧
    w.infos.coordinates = { lat := f.lat, long := f.lon, alt := 0 } := by
  unfold RawDataMapper.toWaypoint at h
  split at h
  · split at h
    · exact absurd h (by simp)
    · simp only [Option.some.injEq] at h
      subst h
      exact ⟨rfl, rfl, rfl, rfl⟩
  · simp only [Option.some.injEq] at h
    subst h
    exact ⟨rfl, rfl, rfl, rfl⟩

theorem toWaypoint_isSome (sim : Simulator) (f : Facility)
    (h : jsFirstChar f.icao ≠ "A" ∨ ∀ a ∈ f.approaches, ∀ t ∈ a.transitions, t.legs ≠ []) :
    ∃ w, RawDataMapper.toWaypoint sim f = some w := by
  unfold RawDataMapper.toWaypoint
  by_cases hA : jsFirstChar f.icao = "A"
  · rcases h with h | h
    · exact absurd hA h
    · obtain ⟨named, hn⟩ := nameApproaches_isSome f.approaches h
      simp only [if_pos hA, hn]
      exact ⟨_, rfl⟩
  · simp only [if_neg hA]
    exact ⟨_, rfl⟩

theorem getNext_of_mapped (sim : Simulator) (procedure : LegsProcedure) (leg : ProcedureLeg)
    (fuel : Nat) (mapped : Option WayPoint)
    (hleg : jsIndex procedure._legs procedure._currentIndex = some leg)
    (hmap : LegsProcedure.mapLeg sim procedure leg = some mapped) :
    LegsProcedure.getNext sim (fuel + 1) procedure
      = match mapped with
        | some w =>
          GetNextResult.returned w
            { procedure with _currentIndex := procedure._currentIndex + 1,
                             _previousFix := some w }
        | none => GetNextResult.threw procedure := by
  unfold LegsProcedure.getNext
  rw [hleg, LegsProcedure.getNextLoop]
  simp only [hmap]
  cases mapped <;> rfl

/-- C16: an exact-fix leg (kind 15, 17 or 18) whose `fixIcao` resolves to a
facility record `f` is decoded to `RawDataMapper.toWaypoint(f)`: `getNext`
returns that waypoint, whose kind tag is the first character of `f.icao`,
whose identifier is the characters 7 to 11 of `f.icao`, trimmed, and whose
coordinates are `(f.lat, f.lon)`. The mapping does return a waypoint for every
record that is not an airport, and for every airport record in which each
approach transition has a leg. -/
theorem exact_fix_resolved_maps_the_facility (sim : Simulator) (procedure : LegsProcedure)
    (leg : ProcedureLeg) (f : Facility) (fuel : Nat)
    (hleg : jsIndex procedure._legs procedure._currentIndex = some leg)
    (hkind : leg.type = 15 ∨ leg.type = 17 ∨ leg.type = 18)
    (hfix : sim.getFacilityRaw leg.fixIcao = some f) :
    LegsProcedure.mapExactFix sim leg = RawDataMapper.toWaypoint sim f ∧
    (∀ w : WayPoint, RawDataMapper.toWaypoint sim f = some w →
      LegsProcedure.getNext sim (fuel + 1) procedure
        = GetNextResult.returned w
            { procedure with _currentIndex := procedure._currentIndex + 1,
                             _previousFix := some w } ∧
      w.type = jsFirstChar f.icao ∧
      w.ident = jsTrim (jsSubstring f.icao 7 12) ∧
      w.infos.coordinates = { lat := f.lat, long := f.lon, alt := 0 }) ∧
    ((jsFirstChar f.icao ≠ "A" ∨ ∀ a ∈ f.approaches, ∀ t ∈ a.transitions, t.legs ≠ []) →
      ∃ w : WayPoint, RawDataMapper.toWaypoint sim f = some w) := by
  have hexact : LegsProcedure.mapExactFix sim leg = RawDataMapper.toWaypoint sim f := by
    unfold LegsProcedure.mapExactFix
    rw [hfix]
  refine ⟨hexact, ?_, toWaypoint_isSome sim f⟩
  intro w hw
  have hf := toWaypoint_fields sim f w hw
  refine ⟨?_, hf.1, hf.2.1, hf.2.2.2⟩
  have hmap := mapLeg_exactFix sim procedure leg hkind
  rw [hexact, hw] at hmap
  exact getNext_of_mapped sim procedure leg fuel (some w) hleg hmap

/-- C16, at an exact-fix leg on the airport whose ICAO string carries the
identifier `KJFK`: the decoded waypoint has `ident = "KJFK"` and type `"A"`. -/
theorem exact_fix_resolved_maps_the_facility_witness :
    (jsIndex (LegsProcedure.new [exactFixLeg "A      KJFK " ""] none)._legs
        (LegsProcedure.new [exactFixLeg "A      KJFK " ""] none)._currentIndex
      = some (exactFixLeg "A      KJFK " "")) ∧
    LegsProcedure.getNext gridSimulator 1 (LegsProcedure.new [exactFixLeg "A      KJFK " ""] none)
      = GetNextResult.returned wpJFK
          { LegsProcedure.new [exactFixLeg "A      KJFK " ""] none with
            _currentIndex := (LegsProcedure.new [exactFixLeg "A      KJFK " ""] none)._currentIndex
              + 1,
            _previousFix := some wpJFK } ∧
    wpJFK.ident = "KJFK" ∧ wpJFK.type = "A" :=
  ⟨rfl,
   ((exact_fix_resolved_maps_the_facility gridSimulator
      (LegsProcedure.new [exactFixLeg "A      KJFK " ""] none)
      (exactFixLeg "A      KJFK " "")
      { icao := "A      KJFK ", lat := 40, lon := -73, approaches := [],
        departures := [sampleDeparture], arrivals := [], runways := [] }
      0 rfl (by decide) (by decide)).2.1 wpJFK (by decide)).1,
   rfl, rfl⟩

/-- C17: an exact-fix leg whose `fixIcao` does not resolve and whose origin
resolves is decoded to a waypoint of type `'W'` whose identifier is the
identifier of the origin followed by the decimal rendering of `rho / 1852`
truncated toward zero; for an exact-fix kind, `getNext` returns it. -/
theorem exact_fix_unresolved_is_a_polar_offset (sim : Simulator) (procedure : LegsProcedure)
    (leg : ProcedureLeg) (origin : Facility) (fuel : Nat)
    (hleg : jsIndex procedure._legs procedure._currentIndex = some leg)
    (hkind : leg.type = 15 ∨ leg.type = 17 ∨ leg.type = 18)
    (hfix : sim.getFacilityRaw leg.fixIcao = none)
    (horigin : sim.getFacilityRaw leg.originIcao = some origin) :
    ∃ w : WayPoint,
      LegsProcedure.mapExactFix sim leg = some w ∧
      LegsProcedure.getNext sim (fuel + 1) procedure
        = GetNextResult.returned w
            { procedure with _currentIndex := procedure._currentIndex + 1,
                             _previousFix := some w } ∧
      w.type = "W" ∧
      w.ident = icaoIdent origin.icao ++ toString (jsTrunc (leg.rho / 1852)) ∧
      w.infos.coordinates
        = sim.bearingDistanceToCoordinates leg.theta (leg.rho / 1852) origin.lat origin.lon := by
  have hexact : LegsProcedure.mapExactFix sim leg
      = some (intersectionWaypoint
          (sim.bearingDistanceToCoordinates leg.theta (leg.rho / 1852) origin.lat origin.lon)
          (icaoIdent origin.icao ++ toString (jsTrunc (leg.rho / 1852)))) := by
    unfold LegsProcedure.mapExactFix
    rw [hfix, horigin]
  refine ⟨_, hexact, ?_, rfl, rfl, rfl⟩
  have hmap := mapLeg_exactFix sim procedure leg hkind
  rw [hexact] at hmap
  exact getNext_of_mapped sim procedure leg fuel _ hleg hmap

/-- C17, at an exact-fix leg whose fix is unknown, whose origin is the VOR
`ABC` and whose `rho` is `18520` metres: the identifier is `"ABC10"`. -/
theorem exact_fix_unresolved_is_a_polar_offset_witness :
    (gridSimulator.getFacilityRaw (exactFixLeg "W      NOFIX" "V      ABC  ").fixIcao = none ∧
      (exactFixLeg "W      NOFIX" "V      ABC  ").rho = 18520) ∧
    ∃ w : WayPoint,
      LegsProcedure.mapExactFix gridSimulator (exactFixLeg "W      NOFIX" "V      ABC  ")
        = some w ∧
      w.type = "W" ∧ w.ident = "ABC10" := by
  refine ⟨⟨by decide, rfl⟩, ?_⟩
  obtain ⟨w, h1, _, h3, h4, _⟩ :=
    exact_fix_unresolved_is_a_polar_offset gridSimulator
      (LegsProcedure.new [exactFixLeg "W      NOFIX" "V      ABC  "] none)
      (exactFixLeg "W      NOFIX" "V      ABC  ")
      { icao := "V      ABC  ", lat := 43, lon := -73, approaches := [], departures := [],
        arrivals := [], runways := [] }
      0 rfl (by decide) (by decide) (by decide)
  refine ⟨w, h1, h3, ?_⟩
  rw [h4]
  have ht : jsTrunc ((exactFixLeg "W      NOFIX" "V      ABC  ").rho / 1852) = 10 := by
    simp only [exactFixLeg, jsTrunc]
    norm_num
  rw [ht]
  decide

/-! ## Building a departure -/

/-- C18: whenever an enroute transition is selected (`departureTransitionIndex`
is not `-1`), the assembly of the leg list in `buildDeparture` throws, because
it reads the transition from `origin.infos.enRouteTransitions`, which is
`undefined`, and not from the selected departure; no leg list reaches the
decoder. -/
theorem buildDepartureLegs_throws_when_a_transition_is_selected (p : ManagedFlightPlan)
    (h : p.procedureDetails.departureTransitionIndex ≠ -1) :
    buildDepartureLegs p = none := by
  unfold buildDepartureLegs
  simp only [if_pos h, WayPointInfo.enRouteTransitions]
  split
  · rename_i r c t hr hc ht
    cases hw : jsIndex p._waypoints 0 with
    | none =>
      rw [hw] at ht
      exact absurd ht (by simp)
    | some o =>
      rw [hw] at ht
      exact absurd ht (by simp)
  · rfl

/-- C18, at the plan whose origin is the sample airport, with its departure,
its runway transition and its enroute transition selected: the selection
stands for four legs, and the assembly throws. -/
theorem buildDepartureLegs_throws_when_a_transition_is_selected_witness :
    ({ planWithSelection with
        procedureDetails :=
          { planWithSelection.procedureDetails with departureTransitionIndex := 0 } }
      : ManagedFlightPlan).procedureDetails.departureTransitionIndex ≠ -1 ∧
    (match wpJFK.infos.airport with
      | some airport => (departureLegsBySelection airport 0 0 0).map (fun leg => leg.fixIcao)
      | none => [])
      = ["W      MERIT", "W      GREKI", "W      ORW  ", "W      BAF  "] ∧
    buildDepartureLegs
      { planWithSelection with
        procedureDetails :=
          { planWithSelection.procedureDetails with departureTransitionIndex := 0 } }
      = none :=
  ⟨by decide, by decide,
   buildDepartureLegs_throws_when_a_transition_is_selected
     { planWithSelection with
        procedureDetails :=
          { planWithSelection.procedureDetails with departureTransitionIndex := 0 } }
     (by decide)⟩

/-- Where no enroute transition is selected and the selected departure and
runway transition exist, the assembled leg list is the one the specification
describes. -/
theorem buildDepartureLegs_without_transition (p : ManagedFlightPlan) (origin : WayPoint)
    (airport : AirportInfo)
    (horigin : jsIndex p._waypoints 0 = some origin)
    (hairport : origin.infos.airport = some airport)
    (htransition : p.procedureDetails.departureTransitionIndex = -1)
    (hdeparture : p.procedureDetails.departureIndex = -1 ∨
      ∃ d, jsIndex airport.departures p.procedureDetails.departureIndex = some d ∧
        (p.procedureDetails.departureRunwayIndex = -1 ∨
          ∃ r, jsIndex d.runwayTransitions p.procedureDetails.departureRunwayIndex = some r)) :
    buildDepartureLegs p
      = some (departureLegsBySelection airport p.procedureDetails.departureIndex
          p.procedureDetails.departureRunwayIndex p.procedureDetails.departureTransitionIndex) := by
  have hneg : ∀ {α : Type} (xs : List α), jsIndex xs (-1) = none := by
    intro α xs
    unfold jsIndex
    rw [if_neg (by decide)]
  have hnt : ¬ p.procedureDetails.departureTransitionIndex ≠ -1 := by
    rw [htransition]
    decide
  unfold buildDepartureLegs departureLegsBySelection
  simp only [horigin, hairport, if_neg hnt]
  rw [htransition]
  rcases hdeparture with hd | ⟨d, hd, hr⟩
  · have h1 : ¬ (p.procedureDetails.departureIndex ≠ -1
        ∧ p.procedureDetails.departureRunwayIndex ≠ -1) := by
      rw [hd]
      simp
    have h2 : ¬ p.procedureDetails.departureIndex ≠ -1 := by
      rw [hd]
      decide
    simp only [if_neg h1, if_neg h2]
    rw [hd, hneg]
    rfl
  · by_cases hdi : p.procedureDetails.departureIndex = -1
    · rw [hdi, hneg] at hd
      exact absurd hd (by simp)
    · simp only [hd, if_pos hdi, hneg]
      rcases hr with hr | ⟨r, hr⟩
      · have h1 : ¬ (p.procedureDetails.departureIndex ≠ -1
            ∧ p.procedureDetails.departureRunwayIndex ≠ -1) := by
          rw [hr]
          simp
        simp only [if_neg h1]
        rw [hr, hneg]
      · by_cases hri : p.procedureDetails.departureRunwayIndex = -1
        · rw [hri, hneg] at hr
          exact absurd hr (by simp)
        · have h1 : p.procedureDetails.departureIndex ≠ -1
              ∧ p.procedureDetails.departureRunwayIndex ≠ -1 := ⟨hdi, hri⟩
          simp only [if_pos h1, hr]

/-- C19: on the plan `[origin, W, X, destination]` whose departure segment is
the indices `1` and `2`, the removal loop of `buildDeparture` returns with `X`
still in the plan: it removes index `1`, which brings `X` to index `1` and
`enrouteStart` to `2`, and then stops at `i = 2`. The removal loop of
`buildArrival` does the same on the same waypoints taken as the arrival
segment. -/
theorem removal_loop_leaves_a_waypoint_of_the_segment :
    SegmentsWithinPlan planWithDeparture ∧
    planWithDeparture.departureStart = 1 ∧ planWithDeparture.enrouteStart = 3 ∧
    (removeDepartureSegment gridUtils 4 planWithDeparture).hasReturned = true ∧
    (removeDepartureSegment gridUtils 4 planWithDeparture).plan._waypoints.map
        WayPoint.stripDerived = [wpA, wpX, wpB] ∧
    (removeDepartureSegment gridUtils 4 planWithDeparture).plan.enrouteStart = 2 ∧
    (removeArrivalSegment gridUtils 4
        { planWithDeparture with enrouteStart := 1, arrivalStart := 1 }).hasReturned = true ∧
    (removeArrivalSegment gridUtils 4
        { planWithDeparture with enrouteStart := 1, arrivalStart := 1 }).plan._waypoints.map
        WayPoint.stripDerived = [wpA, wpX, wpB] := by
  decide

/-- C20: on the plan `[KJFK, KBOS]` built by two `addWaypoint` calls, with an
origin, an empty departure segment (`departureStart = 1`, `enrouteStart = 0`)
and a selection of three legs, `buildDeparture` returns with the three decoded
waypoints at the indices `2`, `3` and `4`, after the destination, and with
`enrouteStart`, `arrivalStart` and `approachStart` as they were. On the plan
`[KJFK]` they land at the indices `1`, `2` and `3`, and `enrouteStart` is
still not advanced. -/
theorem buildDeparture_misplaces_the_departure :
    planWithSelection.hasOrigin = true ∧
    planWithSelection.departureStart = 1 ∧ planWithSelection.enrouteStart = 0 ∧
    planWithSelection.arrivalStart = 1 ∧ planWithSelection.approachStart = 1 ∧
    (buildDepartureLegs planWithSelection).map List.length = some 3 ∧
    (buildDeparture gridSimulator 5 planWithSelection).hasReturned = true ∧
    (buildDeparture gridSimulator 5 planWithSelection).plan._waypoints.map (fun w => w.ident)
      = ["KJFK", "KBOS", "MERIT", "GREKI", "ORW"] ∧
    (buildDeparture gridSimulator 5 planWithSelection).plan.departureStart = 1 ∧
    (buildDeparture gridSimulator 5 planWithSelection).plan.enrouteStart = 0 ∧
    (buildDeparture gridSimulator 5 planWithSelection).plan.arrivalStart = 1 ∧
    (buildDeparture gridSimulator 5 planWithSelection).plan.approachStart = 1 ∧
    (buildDeparture gridSimulator 5
        { planWithSelection with _waypoints := [wpJFK] }).plan._waypoints.map
        (fun w => w.ident) = ["KJFK", "MERIT", "GREKI", "ORW"] ∧
    (buildDeparture gridSimulator 5
        { planWithSelection with _waypoints := [wpJFK] }).plan.enrouteStart = 0 := by
  decide

/-! ## The reflow -/

theorem jsIndex_ofNat {α : Type} (xs : List α) (i : Nat) :
    jsIndex xs (Int.ofNat i) = xs.get? i := by
  have h : (0 : Int) ≤ Int.ofNat i := Int.ofNat_nonneg i
  unfold jsIndex
  rw [if_pos h]
  rfl

theorem jsIndex_ofNat_pred {α : Type} (xs : List α) (i : Nat) (h : 0 < i) :
    jsIndex xs (Int.ofNat i - 1) = xs.get? (i - 1) := by
  have h1 : Int.ofNat i - 1 = Int.ofNat (i - 1) := by
    simp only [Int.ofNat_eq_coe]
    omega
  rw [h1, jsIndex_ofNat]

theorem reflowLoop_notSelected (u : AvionicsUtils) (all : List WayPoint) :
    ∀ (rest : List WayPoint) (i : Nat) (c : ℚ), all.drop i = rest →
      (reflowLoop u false all i c rest).2 = false ∧
      ∀ (j : Nat) (b : WayPoint), (reflowLoop u false all i c rest).1.get? j = some b →
        ∃ w : WayPoint, all.get? (i + j) = some w ∧ b.infos = w.infos ∧
          (0 < i + j → ∃ a : WayPoint, all.get? (i + j - 1) = some a ∧
            b.distanceInFP
              = u.computeGreatCircleDistance a.infos.coordinates w.infos.coordinates ∧
            b.bearingInFP
              = u.computeGreatCircleHeading a.infos.coordinates w.infos.coordinates) := by
  intro rest
  induction rest with
  | nil =>
    intro i c _
    refine ⟨rfl, ?_⟩
    intro j b hb
    exact absurd hb (by simp [reflowLoop])
  | cons w rest ih =>
    intro i c hdrop
    have hi : all.get? i = some w := by
      have h0 : (all.drop i).get? 0 = all.get? (i + 0) := by
        rw [List.get?_eq_getElem?, List.get?_eq_getElem?, List.getElem?_drop]
      rw [hdrop] at h0
      exact h0.symm
    have hrest : all.drop (i + 1) = rest := by
      rw [← List.tail_drop, hdrop]
      rfl
    by_cases hpos : i > 0
    · have hlt : i - 1 < all.length := by
        have := (List.get?_eq_some.mp hi).1
        omega
      have ha : all.get? (i - 1) = some (all.get ⟨i - 1, hlt⟩) := List.get?_eq_get hlt
      have hstep : reflowLoop u false all i c (w :: rest)
          = (({ w with
                bearingInFP := u.computeGreatCircleHeading
                  (all.get ⟨i - 1, hlt⟩).infos.coordinates w.infos.coordinates,
                distanceInFP := u.computeGreatCircleDistance
                  (all.get ⟨i - 1, hlt⟩).infos.coordinates w.infos.coordinates,
                cumulativeDistanceInFP := c + u.computeGreatCircleDistance
                  (all.get ⟨i - 1, hlt⟩).infos.coordinates w.infos.coordinates } : WayPoint)
              :: (reflowLoop u false all (i + 1)
                    (c + u.computeGreatCircleDistance
                      (all.get ⟨i - 1, hlt⟩).infos.coordinates w.infos.coordinates) rest).1,
             (reflowLoop u false all (i + 1)
                    (c + u.computeGreatCircleDistance
                      (all.get ⟨i - 1, hlt⟩).infos.coordinates w.infos.coordinates) rest).2) := by
        rw [reflowLoop]
        simp only [if_pos hpos, Bool.false_eq_true, false_and, if_false, jsIndex_ofNat,
          jsIndex_ofNat_pred _ _ hpos, hi, ha]
      obtain ⟨ih2, ihj⟩ := ih (i + 1)
        (c + u.computeGreatCircleDistance
          (all.get ⟨i - 1, hlt⟩).infos.coordinates w.infos.coordinates) hrest
      rw [hstep]
      refine ⟨ih2, ?_⟩
      intro j b hb
      cases j with
      | zero =>
        simp only [List.get?_cons_zero, Option.some.injEq] at hb
        subst hb
        exact ⟨w, hi, rfl, fun _ => ⟨all.get ⟨i - 1, hlt⟩, ha, rfl, rfl⟩⟩
      | succ j =>
        simp only [List.get?_cons_succ] at hb
        obtain ⟨w2, hw2, hinfo, hrestj⟩ := ihj j b hb
        have e1 : i + (j + 1) = i + 1 + j := by omega
        rw [e1]
        exact ⟨w2, hw2, hinfo, hrestj⟩
    · have hzero : i = 0 := by omega
      have hstep : reflowLoop u false all i c (w :: rest)
          = (w :: (reflowLoop u false all (i + 1) c rest).1,
             (reflowLoop u false all (i + 1) c rest).2) := by
        rw [reflowLoop]
        simp only [if_neg hpos]
      obtain ⟨ih2, ihj⟩ := ih (i + 1) c hrest
      rw [hstep]
      refine ⟨ih2, ?_⟩
      intro j b hb
      cases j with
      | zero =>
        simp only [List.get?_cons_zero, Option.some.injEq] at hb
        subst hb
        refine ⟨w, hi, rfl, ?_⟩
        intro h
        omega
      | succ j =>
        simp only [List.get?_cons_succ] at hb
        obtain ⟨w2, hw2, hinfo, hrestj⟩ := ihj j b hb
        have e1 : i + (j + 1) = i + 1 + j := by omega
        rw [e1]
        exact ⟨w2, hw2, hinfo, hrestj⟩

/-- Without a selected approach the reflow returns, and leaves every waypoint
but the first with the distance and heading from its neighbour. -/
theorem reflow_notSelected (u : AvionicsUtils) (p : ManagedFlightPlan)
    (hsel : p.procedureDetails.approachSelected = false) :
    (_reflowDistances u p).hasThrown = false ∧
    DerivedFromNeighbours u (_reflowDistances u p).plan := by
  obtain ⟨h2, hj⟩ := reflowLoop_notSelected u p._waypoints p._waypoints 0 0 rfl
  have hret : _reflowDistances u p
      = Outcome.returned
          { p with _waypoints := (reflowLoop u false p._waypoints 0 0 p._waypoints).1 } := by
    unfold _reflowDistances
    simp only [hsel, h2]
    rfl
  rw [hret]
  refine ⟨rfl, ?_⟩
  intro i a b hi ha hb
  simp only [Outcome.plan] at ha hb
  obtain ⟨wa, hwa, hinfa, _⟩ := hj (i - 1) a ha
  obtain ⟨wb, hwb, hinfb, hd⟩ := hj i b hb
  simp only [Nat.zero_add] at hwa hwb hd
  obtain ⟨a2, ha2, hdist, hbear⟩ := hd hi
  rw [hwa] at ha2
  cases ha2
  rw [hinfa, hinfb]
  exact ⟨hdist, hbear⟩

theorem shift_procedureDetails (p : ManagedFlightPlan) (w : WayPoint) (i : Int) :
    (_shiftSegmentIndexes p w i).procedureDetails = p.procedureDetails := by
  simp only [_shiftSegmentIndexes, shiftActiveAndDirectTo]
  split_ifs <;> rfl

theorem unshift_procedureDetails (p q : ManagedFlightPlan) (w : Option WayPoint) (i : Int)
    (h : _unshiftSegmentIndexes p w i = some q) :
    q.procedureDetails = p.procedureDetails := by
  simp only [_unshiftSegmentIndexes, unshiftActiveAndDirectTo] at h
  split at h
  · exact absurd h (by simp)
  · simp only [Option.some.injEq] at h
    subst h
    split_ifs <;> rfl
  · split at h
    · exact absurd h (by simp)
    · simp only [Option.some.injEq] at h
      subst h
      split_ifs <;> rfl
    · simp only [Option.some.injEq] at h
      subst h
      split_ifs <;> rfl

theorem unshift_none (p : ManagedFlightPlan) (w : Option WayPoint) (i : Int)
    (h : _unshiftSegmentIndexes p w i = none) : w = none ∧ 0 ≤ i := by
  cases w with
  | some x =>
    obtain ⟨q, hq⟩ := unshift_isSome_of_some p x i
    rw [hq] at h
    exact absurd h (by simp)
  | none =>
    refine ⟨rfl, ?_⟩
    by_cases h0 : i = 0
    · omega
    · by_cases h1 : i = Int.ofNat p._waypoints.length - 1 ∧ Int.ofNat p._waypoints.length > 1
      · simp only [Int.ofNat_eq_coe] at h1
        omega
      · unfold _unshiftSegmentIndexes at h
        simp only [if_neg h0, if_neg h1] at h
        exact absurd h (by simp)

/-- How `removeWaypoint` ends: it throws, which it does on an empty plan only,
or it ends with the reflow of a plan with the same procedure details. -/
theorem removeWaypoint_cases (u : AvionicsUtils) (p : ManagedFlightPlan) (index : Option Int) :
    (p._waypoints = [] ∧
      ∃ P : ManagedFlightPlan, removeWaypoint u p index = Outcome.threw P ∧ P._waypoints = []) ∨
    (∃ q : ManagedFlightPlan, removeWaypoint u p index = _reflowDistances u q ∧
      q.procedureDetails = p.procedureDetails) := by
  by_cases h : index = none ∨ ∃ i : Int, index = some i ∧ Int.ofNat p._waypoints.length ≤ i
  · rw [removeWaypoint_pop u p index h]
    cases hq : _unshiftSegmentIndexes { p with _waypoints := p._waypoints.dropLast }
        p._waypoints.getLast? (Int.ofNat p._waypoints.length) with
    | none =>
      left
      have hnil : p._waypoints = [] := by
        have := (unshift_none _ _ _ hq).1
        exact List.getLast?_eq_none_iff.mp this
      refine ⟨hnil, _, rfl, ?_⟩
      show p._waypoints.dropLast = []
      rw [hnil]
      rfl
    | some q =>
      right
      have hpd := unshift_procedureDetails _ q _ _ hq
      exact ⟨q, rfl, hpd⟩
  · cases index with
    | none => exact absurd (Or.inl rfl) h
    | some i =>
      have hlt : i < Int.ofNat p._waypoints.length := by
        by_contra hc
        exact h (Or.inr ⟨i, rfl, by omega⟩)
      rw [removeWaypoint_splice u p i hlt]
      cases hq : _unshiftSegmentIndexes { p with _waypoints := jsSpliceRemove p._waypoints i }
          (jsIndex p._waypoints i) i with
      | none =>
        exfalso
        obtain ⟨hw, h0⟩ := unshift_none _ _ _ hq
        have hin : i.toNat < p._waypoints.length := by
          simp only [Int.ofNat_eq_coe] at hlt
          omega
        rw [jsIndex_of_inRange _ _ h0 hin] at hw
        exact absurd hw (by simp)
      | some q =>
        right
        have hpd := unshift_procedureDetails _ q _ _ hq
        exact ⟨q, rfl, hpd⟩

theorem addWaypoint_reflow (u : AvionicsUtils) (p : ManagedFlightPlan) (w : WayPoint)
    (index : Option Int) :
    ∃ q : ManagedFlightPlan, addWaypoint u p w index = _reflowDistances u q ∧
      q.procedureDetails = p.procedureDetails := by
  by_cases h : index = none ∨ ∃ i : Int, index = some i ∧ Int.ofNat p._waypoints.length ≤ i
  · exact ⟨_, addWaypoint_push u p w index h, shift_procedureDetails _ _ _⟩
  · cases index with
    | none => exact absurd (Or.inl rfl) h
    | some i =>
      have hlt : i < Int.ofNat p._waypoints.length := by
        by_contra hc
        exact h (Or.inr ⟨i, rfl, by omega⟩)
      exact ⟨_, addWaypoint_splice u p w i hlt, shift_procedureDetails _ _ _⟩

/-- C11: on a plan with no approach selected, `addWaypoint` returns, and after
it, and after any `removeWaypoint`, every waypoint at an index `i > 0` has
`distanceInFP` equal to the great-circle distance, and `bearingInFP` equal to
the great-circle heading, from the coordinates of waypoint `i - 1` to its own.
A `removeWaypoint` that throws was called on an empty plan and leaves it
empty. -/
theorem distances_follow_neighbours_after_a_call (u : AvionicsUtils) (p : ManagedFlightPlan)
    (w : WayPoint) (index : Option Int)
    (hsel : p.procedureDetails.approachSelected = false) :
    (addWaypoint u p w index).hasThrown = false ∧
    DerivedFromNeighbours u (addWaypoint u p w index).plan ∧
    DerivedFromNeighbours u (removeWaypoint u p index).plan ∧
    ((removeWaypoint u p index).hasThrown = true →
      p._waypoints = [] ∧ (removeWaypoint u p index).plan._waypoints = []) := by
  obtain ⟨q, hq, hpd⟩ := addWaypoint_reflow u p w index
  have hqsel : q.procedureDetails.approachSelected = false := by
    rw [hpd]
    exact hsel
  have hadd := reflow_notSelected u q hqsel
  rw [hq]
  refine ⟨hadd.1, hadd.2, ?_⟩
  rcases removeWaypoint_cases u p index with ⟨hnil, P, hP, hPnil⟩ | ⟨r, hr, hrpd⟩
  · rw [hP]
    refine ⟨?_, fun _ => ⟨hnil, hPnil⟩⟩
    intro i a b _ _ hb
    simp only [Outcome.plan, hPnil] at hb
    exact absurd hb (by simp)
  · have hrsel : r.procedureDetails.approachSelected = false := by
      rw [hrpd]
      exact hsel
    have hrem := reflow_notSelected u r hrsel
    rw [hr]
    refine ⟨hrem.2, ?_⟩
    intro ht
    rw [hrem.1] at ht
    exact absurd ht (by simp)

/-- C11, at the plan `[KJFK, MERIT]` and an appended `ORW`. -/
theorem distances_follow_neighbours_after_a_call_witness :
    ({ ManagedFlightPlan.new with _waypoints := [wpA, wpW] }
      : ManagedFlightPlan).procedureDetails.approachSelected = false ∧
    (addWaypoint gridUtils { ManagedFlightPlan.new with _waypoints := [wpA, wpW] } wpX
      none).hasThrown = false ∧
    DerivedFromNeighbours gridUtils
      (addWaypoint gridUtils { ManagedFlightPlan.new with _waypoints := [wpA, wpW] } wpX
        none).plan ∧
    DerivedFromNeighbours gridUtils
      (removeWaypoint gridUtils { ManagedFlightPlan.new with _waypoints := [wpA, wpW] }
        none).plan :=
  ⟨rfl,
   (distances_follow_neighbours_after_a_call gridUtils
      { ManagedFlightPlan.new with _waypoints := [wpA, wpW] } wpX none rfl).1,
   (distances_follow_neighbours_after_a_call gridUtils
      { ManagedFlightPlan.new with _waypoints := [wpA, wpW] } wpX none rfl).2.1,
   (distances_follow_neighbours_after_a_call gridUtils
      { ManagedFlightPlan.new with _waypoints := [wpA, wpW] } wpX none rfl).2.2.1⟩

/-- C12: on the plan that three `addWaypoint` calls build from a new plan,
`removeWaypoint(0)` returns and leaves the waypoint that is now first with the
cumulative distance `1` it had as second waypoint; the waypoint after it gets
the cumulative distance `1` of a sum that starts at `0`, not `1 + 1`. The
reflow never writes the derived fields of the waypoint at index `0`. -/
theorem reflow_keeps_stale_fields_on_the_first_waypoint :
    (removeWaypoint gridUtils
      (runOps gridUtils ManagedFlightPlan.new
        [Op.add wpA none, Op.add wpW none, Op.add wpX none]) (some 0)).hasThrown = false ∧
    (runOps gridUtils ManagedFlightPlan.new
      [Op.add wpA none, Op.add wpW none, Op.add wpX none, Op.remove (some 0)])._waypoints.map
        (fun w => (w.ident, w.distanceInFP, w.cumulativeDistanceInFP))
      = [("MERIT", 1, 1), ("ORW", 1, 1)] ∧
    ¬ CumulativeFromPrevious
      (runOps gridUtils ManagedFlightPlan.new
        [Op.add wpA none, Op.add wpW none, Op.add wpX none, Op.remove (some 0)]) := by
  have h1 : (removeWaypoint gridUtils
      (runOps gridUtils ManagedFlightPlan.new
        [Op.add wpA none, Op.add wpW none, Op.add wpX none]) (some 0)).hasThrown = false := by
    decide
  have h2 : (runOps gridUtils ManagedFlightPlan.new
      [Op.add wpA none, Op.add wpW none, Op.add wpX none, Op.remove (some 0)])._waypoints.map
        (fun w => (w.ident, w.distanceInFP, w.cumulativeDistanceInFP))
      = [("MERIT", 1, 1), ("ORW", 1, 1)] := by
    decide!
  refine ⟨h1, h2, ?_⟩
  intro hc
  cases hws : (runOps gridUtils ManagedFlightPlan.new
      [Op.add wpA none, Op.add wpW none, Op.add wpX none, Op.remove (some 0)])._waypoints with
  | nil =>
    rw [hws] at h2
    exact absurd h2 (by simp)
  | cons a t =>
    cases t with
    | nil =>
      rw [hws] at h2
      exact absurd h2 (by simp)
    | cons b t2 =>
      rw [hws] at h2
      simp only [List.map_cons, List.cons.injEq, Prod.mk.injEq] at h2
      have hab := (hc 1 a b (by decide) (by rw [hws]; rfl) (by rw [hws]; rfl))
      rw [h2.1.2.2, h2.2.1.2.1, h2.2.1.2.2] at hab
      norm_num at hab

/-! ## The caller's loop over the decoder -/

theorem drop_cons_get {α : Type} (xs rest : List α) (x : α) (k : Nat)
    (h : xs.drop k = x :: rest) :
    xs.get? k = some x ∧ xs.drop (k + 1) = rest ∧ k < xs.length := by
  have h0 : (xs.drop k).get? 0 = xs.get? (k + 0) := by
    rw [List.get?_eq_getElem?, List.get?_eq_getElem?, List.getElem?_drop]
  rw [h] at h0
  have h1 : xs.drop (k + 1) = rest := by
    rw [← List.tail_drop, h]
    rfl
  refine ⟨h0.symm, h1, ?_⟩
  by_contra hc
  have : xs.drop k = [] := List.drop_eq_nil_of_le (by omega)
  rw [this] at h
  exact absurd h (by simp)

theorem decodingsInTurn_cons (sim : Simulator) (legs rest : List ProcedureLeg)
    (leg : ProcedureLeg) (k : Int) (prev : Option WayPoint) (ws : List WayPoint)
    (h : decodingsInTurn sim legs (leg :: rest) k prev = some ws) :
    ∃ (w : WayPoint) (ws2 : List WayPoint), ws = w :: ws2 ∧
      LegsProcedure.mapLeg sim { _legs := legs, _previousFix := prev, _currentIndex := k } leg
        = some (some w) ∧
      decodingsInTurn sim legs rest (k + 1) (some w) = some ws2 := by
  rw [decodingsInTurn] at h
  split at h
  · rename_i w hw
    split at h
    · rename_i ws2 hws2
      simp only [Option.some.injEq] at h
      exact ⟨w, ws2, h.symm, hw, hws2⟩
    · exact absurd h (by simp)
  · exact absurd h (by simp)

theorem hasNext_iff (legs : List ProcedureLeg) (prev : Option WayPoint) (k : Nat) :
    (LegsProcedure.hasNext { _legs := legs, _previousFix := prev, _currentIndex := Int.ofNat k }
      = true) ↔ k < legs.length := by
  unfold LegsProcedure.hasNext
  simp only [Int.ofNat_eq_coe, decide_eq_true_eq]
  omega

theorem drain_finishes (sim : Simulator) (legs : List ProcedureLeg) (inner : Nat)
    (hinner : 0 < inner) :
    ∀ (rest : List ProcedureLeg) (k : Nat) (prev : Option WayPoint)
      (ws produced : List WayPoint) (fuel : Nat),
      legs.drop k = rest → k ≤ legs.length →
      decodingsInTurn sim legs rest (Int.ofNat k) prev = some ws →
      rest.length ≤ fuel →
      LegsProcedure.drain sim inner fuel
          { _legs := legs, _previousFix := prev, _currentIndex := Int.ofNat k } produced
        = DrainResult.finished (produced ++ ws)
            { _legs := legs,
              _previousFix := (match ws.getLast? with
                | some w => some w
                | none => prev),
              _currentIndex := Int.ofNat legs.length } := by
  intro rest
  induction rest with
  | nil =>
    intro k prev ws produced fuel hdrop hk hdec _
    have hkl : k = legs.length := by
      have := List.drop_eq_nil_iff.mp hdrop
      omega
    have hws : ws = [] := by
      rw [decodingsInTurn] at hdec
      simp only [Option.some.injEq] at hdec
      exact hdec.symm
    have hno : ¬ (LegsProcedure.hasNext
        { _legs := legs, _previousFix := prev, _currentIndex := Int.ofNat k } = true) := by
      rw [hasNext_iff]
      omega
    subst hws
    subst hkl
    cases fuel with
    | zero =>
      rw [LegsProcedure.drain, if_neg hno]
      simp
    | succ f =>
      rw [LegsProcedure.drain, if_neg hno]
      simp
  | cons leg rest ih =>
    intro k prev ws produced fuel hdrop hk hdec hfuel
    obtain ⟨hget, hrest, hlt⟩ := drop_cons_get legs rest leg k hdrop
    obtain ⟨w, ws2, hws, hmap, hdec2⟩ := decodingsInTurn_cons sim legs rest leg _ prev ws hdec
    have hyes : LegsProcedure.hasNext
        { _legs := legs, _previousFix := prev, _currentIndex := Int.ofNat k } = true := by
      rw [hasNext_iff]
      exact hlt
    cases fuel with
    | zero => simp at hfuel
    | succ f =>
      obtain ⟨i, hi⟩ : ∃ i, inner = i + 1 := ⟨inner - 1, by omega⟩
      have hnext := getNext_of_mapped sim
        { _legs := legs, _previousFix := prev, _currentIndex := Int.ofNat k } leg i (some w)
        (by rw [jsIndex_ofNat]; exact hget) hmap
      rw [LegsProcedure.drain, if_pos hyes, hi, hnext]
      simp only
      have hidx : Int.ofNat k + 1 = Int.ofNat (k + 1) := rfl
      rw [hidx]
      have hf : rest.length ≤ f := by
        simp only [List.length_cons] at hfuel
        omega
      rw [← hi, ih (k + 1) (some w) ws2 (produced ++ [w]) f hrest (by omega) hdec2 hf, hws]
      have hlast : (match (w :: ws2).getLast? with
          | some x => some x
          | none => prev)
          = (match ws2.getLast? with
              | some x => some x
              | none => some w) := by
        cases ws2 with
        | nil => rfl
        | cons y ys =>
          rw [List.getLast?_cons_cons, List.getLast?_eq_getLast (y :: ys) (by simp)]
      rw [hlast, List.append_assoc]
      rfl

theorem drain_still_running (sim : Simulator) (legs : List ProcedureLeg) (inner : Nat)
    (hinner : 0 < inner) :
    ∀ (rest : List ProcedureLeg) (k : Nat) (prev : Option WayPoint)
      (ws produced : List WayPoint) (fuel : Nat),
      legs.drop k = rest →
      decodingsInTurn sim legs rest (Int.ofNat k) prev = some ws →
      fuel < rest.length →
      ∃ procedure : LegsProcedure,
        procedure.hasNext = true ∧ procedure._currentIndex = Int.ofNat (k + fuel) ∧
        LegsProcedure.drain sim inner fuel
            { _legs := legs, _previousFix := prev, _currentIndex := Int.ofNat k } produced
          = DrainResult.running (produced ++ ws.take fuel) procedure := by
  intro rest
  induction rest with
  | nil =>
    intro k prev ws produced fuel _ _ hfuel
    simp at hfuel
  | cons leg rest ih =>
    intro k prev ws produced fuel hdrop hdec hfuel
    obtain ⟨hget, hrest, hlt⟩ := drop_cons_get legs rest leg k hdrop
    obtain ⟨w, ws2, hws, hmap, hdec2⟩ := decodingsInTurn_cons sim legs rest leg _ prev ws hdec
    have hyes : LegsProcedure.hasNext
        { _legs := legs, _previousFix := prev, _currentIndex := Int.ofNat k } = true := by
      rw [hasNext_iff]
      exact hlt
    cases fuel with
    | zero =>
      refine ⟨_, hyes, rfl, ?_⟩
      rw [LegsProcedure.drain, if_pos hyes]
      simp
    | succ f =>
      obtain ⟨i, hi⟩ : ∃ i, inner = i + 1 := ⟨inner - 1, by omega⟩
      have hnext := getNext_of_mapped sim
        { _legs := legs, _previousFix := prev, _currentIndex := Int.ofNat k } leg i (some w)
        (by rw [jsIndex_ofNat]; exact hget) hmap
      have hf : f < rest.length := by
        simp only [List.length_cons] at hfuel
        omega
      obtain ⟨procedure, hp1, hp2, hp3⟩ :=
        ih (k + 1) (some w) ws2 (produced ++ [w]) f hrest hdec2 hf
      refine ⟨procedure, hp1, ?_, ?_⟩
      · rw [hp2]
        congr 1
        omega
      · rw [LegsProcedure.drain, if_pos hyes, hi, hnext]
        simp only
        have hidx : Int.ofNat k + 1 = Int.ofNat (k + 1) := rfl
        rw [hidx, ← hi, hp3, hws, List.take_succ_cons, List.append_assoc]
        rfl

theorem decodingsInTurn_get (sim : Simulator) (legs : List ProcedureLeg) :
    ∀ (rest : List ProcedureLeg) (k : Nat) (prev : Option WayPoint) (ws : List WayPoint),
      decodingsInTurn sim legs rest (Int.ofNat k) prev = some ws →
      ws.length = rest.length ∧
      ∀ j : Nat, j < rest.length →
        ∃ (wj : WayPoint) (leg : ProcedureLeg),
          ws.get? j = some wj ∧ rest.get? j = some leg ∧
          LegsProcedure.mapLeg sim
              { _legs := legs,
                _previousFix := if j = 0 then prev else ws.get? (j - 1),
                _currentIndex := Int.ofNat (k + j) } leg
            = some (some wj) := by
  intro rest
  induction rest with
  | nil =>
    intro k prev ws hdec
    rw [decodingsInTurn] at hdec
    simp only [Option.some.injEq] at hdec
    subst hdec
    refine ⟨rfl, ?_⟩
    intro j hj
    simp at hj
  | cons leg rest ih =>
    intro k prev ws hdec
    obtain ⟨w, ws2, hws, hmap, hdec2⟩ := decodingsInTurn_cons sim legs rest leg _ prev ws hdec
    have hidx : Int.ofNat k + 1 = Int.ofNat (k + 1) := rfl
    rw [hidx] at hdec2
    obtain ⟨hlen, hj2⟩ := ih (k + 1) (some w) ws2 hdec2
    subst hws
    refine ⟨by simp [hlen], ?_⟩
    intro j hj
    cases j with
    | zero => exact ⟨w, leg, rfl, rfl, hmap⟩
    | succ j =>
      have hj' : j < rest.length := by
        simp only [List.length_cons] at hj
        omega
      obtain ⟨wj, lj, h1, h2, h3⟩ := hj2 j hj'
      refine ⟨wj, lj, h1, h2, ?_⟩
      have e1 : k + (j + 1) = k + 1 + j := by omega
      have e2 : (if j + 1 = 0 then prev else (w :: ws2).get? (j + 1 - 1))
          = (if j = 0 then some w else ws2.get? (j - 1)) := by
        cases j with
        | zero => rfl
        | succ j2 => rfl
      rw [e1, e2]
      exact h3

/-- C15, as the specification states it, fails: the one-leg list `[kind 5]`
has a recognized kind and every facility it names resolves, yet the loop
produces no waypoint: the decoder of a heading-to-intercept leg reads the leg
after it, which does not exist, and throws. -/
theorem drain_throws_on_a_last_intercept_leg :
    (legOfKind 5).type = 5 ∧
    (gridSimulator.getFacilityRaw (legOfKind 5).originIcao).isSome = true ∧
    (LegsProcedure.new [legOfKind 5] (some wpA)).hasNext = true ∧
    LegsProcedure.drain gridSimulator 3 3 (LegsProcedure.new [legOfKind 5] (some wpA)) []
      = DrainResult.threw [] (LegsProcedure.new [legOfKind 5] (some wpA)) := by
  decide

/-- C15, amended: for a list of `n` legs each of which has a decoding in its
turn (its kind is recognized and its decoder does not throw, which for a leg
of kind 5 needs a leg after it), the loop `while hasNext() do getNext()` on a
new `LegsProcedure` ends with exactly `n` waypoints; the `k`-th is the decoding
of the `k`-th leg with the waypoint produced before it (the starting point,
for the first) as previous fix; after fewer than `n` calls `hasNext()` is
true, after the `n`-th it is false. -/
theorem drain_yields_the_decodings_in_turn (sim : Simulator) (legs : List ProcedureLeg)
    (start : Option WayPoint) (ws : List WayPoint) (inner fuel : Nat)
    (hdec : decodingsInTurn sim legs legs 0 start = some ws)
    (hinner : 0 < inner) (hfuel : legs.length ≤ fuel) :
    ws.length = legs.length ∧
    LegsProcedure.drain sim inner fuel (LegsProcedure.new legs start) []
      = DrainResult.finished ws
          { _legs := legs,
            _previousFix := (match ws.getLast? with
              | some w => some w
              | none => start),
            _currentIndex := Int.ofNat legs.length } ∧
    LegsProcedure.hasNext
      { _legs := legs,
        _previousFix := (match ws.getLast? with
          | some w => some w
          | none => start),
        _currentIndex := Int.ofNat legs.length } = false ∧
    (∀ k : Nat, k < legs.length →
      ∃ procedure : LegsProcedure,
        procedure.hasNext = true ∧ procedure._currentIndex = Int.ofNat k ∧
        LegsProcedure.drain sim inner k (LegsProcedure.new legs start) []
          = DrainResult.running (ws.take k) procedure) ∧
    (∀ k : Nat, k < legs.length →
      ∃ (wk : WayPoint) (leg : ProcedureLeg),
        ws.get? k = some wk ∧ legs.get? k = some leg ∧
        LegsProcedure.mapLeg sim
            { _legs := legs,
              _previousFix := if k = 0 then start else ws.get? (k - 1),
              _currentIndex := Int.ofNat k } leg
          = some (some wk)) := by
  have hdec0 : decodingsInTurn sim legs legs (Int.ofNat 0) start = some ws := hdec
  have hnew : LegsProcedure.new legs start
      = { _legs := legs, _previousFix := start, _currentIndex := Int.ofNat 0 } := rfl
  obtain ⟨hlen, hget⟩ := decodingsInTurn_get sim legs legs 0 start ws hdec0
  refine ⟨hlen, ?_, ?_, ?_, ?_⟩
  · rw [hnew, drain_finishes sim legs inner hinner legs 0 start ws [] fuel rfl (Nat.zero_le _)
      hdec0 hfuel]
    rfl
  · cases hn : LegsProcedure.hasNext
        { _legs := legs,
          _previousFix := (match ws.getLast? with
            | some w => some w
            | none => start),
          _currentIndex := Int.ofNat legs.length } with
    | false => rfl
    | true =>
      have := (hasNext_iff legs _ legs.length).mp hn
      omega
  · intro k hk
    obtain ⟨procedure, h1, h2, h3⟩ :=
      drain_still_running sim legs inner hinner legs 0 start ws [] k rfl hdec0 hk
    refine ⟨procedure, h1, ?_, ?_⟩
    · rw [h2, Nat.zero_add]
    · rw [hnew, h3]
      rfl
  · intro k hk
    obtain ⟨wk, leg, h1, h2, h3⟩ := hget k hk
    rw [Nat.zero_add] at h3
    exact ⟨wk, leg, h1, h2, h3⟩

/-- C15, amended, at two exact-fix legs on `MERIT` and `GREKI`. -/
theorem drain_yields_the_decodings_in_turn_witness :
    decodingsInTurn gridSimulator
        [exactFixLeg "W      MERIT" "", exactFixLeg "W      GREKI" ""]
        [exactFixLeg "W      MERIT" "", exactFixLeg "W      GREKI" ""] 0 (some wpA)
      = some [wpMERIT, wpGREKI] ∧
    LegsProcedure.drain gridSimulator 1 2
        (LegsProcedure.new [exactFixLeg "W      MERIT" "", exactFixLeg "W      GREKI" ""]
          (some wpA)) []
      = DrainResult.finished [wpMERIT, wpGREKI]
          { _legs := [exactFixLeg "W      MERIT" "", exactFixLeg "W      GREKI" ""],
            _previousFix := (match [wpMERIT, wpGREKI].getLast? with
              | some w => some w
              | none => some wpA),
            _currentIndex :=
              Int.ofNat [exactFixLeg "W      MERIT" "", exactFixLeg "W      GREKI" ""].length } :=
  ⟨by decide,
   (drain_yields_the_decodings_in_turn gridSimulator
      [exactFixLeg "W      MERIT" "", exactFixLeg "W      GREKI" ""] (some wpA)
      [wpMERIT, wpGREKI] 1 2 (by decide) (by decide) (by decide)).2.1⟩

/-! ## The segment views -/

theorem jsSpliceStart_of_nat (len n : Nat) (h : n ≤ len) :
    jsSpliceStart len (Int.ofNat n) = n := by
  unfold jsSpliceStart
  simp only [Int.ofNat_eq_coe]
  have h0 : ¬ ((n : Int) < 0) := by omega
  rw [if_neg h0, Int.toNat_ofNat]
  omega

theorem jsSlice_of_nat {α : Type} (xs : List α) (a b : Nat) (hab : a ≤ b) (hb : b ≤ xs.length) :
    jsSlice xs (Int.ofNat a) (Int.ofNat b) = (xs.take b).drop a := by
  unfold jsSlice
  rw [jsSpliceStart_of_nat _ b hb, jsSpliceStart_of_nat _ a (by omega)]

theorem take_append_slice {α : Type} (xs : List α) (a b : Nat) (hab : a ≤ b) :
    xs.take a ++ (xs.take b).drop a = xs.take b := by
  have h := List.take_append_drop a (xs.take b)
  rw [List.take_take, Nat.min_eq_left hab] at h
  exact h

theorem slice_get {α : Type} (xs : List α) (a b k : Nat)
    (hk : k < ((xs.take b).drop a).length) :
    ((xs.take b).drop a).get? k = xs.get? (a + k) := by
  simp only [List.length_drop, List.length_take] at hk
  rw [List.get?_eq_getElem?, List.get?_eq_getElem?, List.getElem?_drop, List.getElem?_take]
  split_ifs with h
  · rfl
  · omega

theorem segment_get (p : ManagedFlightPlan) (a b k : Nat)
    (hk : k < ((p._waypoints.take b).drop a).length) :
    jsIndex ((p._waypoints.take b).drop a) (Int.ofNat k)
      = getWaypoint p (Int.ofNat a + Int.ofNat k) := by
  have hk2 := hk
  simp only [List.length_drop, List.length_take] at hk2
  have e : Int.ofNat a + Int.ofNat k = Int.ofNat (a + k) := rfl
  rw [e, jsIndex_ofNat]
  unfold getWaypoint
  have hc : Int.ofNat (a + k) ≥ 0 ∧ Int.ofNat (a + k) < Int.ofNat p._waypoints.length := by
    constructor
    · exact Int.ofNat_nonneg _
    · have : a + k < p._waypoints.length := by omega
      exact Int.ofNat_lt.mpr this
  rw [if_pos hc, jsIndex_ofNat]
  exact slice_get p._waypoints a b k hk

/-- C30. Under `0 ≤ enrouteStart ≤ arrivalStart ≤ approachStart ≤ length` the
four segment views partition the plan: their waypoints, in the order
departure, enroute, arrival, approach, make up the whole sequence, their
offsets are `0`, `enrouteStart`, `arrivalStart` and `approachStart`, and the
waypoint at a position `k` of a segment `s` is `getWaypoint(s.offset + k)`. -/
theorem segment_views_partition_the_plan (p : ManagedFlightPlan)
    (h0 : 0 ≤ p.enrouteStart) (h1 : p.enrouteStart ≤ p.arrivalStart)
    (h2 : p.arrivalStart ≤ p.approachStart) (h3 : p.approachStart ≤ Int.ofNat p.length) :
    p.departure.waypoints ++ p.enroute.waypoints ++ p.arrival.waypoints ++ p.approach.waypoints
        = p._waypoints ∧
    p.departure.offset = 0 ∧ p.enroute.offset = p.enrouteStart ∧
    p.arrival.offset = p.arrivalStart ∧ p.approach.offset = p.approachStart ∧
    ∀ s ∈ [p.departure, p.enroute, p.arrival, p.approach], ∀ k : Nat,
      k < s.waypoints.length →
        jsIndex s.waypoints (Int.ofNat k) = getWaypoint p (s.offset + Int.ofNat k) := by
  obtain ⟨a, ha⟩ := Int.eq_ofNat_of_zero_le h0
  obtain ⟨b, hb⟩ := Int.eq_ofNat_of_zero_le (le_trans h0 h1)
  obtain ⟨c, hc⟩ := Int.eq_ofNat_of_zero_le (le_trans (le_trans h0 h1) h2)
  have hab : a ≤ b := by omega
  have hbc : b ≤ c := by omega
  have hcl : c ≤ p._waypoints.length := by
    have hl : p._waypoints.length = p.length := rfl
    rw [Int.ofNat_eq_coe] at h3
    omega
  have e0 : (0 : Int) = Int.ofNat 0 := rfl
  have ha2 : p.enrouteStart = Int.ofNat a := ha
  have hb2 : p.arrivalStart = Int.ofNat b := hb
  have hc2 : p.approachStart = Int.ofNat c := hc
  have ed : p.departure.waypoints = (p._waypoints.take a).drop 0 := by
    unfold ManagedFlightPlan.departure
    simp only []
    rw [ha2, e0, jsSlice_of_nat _ 0 a (by omega) (by omega)]
  have ee : p.enroute.waypoints = (p._waypoints.take b).drop a := by
    unfold ManagedFlightPlan.enroute
    simp only []
    rw [ha2, hb2, jsSlice_of_nat _ a b hab (by omega)]
  have ea : p.arrival.waypoints = (p._waypoints.take c).drop b := by
    unfold ManagedFlightPlan.arrival
    simp only []
    rw [hb2, hc2, jsSlice_of_nat _ b c hbc hcl]
  have ep : p.approach.waypoints = (p._waypoints.take p._waypoints.length).drop c := by
    unfold ManagedFlightPlan.approach
    simp only []
    rw [hc2, jsSlice_of_nat _ c _ hcl (le_refl _)]
  refine ⟨?_, rfl, rfl, rfl, rfl, ?_⟩
  · rw [ed, ee, ea, ep, List.drop_zero, take_append_slice _ a b hab,
      take_append_slice _ b c hbc, take_append_slice _ c _ hcl, List.take_length]
  · intro s hs k hk
    simp only [List.mem_cons, List.mem_singleton, List.not_mem_nil, or_false] at hs
    rcases hs with hs | hs | hs | hs
    · subst hs
      rw [ed] at hk ⊢
      have := segment_get p 0 a k hk
      rw [this]
      rfl
    · subst hs
      rw [ee] at hk ⊢
      have := segment_get p a b k hk
      rw [this]
      show getWaypoint p (Int.ofNat a + Int.ofNat k) = getWaypoint p (p.enrouteStart + Int.ofNat k)
      rw [ha2]
    · subst hs
      rw [ea] at hk ⊢
      have := segment_get p b c k hk
      rw [this]
      show getWaypoint p (Int.ofNat b + Int.ofNat k) = getWaypoint p (p.arrivalStart + Int.ofNat k)
      rw [hb2]
    · subst hs
      rw [ep] at hk ⊢
      have := segment_get p c _ k hk
      rw [this]
      show getWaypoint p (Int.ofNat c + Int.ofNat k) = getWaypoint p (p.approachStart + Int.ofNat k)
      rw [hc2]

theorem segment_views_partition_the_plan_witness :
    planWithDeparture.departure.waypoints = [wpA, wpW, wpX] ∧
    planWithDeparture.approach.waypoints = [wpB] ∧
    (planWithDeparture.departure.waypoints ++ planWithDeparture.enroute.waypoints
        ++ planWithDeparture.arrival.waypoints ++ planWithDeparture.approach.waypoints
        = planWithDeparture._waypoints ∧
    planWithDeparture.departure.offset = 0 ∧
    planWithDeparture.enroute.offset = planWithDeparture.enrouteStart ∧
    planWithDeparture.arrival.offset = planWithDeparture.arrivalStart ∧
    planWithDeparture.approach.offset = planWithDeparture.approachStart ∧
    ∀ s ∈ [planWithDeparture.departure, planWithDeparture.enroute, planWithDeparture.arrival,
        planWithDeparture.approach], ∀ k : Nat,
      k < s.waypoints.length →
        jsIndex s.waypoints (Int.ofNat k) = getWaypoint planWithDeparture (s.offset + Int.ofNat k)) :=
  ⟨by decide, by decide,
    segment_views_partition_the_plan planWithDeparture (by decide) (by decide) (by decide)
      (by decide)⟩

/-! ## The runway comparer -/

theorem sortRunways_of_parsed (r1 r2 : OneWayRunway) (n1 n2 : Int)
    (h1 : jsParseInt r1.designation = some n1) (h2 : jsParseInt r2.designation = some n2) :
    RawDataMapper.sortRunways r1 r2
      = some (if n1 = n2 then runwaySuffixRank r1.designation - runwaySuffixRank r2.designation
              else n1 - n2) := by
  unfold RawDataMapper.sortRunways
  rw [h1, h2]
  simp only []
  split_ifs <;> rfl

theorem runwaySuffixRank_range (designation : String) :
    0 ≤ runwaySuffixRank designation ∧ runwaySuffixRank designation ≤ 3 := by
  unfold runwaySuffixRank
  split_ifs <;> omega

/-- C29. The comparer returns a difference, not one of `-1`, `0`, `1`: the
difference of the runway numbers (`-18` for `09` and `27`), or of the suffix
ranks when the numbers are equal (`-2` for `09L` and `09R`). Its sign is that
of the order by number first, then by suffix with none before `L` before `C`
before `R`. -/
theorem sortRunways_returns_a_difference :
    RawDataMapper.sortRunways { designation := "09" } { designation := "27" } = some (-18) ∧
    RawDataMapper.sortRunways { designation := "09L" } { designation := "09R" } = some (-2) ∧
    RawDataMapper.sortRunways { designation := "27" } { designation := "09R" } = some 18 ∧
    ∀ (r1 r2 : OneWayRunway) (n1 n2 : Int),
      jsParseInt r1.designation = some n1 → jsParseInt r2.designation = some n2 →
      ∃ v : Int, RawDataMapper.sortRunways r1 r2 = some v ∧
        (v < 0 ↔ (n1 < n2 ∨ (n1 = n2 ∧
          runwaySuffixRank r1.designation < runwaySuffixRank r2.designation))) ∧
        (v = 0 ↔ (n1 = n2 ∧
          runwaySuffixRank r1.designation = runwaySuffixRank r2.designation)) ∧
        (0 < v ↔ (n2 < n1 ∨ (n1 = n2 ∧
          runwaySuffixRank r2.designation < runwaySuffixRank r1.designation))) := by
  refine ⟨by decide, by decide, by decide, ?_⟩
  intro r1 r2 n1 n2 h1 h2
  refine ⟨_, sortRunways_of_parsed r1 r2 n1 n2 h1 h2, ?_⟩
  by_cases h : n1 = n2
  · rw [if_pos h]
    omega
  · rw [if_neg h]
    omega

/-! ## The radial-for-distance decoder -/

theorem mapOriginRadialForDistance_blank (sim : Simulator) (leg : ProcedureLeg)
    (prev : WayPoint) (origin : Facility) (hfix : jsTrim leg.fixIcao = "")
    (horigin : sim.getFacilityRaw leg.originIcao = some origin) :
    LegsProcedure.mapOriginRadialForDistance sim leg (some prev)
      = some (intersectionWaypoint
          (sim.bearingDistanceToCoordinates leg.course (leg.distance / 1852)
            prev.infos.coordinates.lat prev.infos.coordinates.long)
          (icaoIdent origin.icao ++ toString (jsTrunc
            (sim.utils.computeGreatCircleDistance
              { lat := origin.lat, long := origin.lon, alt := 0 }
              (sim.bearingDistanceToCoordinates leg.course (leg.distance / 1852)
                prev.infos.coordinates.lat prev.infos.coordinates.long) / 1852)))) := by
  unfold LegsProcedure.mapOriginRadialForDistance
  rw [if_neg (by simp [hfix]), horigin]

/-- C28. On a leg of kind 4 with a blank fix the decoded waypoint stands at
the projection from the previous fix along `leg.course` for `leg.distance / 1852`,
and its identifier is the identifier of the origin followed by the integer part
of the great-circle distance of that point from the origin divided by `1852`:
for a point `7` away from the origin `ABC` the identifier is `ABC0`, not
`ABC7`. -/
theorem radial_for_distance_ident_divides_the_distance :
    gridSimulator.utils.computeGreatCircleDistance { lat := 43, long := -73, alt := 0 }
        { lat := 50, long := -73, alt := 0 } = 7 ∧
    LegsProcedure.mapOriginRadialForDistance gridSimulator (legOfKind 4) (some wpA)
      = some (intersectionWaypoint { lat := 50, long := -73, alt := 0 } "ABC0") ∧
    ∀ (sim : Simulator) (leg : ProcedureLeg) (prev : WayPoint) (origin : Facility),
      jsTrim leg.fixIcao = "" → sim.getFacilityRaw leg.originIcao = some origin →
      ∃ w : WayPoint, LegsProcedure.mapOriginRadialForDistance sim leg (some prev) = some w ∧
        w.infos.coordinates
          = sim.bearingDistanceToCoordinates leg.course (leg.distance / 1852)
              prev.infos.coordinates.lat prev.infos.coordinates.long ∧
        w.ident = icaoIdent origin.icao ++ toString (jsTrunc
          (sim.utils.computeGreatCircleDistance
            { lat := origin.lat, long := origin.lon, alt := 0 } w.infos.coordinates / 1852)) ∧
        w.infos.ident = w.ident := by
  refine ⟨by decide!, by decide!, ?_⟩
  intro sim leg prev origin hfix horigin
  exact ⟨_, mapOriginRadialForDistance_blank sim leg prev origin hfix horigin, rfl, rfl, rfl⟩

/-! ## The insertion index -/

theorem addWaypoint_at (u : AvionicsUtils) (p : ManagedFlightPlan) (w : WayPoint)
    (index : Option Int) :
    ∃ ws : List WayPoint,
      addWaypoint u p w index
        = _reflowDistances u
            (_shiftSegmentIndexes { p with _waypoints := ws } w (insertionIndex p index)) ∧
      ws.length = p._waypoints.length + 1 ∧
      ((insertionIndex p index = Int.ofNat p._waypoints.length ∧ ws = p._waypoints ++ [w]) ∨
        (insertionIndex p index < Int.ofNat p._waypoints.length ∧
          index = some (insertionIndex p index) ∧
          ws = jsSpliceInsert p._waypoints (insertionIndex p index) w)) := by
  cases index with
  | none =>
    refine ⟨p._waypoints ++ [w], addWaypoint_push u p w none (Or.inl rfl), by simp,
      Or.inl ⟨rfl, rfl⟩⟩
  | some i =>
    by_cases h : i < Int.ofNat p._waypoints.length
    · have e : insertionIndex p (some i) = i := by
        unfold insertionIndex
        simp only []
        rw [if_neg (by omega)]
      rw [e]
      refine ⟨jsSpliceInsert p._waypoints i w, addWaypoint_splice u p w i h, ?_,
        Or.inr ⟨h, rfl, rfl⟩⟩
      unfold jsSpliceInsert
      have := jsSpliceStart_le p._waypoints.length i
      simp only [List.length_append, List.length_take, List.length_cons, List.length_drop]
      omega
    · have h2 : Int.ofNat p._waypoints.length ≤ i := by omega
      have e : insertionIndex p (some i) = Int.ofNat p._waypoints.length := by
        unfold insertionIndex
        simp only []
        rw [if_pos (by omega)]
      rw [e]
      refine ⟨p._waypoints ++ [w], addWaypoint_push u p w (some i) (Or.inr ⟨i, rfl, h2⟩),
        by simp, Or.inl ⟨rfl, rfl⟩⟩

theorem shiftTail_frame (p : ManagedFlightPlan) (i : Int) :
    (shiftActiveAndDirectTo p i)._waypoints = p._waypoints ∧
    (shiftActiveAndDirectTo p i)._hasOrigin = p._hasOrigin ∧
    (shiftActiveAndDirectTo p i)._hasDestination = p._hasDestination ∧
    (shiftActiveAndDirectTo p i).departureStart = p.departureStart ∧
    (shiftActiveAndDirectTo p i).enrouteStart = p.enrouteStart ∧
    (shiftActiveAndDirectTo p i).arrivalStart = p.arrivalStart ∧
    (shiftActiveAndDirectTo p i).approachStart = p.approachStart := by
  unfold shiftActiveAndDirectTo
  by_cases ha : i < p.activeWaypointIndex
  · simp only [if_pos ha]
    split_ifs <;> exact ⟨rfl, rfl, rfl, rfl, rfl, rfl, rfl⟩
  · simp only [if_neg ha]
    split_ifs <;> exact ⟨rfl, rfl, rfl, rfl, rfl, rfl, rfl⟩

theorem shiftTail_directTo (p : ManagedFlightPlan) (i : Int) :
    (shiftActiveAndDirectTo p i).directTo.isActive = p.directTo.isActive ∧
    (shiftActiveAndDirectTo p i).directTo.waypointIsInFlightPlan
      = p.directTo.waypointIsInFlightPlan ∧
    (shiftActiveAndDirectTo p i).directTo.waypointIndex
      = (if p.directTo.isActive = true ∧ p.directTo.waypointIsInFlightPlan = true
            ∧ i < p.directTo.waypointIndex
         then p.directTo.waypointIndex + 1 else p.directTo.waypointIndex) := by
  unfold shiftActiveAndDirectTo
  by_cases ha : i < p.activeWaypointIndex
  · simp only [if_pos ha]
    split_ifs <;> exact ⟨rfl, rfl, rfl⟩
  · simp only [if_neg ha]
    split_ifs <;> exact ⟨rfl, rfl, rfl⟩

theorem shift_else (p : ManagedFlightPlan) (w : WayPoint) (i : Int)
    (horigin : ¬ (i = 0 ∧ w.type = "A"))
    (hdest : ¬ (i = Int.ofNat p._waypoints.length - 1 ∧ Int.ofNat p._waypoints.length > 1
      ∧ w.type = "A")) :
    (_shiftSegmentIndexes p w i)._hasOrigin = p._hasOrigin ∧
    (_shiftSegmentIndexes p w i)._hasDestination = p._hasDestination ∧
    (_shiftSegmentIndexes p w i).departureStart = p.departureStart ∧
    (_shiftSegmentIndexes p w i).enrouteStart
      = (if i < p.enrouteStart then p.enrouteStart + 1 else p.enrouteStart) ∧
    (_shiftSegmentIndexes p w i).arrivalStart
      = (if i ≤ p.arrivalStart then
          max ((if i < p.enrouteStart then p.enrouteStart + 1 else p.enrouteStart) + 1)
            (p.arrivalStart + 1)
         else p.arrivalStart) ∧
    (_shiftSegmentIndexes p w i).approachStart
      = (if i ≤ p.approachStart then
          max (if i ≤ p.arrivalStart then
                max ((if i < p.enrouteStart then p.enrouteStart + 1 else p.enrouteStart) + 1)
                  (p.arrivalStart + 1)
               else p.arrivalStart)
            (p.approachStart + 1)
         else p.approachStart) := by
  unfold _shiftSegmentIndexes
  simp only [if_neg horigin, if_neg hdest]
  have h := shiftTail_frame
    { p with
      enrouteStart := if i < p.enrouteStart then p.enrouteStart + 1 else p.enrouteStart,
      arrivalStart :=
        if i ≤ p.arrivalStart then
          max ((if i < p.enrouteStart then p.enrouteStart + 1 else p.enrouteStart) + 1)
            (p.arrivalStart + 1)
        else p.arrivalStart,
      approachStart :=
        if i ≤ p.approachStart then
          max (if i ≤ p.arrivalStart then
                max ((if i < p.enrouteStart then p.enrouteStart + 1 else p.enrouteStart) + 1)
                  (p.arrivalStart + 1)
               else p.arrivalStart)
            (p.approachStart + 1)
        else p.approachStart } i
  exact ⟨h.2.1, h.2.2.1, h.2.2.2.1, h.2.2.2.2.1, h.2.2.2.2.2.1, h.2.2.2.2.2.2⟩

theorem shift_directTo (p : ManagedFlightPlan) (w : WayPoint) (i : Int) :
    (_shiftSegmentIndexes p w i).directTo.isActive = p.directTo.isActive ∧
    (_shiftSegmentIndexes p w i).directTo.waypointIsInFlightPlan
      = p.directTo.waypointIsInFlightPlan ∧
    (_shiftSegmentIndexes p w i).directTo.waypointIndex
      = (if p.directTo.isActive = true ∧ p.directTo.waypointIsInFlightPlan = true
            ∧ i < p.directTo.waypointIndex
         then p.directTo.waypointIndex + 1 else p.directTo.waypointIndex) := by
  unfold _shiftSegmentIndexes
  simp only [shiftTail_directTo]
  split_ifs <;> exact ⟨rfl, rfl, rfl⟩

theorem reflow_directTo (u : AvionicsUtils) (p : ManagedFlightPlan) :
    (_reflowDistances u p).plan.directTo = p.directTo := by
  obtain ⟨ws, h, _⟩ := reflow_plan u p
  rw [h]


/-- C23, as stated: after `addWaypoint` of an airport on a new plan
`enrouteStart` is `0`; an intersection inserted at index `0`, which is neither
the origin case nor the destination case, leaves it at `0`, although the
insertion index is at the boundary. -/
theorem enrouteStart_stays_at_the_insertion_index :
    insertionIndex planOfOneAirport (some 0) = 0 ∧ wpW.type ≠ "A" ∧
    planOfOneAirport.enrouteStart = 0 ∧
    (addWaypoint gridUtils planOfOneAirport wpW (some 0)).plan.enrouteStart = 0 ∧
    ¬ MovesAtOrAfter (insertionIndex planOfOneAirport (some 0)) planOfOneAirport.enrouteStart
        (addWaypoint gridUtils planOfOneAirport wpW (some 0)).plan.enrouteStart := by
  decide

/-- C23, amended. On an insertion that is neither the origin case nor the
destination case, at index `i`: `enrouteStart` is incremented by one when `i`
is strictly before it and is unchanged otherwise, equality included; each of
`arrivalStart` and `approachStart` that is at or after `i` ends strictly
greater, and each that is before `i` is unchanged. -/
theorem insertion_moves_the_boundaries (u : AvionicsUtils) (p : ManagedFlightPlan)
    (w : WayPoint) (index : Option Int)
    (horigin : ¬ (insertionIndex p index = 0 ∧ w.type = "A"))
    (hdest : ¬ (insertionIndex p index = Int.ofNat p.length ∧ 0 < p.length ∧ w.type = "A")) :
    (addWaypoint u p w index).plan.enrouteStart
      = (if insertionIndex p index < p.enrouteStart then p.enrouteStart + 1
         else p.enrouteStart) ∧
    MovesAtOrAfter (insertionIndex p index) p.arrivalStart
      (addWaypoint u p w index).plan.arrivalStart ∧
    MovesAtOrAfter (insertionIndex p index) p.approachStart
      (addWaypoint u p w index).plan.approachStart := by
  obtain ⟨ws, hadd, hlen, _⟩ := addWaypoint_at u p w index
  have hd : ¬ (insertionIndex p index
        = Int.ofNat ({ p with _waypoints := ws } : ManagedFlightPlan)._waypoints.length - 1
      ∧ Int.ofNat ({ p with _waypoints := ws } : ManagedFlightPlan)._waypoints.length > 1
      ∧ w.type = "A") := by
    intro h
    apply hdest
    have h1 := h.1
    have h2 := h.2.1
    simp only [Int.ofNat_eq_coe] at h1 h2 ⊢
    have hl : p.length = p._waypoints.length := rfl
    refine ⟨?_, ?_, h.2.2⟩
    · rw [hl]
      omega
    · rw [hl]
      omega
  have hs := shift_else { p with _waypoints := ws } w (insertionIndex p index) horigin hd
  have hf := reflow_fields u
    (_shiftSegmentIndexes { p with _waypoints := ws } w (insertionIndex p index))
  rw [hadd, hf.2.2.2.1, hf.2.2.2.2.1, hf.2.2.2.2.2.1, hs.2.2.2.1, hs.2.2.2.2.1,
    hs.2.2.2.2.2]
  simp only []
  unfold MovesAtOrAfter
  refine ⟨trivial, ⟨?_, ?_⟩, ⟨?_, ?_⟩⟩
  · intro h
    rw [if_pos h]
    omega
  · intro h
    rw [if_neg (by omega)]
  · intro h
    rw [if_pos h]
    omega
  · intro h
    rw [if_neg (by omega)]

theorem insertion_moves_the_boundaries_witness :
    (addWaypoint gridUtils planOfOneAirport wpW (some 0)).plan.arrivalStart = 2 ∧
    ((addWaypoint gridUtils planOfOneAirport wpW (some 0)).plan.enrouteStart
      = (if insertionIndex planOfOneAirport (some 0) < planOfOneAirport.enrouteStart
         then planOfOneAirport.enrouteStart + 1 else planOfOneAirport.enrouteStart) ∧
    MovesAtOrAfter (insertionIndex planOfOneAirport (some 0)) planOfOneAirport.arrivalStart
      (addWaypoint gridUtils planOfOneAirport wpW (some 0)).plan.arrivalStart ∧
    MovesAtOrAfter (insertionIndex planOfOneAirport (some 0)) planOfOneAirport.approachStart
      (addWaypoint gridUtils planOfOneAirport wpW (some 0)).plan.approachStart) :=
  ⟨by decide,
    insertion_moves_the_boundaries gridUtils planOfOneAirport wpW (some 0) (by decide)
      (by decide)⟩

/-! ## The waypoint that an index denotes -/

theorem insertAt_get {α : Type} (xs : List α) (x : α) (n : Nat) (hn : n ≤ xs.length)
    (j : Nat) :
    (xs.take n ++ x :: xs.drop n).get? j
      = if j < n then xs.get? j else if j = n then some x else xs.get? (j - 1) := by
  have hl : (xs.take n).length = n := by
    rw [List.length_take]
    omega
  rw [List.get?_eq_getElem?]
  by_cases h1 : j < n
  · rw [if_pos h1, List.getElem?_append_left (by omega), List.getElem?_take, if_pos h1,
      List.get?_eq_getElem?]
  · rw [if_neg h1, List.getElem?_append_right (by omega), hl]
    by_cases h2 : j = n
    · rw [if_pos h2, h2, Nat.sub_self, List.getElem?_cons_zero]
    · rw [if_neg h2]
      obtain ⟨k, hk⟩ : ∃ k, j - n = k + 1 := ⟨j - n - 1, by omega⟩
      rw [hk, List.getElem?_cons_succ, List.getElem?_drop, List.get?_eq_getElem?]
      congr 1
      omega

theorem jsIndex_none_of_neg {α : Type} (xs : List α) (z : Int) (h : z < 0) :
    jsIndex xs z = none := by
  unfold jsIndex
  rw [if_neg (by omega)]

theorem jsIndex_toNat {α : Type} (xs : List α) (z : Int) (h : 0 ≤ z) :
    jsIndex xs z = xs.get? z.toNat := by
  unfold jsIndex
  rw [if_pos h]

theorem jsIndex_map {α β : Type} (f : α → β) (xs : List α) (z : Int) :
    jsIndex (xs.map f) z = (jsIndex xs z).map f := by
  unfold jsIndex
  split_ifs
  · rw [List.get?_eq_getElem?, List.get?_eq_getElem?, List.getElem?_map]
  · rfl

theorem getWaypoint_eq_jsIndex (p : ManagedFlightPlan) (z : Int) :
    getWaypoint p z = jsIndex p._waypoints z := by
  unfold getWaypoint
  by_cases h : z ≥ 0 ∧ z < Int.ofNat p._waypoints.length
  · rw [if_pos h]
  · rw [if_neg h]
    by_cases h0 : 0 ≤ z
    · rw [jsIndex_toNat _ _ h0, List.get?_eq_getElem?]
      symm
      apply List.getElem?_eq_none
      simp only [Int.ofNat_eq_coe] at h
      omega
    · rw [jsIndex_none_of_neg _ _ (by omega)]

theorem insertAt_moved {α : Type} (xs : List α) (x : α) (i z : Int) (h0 : 0 ≤ i)
    (hi : i ≤ Int.ofNat xs.length) :
    (z ≠ i → jsIndex (xs.take i.toNat ++ x :: xs.drop i.toNat) (if i < z then z + 1 else z)
      = jsIndex xs z) ∧
    (z = i → jsIndex (xs.take i.toNat ++ x :: xs.drop i.toNat) (if i < z then z + 1 else z)
      = some x) := by
  simp only [Int.ofNat_eq_coe] at hi
  have hn : i.toNat ≤ xs.length := by omega
  constructor
  · intro hz
    by_cases h : i < z
    · rw [if_pos h, jsIndex_toNat _ _ (by omega), jsIndex_toNat _ _ (by omega),
        insertAt_get xs x _ hn, if_neg (by omega), if_neg (by omega)]
      congr 1
      omega
    · rw [if_neg h]
      by_cases hz0 : 0 ≤ z
      · rw [jsIndex_toNat _ _ hz0, jsIndex_toNat _ _ hz0, insertAt_get xs x _ hn,
          if_pos (by omega)]
      · rw [jsIndex_none_of_neg _ _ (by omega), jsIndex_none_of_neg _ _ (by omega)]
  · intro hz
    rw [if_neg (by omega), hz, jsIndex_toNat _ _ h0, insertAt_get xs x _ hn,
      if_neg (by omega), if_pos rfl]

theorem addWaypoint_stripped (u : AvionicsUtils) (p : ManagedFlightPlan) (w : WayPoint)
    (index : Option Int) (h0 : 0 ≤ insertionIndex p index) :
    insertionIndex p index ≤ Int.ofNat p._waypoints.length ∧
    (addWaypoint u p w index).plan._waypoints.map WayPoint.stripDerived
      = (p._waypoints.take (insertionIndex p index).toNat
          ++ w :: p._waypoints.drop (insertionIndex p index).toNat).map
            WayPoint.stripDerived := by
  obtain ⟨ws, hadd, _, hcase⟩ := addWaypoint_at u p w index
  obtain ⟨rs, h1, h2⟩ := reflow_plan u
    (_shiftSegmentIndexes { p with _waypoints := ws } w (insertionIndex p index))
  rw [shift_waypoints] at h2
  rw [hadd, h1]
  simp only [] at h2 ⊢
  rw [h2]
  rcases hcase with ⟨hi, hws⟩ | ⟨hi, _, hws⟩
  · refine ⟨le_of_eq hi, ?_⟩
    rw [hws, hi]
    simp only [Int.ofNat_eq_coe, Int.toNat_ofNat, List.take_length, List.drop_length]
  · refine ⟨le_of_lt hi, ?_⟩
    rw [hws]
    unfold jsSpliceInsert
    rw [jsSpliceStart_of_inRange _ _ h0 hi]

theorem addWaypoint_denotes (u : AvionicsUtils) (p : ManagedFlightPlan) (w : WayPoint)
    (index : Option Int) (h0 : 0 ≤ insertionIndex p index) (z : Int) :
    (z ≠ insertionIndex p index →
      (getWaypoint (addWaypoint u p w index).plan
          (if insertionIndex p index < z then z + 1 else z)).map WayPoint.stripDerived
        = (getWaypoint p z).map WayPoint.stripDerived) ∧
    (z = insertionIndex p index →
      (getWaypoint (addWaypoint u p w index).plan
          (if insertionIndex p index < z then z + 1 else z)).map WayPoint.stripDerived
        = some w.stripDerived) := by
  obtain ⟨hi, hs⟩ := addWaypoint_stripped u p w index h0
  have hm := insertAt_moved p._waypoints w (insertionIndex p index) z h0 hi
  rw [getWaypoint_eq_jsIndex, getWaypoint_eq_jsIndex, ← jsIndex_map, ← jsIndex_map, hs,
    jsIndex_map, jsIndex_map]
  constructor
  · intro hz
    rw [hm.1 hz]
  · intro hz
    rw [hm.2 hz]
    rfl


/-! ## The active index and the direct-to index under insertion -/

/-- C24, as stated: on the plan of one airport the active index is `0`, and an
insertion at index `0` leaves it at `0`, where the inserted waypoint now
stands; the airport that was active stands at index `1`. The index of a
direct-to that is active and in the plan behaves the same way. -/
theorem active_index_stays_at_the_insertion_index :
    insertionIndex planOfOneAirport (some 0) = 0 ∧
    planOfOneAirport.activeWaypointIndex = 0 ∧
    (addWaypoint gridUtils planOfOneAirport wpW (some 0)).plan.activeWaypointIndex = 0 ∧
    ¬ IncrementedAtOrAfter 0 planOfOneAirport.activeWaypointIndex
        (addWaypoint gridUtils planOfOneAirport wpW (some 0)).plan.activeWaypointIndex ∧
    (getWaypoint planOfOneAirport 0).map WayPoint.stripDerived = some wpA ∧
    (getWaypoint (addWaypoint gridUtils planOfOneAirport wpW (some 0)).plan 0).map
        WayPoint.stripDerived = some wpW ∧
    planWithDirectTo.directTo.waypointIndex = 0 ∧
    ¬ IncrementedAtOrAfter 0 planWithDirectTo.directTo.waypointIndex
        (addWaypoint gridUtils planWithDirectTo wpW (some 0)).plan.directTo.waypointIndex := by
  decide!

/-- C24, amended. On an insertion at index `i` the active index is
incremented by one exactly when `i` is strictly before it, and the index of a
direct-to that is active and in the plan is incremented by one exactly when
`i` is strictly before it. For `i ≥ 0`, an index that differs from `i` denotes
the same waypoint after the insertion as before, and an index equal to `i`
stays and denotes the inserted waypoint. -/
theorem insertion_moves_the_indexes_behind_it (u : AvionicsUtils) (p : ManagedFlightPlan)
    (w : WayPoint) (index : Option Int) :
    (addWaypoint u p w index).plan.activeWaypointIndex
      = (if insertionIndex p index < p.activeWaypointIndex then p.activeWaypointIndex + 1
         else p.activeWaypointIndex) ∧
    (addWaypoint u p w index).plan.directTo.waypointIndex
      = (if p.directTo.isActive = true ∧ p.directTo.waypointIsInFlightPlan = true
            ∧ insertionIndex p index < p.directTo.waypointIndex
         then p.directTo.waypointIndex + 1 else p.directTo.waypointIndex) ∧
    (0 ≤ insertionIndex p index →
      (p.activeWaypointIndex ≠ insertionIndex p index →
        (getWaypoint (addWaypoint u p w index).plan
            (addWaypoint u p w index).plan.activeWaypointIndex).map WayPoint.stripDerived
          = (getWaypoint p p.activeWaypointIndex).map WayPoint.stripDerived) ∧
      (p.activeWaypointIndex = insertionIndex p index →
        (getWaypoint (addWaypoint u p w index).plan
            (addWaypoint u p w index).plan.activeWaypointIndex).map WayPoint.stripDerived
          = some w.stripDerived)) ∧
    (0 ≤ insertionIndex p index → p.directTo.isActive = true →
      p.directTo.waypointIsInFlightPlan = true →
      (p.directTo.waypointIndex ≠ insertionIndex p index →
        (getWaypoint (addWaypoint u p w index).plan
            (addWaypoint u p w index).plan.directTo.waypointIndex).map WayPoint.stripDerived
          = (getWaypoint p p.directTo.waypointIndex).map WayPoint.stripDerived) ∧
      (p.directTo.waypointIndex = insertionIndex p index →
        (getWaypoint (addWaypoint u p w index).plan
            (addWaypoint u p w index).plan.directTo.waypointIndex).map WayPoint.stripDerived
          = some w.stripDerived)) := by
  obtain ⟨ws, hadd, _, _⟩ := addWaypoint_at u p w index
  have hf := reflow_fields u
    (_shiftSegmentIndexes { p with _waypoints := ws } w (insertionIndex p index))
  have hd := reflow_directTo u
    (_shiftSegmentIndexes { p with _waypoints := ws } w (insertionIndex p index))
  have ha := shift_active { p with _waypoints := ws } w (insertionIndex p index)
  have hs := shift_directTo { p with _waypoints := ws } w (insertionIndex p index)
  have hactive : (addWaypoint u p w index).plan.activeWaypointIndex
      = (if insertionIndex p index < p.activeWaypointIndex then p.activeWaypointIndex + 1
         else p.activeWaypointIndex) := by
    rw [hadd, hf.2.2.2.2.2.2.1, ha]
  have hdirect : (addWaypoint u p w index).plan.directTo.waypointIndex
      = (if p.directTo.isActive = true ∧ p.directTo.waypointIsInFlightPlan = true
            ∧ insertionIndex p index < p.directTo.waypointIndex
         then p.directTo.waypointIndex + 1 else p.directTo.waypointIndex) := by
    rw [hadd, hd, hs.2.2]
  refine ⟨hactive, hdirect, ?_, ?_⟩
  · intro h0
    rw [hactive]
    exact addWaypoint_denotes u p w index h0 p.activeWaypointIndex
  · intro h0 h1 h2
    have hden := addWaypoint_denotes u p w index h0 p.directTo.waypointIndex
    rw [hdirect]
    by_cases hlt : insertionIndex p index < p.directTo.waypointIndex
    · rw [if_pos ⟨h1, h2, hlt⟩]
      rw [if_pos hlt] at hden
      exact hden
    · rw [if_neg (fun h => hlt h.2.2)]
      rw [if_neg hlt] at hden
      exact hden

/-! ## The boundaries under removal -/

theorem unshiftTail_directTo (p : ManagedFlightPlan) (i : Int) :
    (unshiftActiveAndDirectTo p i).directTo.waypointIndex
      = (if p.directTo.isActive = true ∧ p.directTo.waypointIsInFlightPlan = true
            ∧ i < p.directTo.waypointIndex
         then p.directTo.waypointIndex - 1 else p.directTo.waypointIndex) := by
  unfold unshiftActiveAndDirectTo
  by_cases ha : i < p.activeWaypointIndex
  · simp only [if_pos ha]
    split_ifs <;> rfl
  · simp only [if_neg ha]
    split_ifs <;> rfl

theorem unshift_directTo (p q : ManagedFlightPlan) (w : Option WayPoint) (i : Int)
    (hq : _unshiftSegmentIndexes p w i = some q) :
    q.directTo.waypointIndex
      = (if p.directTo.isActive = true ∧ p.directTo.waypointIsInFlightPlan = true
            ∧ i < p.directTo.waypointIndex
         then p.directTo.waypointIndex - 1 else p.directTo.waypointIndex) := by
  unfold _unshiftSegmentIndexes at hq
  split at hq
  · exact absurd hq (by simp)
  · simp only [Option.some.injEq] at hq
    rw [← hq, unshiftTail_directTo]
  · split at hq
    · exact absurd hq (by simp)
    · simp only [Option.some.injEq] at hq
      rw [← hq, unshiftTail_directTo]
    · simp only [Option.some.injEq] at hq
      rw [← hq, unshiftTail_directTo]

theorem unshift_else (p : ManagedFlightPlan) (x : WayPoint) (i : Int)
    (h : x.type ≠ "A" ∨ (i ≠ 0 ∧ i ≠ Int.ofNat p._waypoints.length - 1)) :
    ∃ q : ManagedFlightPlan, _unshiftSegmentIndexes p (some x) i = some q ∧
      q._hasOrigin = p._hasOrigin ∧ q._hasDestination = p._hasDestination ∧
      q.departureStart = p.departureStart ∧
      q.enrouteStart = (if i < p.enrouteStart then p.enrouteStart - 1 else p.enrouteStart) ∧
      q.arrivalStart = (if i < p.arrivalStart then p.arrivalStart - 1 else p.arrivalStart) ∧
      q.approachStart
        = (if i < p.approachStart then p.approachStart - 1 else p.approachStart) := by
  have h1 : (if i = 0 then typeIsAirport (some x) else some false) = some false := by
    by_cases hi : i = 0
    · rw [if_pos hi]
      rcases h with hx | ⟨hne, _⟩
      · simp [typeIsAirport, WayPoint.isAirport, hx]
      · exact absurd hi hne
    · rw [if_neg hi]
  have h2 : (if i = Int.ofNat p._waypoints.length - 1 ∧ Int.ofNat p._waypoints.length > 1
        then typeIsAirport (some x) else some false) = some false := by
    by_cases hi : i = Int.ofNat p._waypoints.length - 1 ∧ Int.ofNat p._waypoints.length > 1
    · rw [if_pos hi]
      rcases h with hx | ⟨_, hne⟩
      · simp [typeIsAirport, WayPoint.isAirport, hx]
      · exact absurd hi.1 hne
    · rw [if_neg hi]
  unfold _unshiftSegmentIndexes
  rw [h1]
  simp only []
  rw [h2]
  simp only []
  have hf := unshiftTail_frame
    { p with
      enrouteStart := if i < p.enrouteStart then p.enrouteStart - 1 else p.enrouteStart,
      arrivalStart := if i < p.arrivalStart then p.arrivalStart - 1 else p.arrivalStart,
      approachStart :=
        if i < p.approachStart then p.approachStart - 1 else p.approachStart } i
  exact ⟨_, rfl, hf.2.1, hf.2.2.1, hf.2.2.2.1, hf.2.2.2.2.1, hf.2.2.2.2.2.1,
    hf.2.2.2.2.2.2.1⟩

theorem removeWaypoint_inRange (u : AvionicsUtils) (p : ManagedFlightPlan) (i : Int)
    (h0 : 0 ≤ i) (hi : i < Int.ofNat p._waypoints.length) :
    ∃ (x : WayPoint) (q : ManagedFlightPlan), jsIndex p._waypoints i = some x ∧
      (jsSpliceRemove p._waypoints i).length + 1 = p._waypoints.length ∧
      _unshiftSegmentIndexes { p with _waypoints := jsSpliceRemove p._waypoints i } (some x) i
        = some q ∧
      removeWaypoint u p (some i) = _reflowDistances u q := by
  have hi2 := hi
  simp only [Int.ofNat_eq_coe] at hi2
  have hn : i.toNat < p._waypoints.length := by omega
  have hx := jsIndex_of_inRange p._waypoints i h0 hn
  obtain ⟨q, hq⟩ := unshift_isSome_of_some
    { p with _waypoints := jsSpliceRemove p._waypoints i } (p._waypoints.get ⟨i.toNat, hn⟩) i
  refine ⟨_, q, hx, ?_, hq, ?_⟩
  · unfold jsSpliceRemove
    rw [jsSpliceStart_of_inRange _ _ h0 hi, List.length_eraseIdx_of_lt hn]
    omega
  · rw [removeWaypoint_splice u p i hi, hx, hq]

/-- C25. Removing the airport that stands before the last waypoint is neither
the origin case nor the destination case, yet the code runs its destination
branch: on the plan of an airport, an airport and an intersection, with
`arrivalStart = approachStart = 3`, the removal at index `1` leaves both at `3`.
Every other in-range removal that is not of an airport at index `0`
decrements by one exactly the boundaries strictly greater than the index, and
every in-range removal decrements the active index, and the index of a
direct-to that is active and in the plan, by one exactly when the removal
index is strictly less than it. -/
theorem removing_the_airport_before_the_last_moves_no_boundary :
    (planOfThree._waypoints.map WayPoint.stripDerived = [wpB, wpA, wpX] ∧
      planOfThree.arrivalStart = 3 ∧ planOfThree.approachStart = 3 ∧
      (removeWaypoint gridUtils planOfThree (some 1)).hasThrown = false ∧
      (removeWaypoint gridUtils planOfThree (some 1)).plan.arrivalStart = 3 ∧
      (removeWaypoint gridUtils planOfThree (some 1)).plan.approachStart = 3) ∧
    ∀ (u : AvionicsUtils) (p : ManagedFlightPlan) (i : Int),
      0 ≤ i → i < Int.ofNat p._waypoints.length →
      (∀ x : WayPoint, jsIndex p._waypoints i = some x →
        (x.type ≠ "A" ∨ (i ≠ 0 ∧ i ≠ Int.ofNat p._waypoints.length - 2)) →
        (removeWaypoint u p (some i)).plan.enrouteStart
          = (if i < p.enrouteStart then p.enrouteStart - 1 else p.enrouteStart) ∧
        (removeWaypoint u p (some i)).plan.arrivalStart
          = (if i < p.arrivalStart then p.arrivalStart - 1 else p.arrivalStart) ∧
        (removeWaypoint u p (some i)).plan.approachStart
          = (if i < p.approachStart then p.approachStart - 1 else p.approachStart)) ∧
      (removeWaypoint u p (some i)).plan.activeWaypointIndex
        = (if i < p.activeWaypointIndex then p.activeWaypointIndex - 1
           else p.activeWaypointIndex) ∧
      (removeWaypoint u p (some i)).plan.directTo.waypointIndex
        = (if p.directTo.isActive = true ∧ p.directTo.waypointIsInFlightPlan = true
              ∧ i < p.directTo.waypointIndex
           then p.directTo.waypointIndex - 1 else p.directTo.waypointIndex) := by
  refine ⟨by decide!, ?_⟩
  intro u p i h0 hi
  obtain ⟨x, q, hx, hlen, hq, hrem⟩ := removeWaypoint_inRange u p i h0 hi
  have hf := reflow_fields u q
  refine ⟨?_, ?_, ?_⟩
  · intro y hy hcase
    rw [hx] at hy
    simp only [Option.some.injEq] at hy
    subst hy
    have hc : x.type ≠ "A" ∨ (i ≠ 0 ∧ i ≠ Int.ofNat
        ({ p with _waypoints := jsSpliceRemove p._waypoints i } : ManagedFlightPlan)._waypoints.length
          - 1) := by
      rcases hcase with h | ⟨h1, h2⟩
      · exact Or.inl h
      · refine Or.inr ⟨h1, ?_⟩
        simp only [Int.ofNat_eq_coe] at h2 ⊢
        omega
    obtain ⟨q2, hq2, _, _, _, he, ha, hp⟩ :=
      unshift_else { p with _waypoints := jsSpliceRemove p._waypoints i } x i hc
    rw [hq] at hq2
    simp only [Option.some.injEq] at hq2
    subst hq2
    rw [hrem, hf.2.2.2.1, hf.2.2.2.2.1, hf.2.2.2.2.2.1]
    exact ⟨he, ha, hp⟩
  · have ha := unshift_active _ q _ i hq
    rw [hrem, hf.2.2.2.2.2.2.1]
    exact ha
  · have hd := unshift_directTo _ q _ i hq
    rw [hrem, reflow_directTo]
    exact hd

/-! ## Insertion followed by removal -/

/-- C26, as stated: on a plan that satisfies the boundary ordering, with
`enrouteStart = arrivalStart = 3`, an intersection inserted at index `1` and
removed again leaves `arrivalStart` at `4`; an airport inserted at index `0`
and removed again leaves `hasOrigin` false and `departureStart` at `0`, where
the plan had an origin and `departureStart = 1`. -/
theorem removal_does_not_mirror_insertion :
    SegmentsWithinPlan planWithDeparture ∧
    planWithDeparture.arrivalStart = 3 ∧
    (removeWaypoint gridUtils (addWaypoint gridUtils planWithDeparture wpX (some 1)).plan
      (some 1)).plan.arrivalStart = 4 ∧
    ¬ Restores planWithDeparture
      (removeWaypoint gridUtils (addWaypoint gridUtils planWithDeparture wpX (some 1)).plan
        (some 1)).plan ∧
    planWithDeparture._hasOrigin = true ∧ planWithDeparture.departureStart = 1 ∧
    (removeWaypoint gridUtils (addWaypoint gridUtils planWithDeparture wpB (some 0)).plan
      (some 0)).plan._hasOrigin = false ∧
    (removeWaypoint gridUtils (addWaypoint gridUtils planWithDeparture wpB (some 0)).plan
      (some 0)).plan.departureStart = 0 ∧
    ¬ Restores planWithDeparture
      (removeWaypoint gridUtils (addWaypoint gridUtils planWithDeparture wpB (some 0)).plan
        (some 0)).plan := by
  decide!

/-- C26, amended. For a state with `enrouteStart ≤ arrivalStart ≤ approachStart`,
an index `0 ≤ i ≤ length` and a waypoint that is not an airport, or an airport
with `0 < i < length - 1`: when `i` is not before `enrouteStart`, or
`enrouteStart < arrivalStart`, `addWaypoint(w, i)` followed by
`removeWaypoint(i)` returns the four boundaries, the two flags and the active
index to their values. -/
theorem insertion_then_removal_restores (u : AvionicsUtils) (s : ManagedFlightPlan)
    (w : WayPoint) (i : Int)
    (horder1 : s.enrouteStart ≤ s.arrivalStart) (horder2 : s.arrivalStart ≤ s.approachStart)
    (h0 : 0 ≤ i) (hi : i ≤ Int.ofNat s.length)
    (hw : w.type ≠ "A" ∨ (0 < i ∧ i < Int.ofNat s.length - 1))
    (hfloor : s.enrouteStart ≤ i ∨ s.enrouteStart < s.arrivalStart) :
    Restores s (removeWaypoint u (addWaypoint u s w (some i)).plan (some i)).plan ∧
    (removeWaypoint u (addWaypoint u s w (some i)).plan (some i)).plan.departureStart
      = s.departureStart := by
  have hl : s.length = s._waypoints.length := rfl
  simp only [Int.ofNat_eq_coe] at hi hw
  rw [hl] at hi hw
  have hidx : insertionIndex s (some i) = i := by
    unfold insertionIndex
    simp only [Int.ofNat_eq_coe]
    split_ifs <;> omega
  obtain ⟨ws, hadd, hlen, _⟩ := addWaypoint_at u s w (some i)
  have hden := (addWaypoint_denotes u s w (some i) (by rw [hidx]; exact h0) i).2 hidx.symm
  rw [hidx] at hadd hden
  rw [if_neg (lt_irrefl i), getWaypoint_eq_jsIndex] at hden
  have hs := shift_else { s with _waypoints := ws } w i
    (by
      intro h
      rcases hw with h1 | h1
      · exact h1 h.2
      · omega)
    (by
      intro h
      rcases hw with h1 | h1
      · exact h1 h.2.2
      · have h2 := h.1
        simp only [Int.ofNat_eq_coe] at h2
        omega)
  have hsa := shift_active { s with _waypoints := ws } w i
  have hf1 := reflow_fields u (_shiftSegmentIndexes { s with _waypoints := ws } w i)
  rw [← hadd] at hf1
  rw [shift_waypoints] at hf1
  have hlen1 : (addWaypoint u s w (some i)).plan._waypoints.length = s._waypoints.length + 1 := by
    rw [hf1.2.2.2.2.2.2.2]
    exact hlen
  obtain ⟨x, q, hx, hlen2, hq, hrem⟩ := removeWaypoint_inRange u (addWaypoint u s w (some i)).plan
    i h0 (by simp only [Int.ofNat_eq_coe]; omega)
  rw [hx] at hden
  simp only [Option.map_some', Option.some.injEq] at hden
  have htype : x.type = w.type := by
    have h := congrArg WayPoint.type hden
    exact h
  obtain ⟨q2, hq2, ho, hd, hdep, he, ha, hp⟩ :=
    unshift_else
      { (addWaypoint u s w (some i)).plan with
        _waypoints := jsSpliceRemove (addWaypoint u s w (some i)).plan._waypoints i } x i
      (by
        rcases hw with h1 | h1
        · left
          rw [htype]
          exact h1
        · right
          simp only [Int.ofNat_eq_coe]
          omega)
  rw [hq] at hq2
  simp only [Option.some.injEq] at hq2
  subst hq2
  have hact := unshift_active _ q _ i hq
  have hf2 := reflow_fields u q
  simp only [] at ho hd hdep he ha hp hact
  unfold Restores
  rw [hrem, hf2.1, hf2.2.1, hf2.2.2.1, hf2.2.2.2.1, hf2.2.2.2.2.1, hf2.2.2.2.2.2.1,
    hf2.2.2.2.2.2.2.1, ho, hd, hdep, he, ha, hp, hact, hf1.1, hf1.2.1, hf1.2.2.1, hf1.2.2.2.1,
    hf1.2.2.2.2.1, hf1.2.2.2.2.2.1, hf1.2.2.2.2.2.2.1, hs.1, hs.2.1, hs.2.2.1, hs.2.2.2.1,
    hs.2.2.2.2.1, hs.2.2.2.2.2, hsa]
  simp only []
  refine ⟨⟨fun _ => trivial, ?_, ?_, ?_, trivial, trivial, ?_⟩, trivial⟩
  · split_ifs <;> omega
  · split_ifs <;> omega
  · split_ifs <;> omega
  · split_ifs <;> omega

theorem insertion_then_removal_restores_witness :
    (addWaypoint gridUtils planWithDeparture wpX (some 3)).plan.arrivalStart = 4 ∧
    (Restores planWithDeparture
      (removeWaypoint gridUtils (addWaypoint gridUtils planWithDeparture wpX (some 3)).plan
        (some 3)).plan ∧
    (removeWaypoint gridUtils (addWaypoint gridUtils planWithDeparture wpX (some 3)).plan
        (some 3)).plan.departureStart = planWithDeparture.departureStart) :=
  ⟨by decide!,
    insertion_then_removal_restores gridUtils planWithDeparture wpX 3 (by decide) (by decide)
      (by decide) (by decide) (by decide) (by decide)⟩

/-! ## The reflow with an approach selected -/

theorem jsIndex_ofNat_sub {α : Type} (xs : List α) (i k : Nat) (h : k ≤ i) :
    jsIndex xs (Int.ofNat i - Int.ofNat k) = xs.get? (i - k) := by
  unfold jsIndex
  simp only [Int.ofNat_eq_coe]
  rw [if_pos (by omega)]
  congr 1
  omega

theorem selected_target (P : Prop) [Decidable P] (hP : P) (all : List WayPoint) (i : Nat) :
    (if P ∧ Int.ofNat i = Int.ofNat all.length - 2
      then jsIndex all (Int.ofNat i + 1) else jsIndex all (Int.ofNat i))
      = all.get? (if i + 2 = all.length then i + 1 else i) := by
  by_cases h : i + 2 = all.length
  · rw [if_pos h, if_pos ⟨hP, by simp only [Int.ofNat_eq_coe]; omega⟩]
    exact jsIndex_ofNat all (i + 1)
  · rw [if_neg h, if_neg (by simp only [Int.ofNat_eq_coe]; omega)]
    exact jsIndex_ofNat all i

theorem selected_previous (P : Prop) [Decidable P] (hP : P) (all : List WayPoint) (i : Nat)
    (hpos : 0 < i) (hn : 3 ≤ all.length) :
    (if P ∧ Int.ofNat i = Int.ofNat all.length - 1
      then jsIndex all (Int.ofNat i - 2) else jsIndex all (Int.ofNat i - 1))
      = all.get? (if i + 1 = all.length then i - 2 else i - 1) := by
  by_cases h : i + 1 = all.length
  · rw [if_pos h, if_pos ⟨hP, by simp only [Int.ofNat_eq_coe]; omega⟩]
    exact jsIndex_ofNat_sub all i 2 (by omega)
  · rw [if_neg h, if_neg (by simp only [Int.ofNat_eq_coe]; omega)]
    exact jsIndex_ofNat_pred all i hpos

theorem reflowLoop_selected_step (u : AvionicsUtils) (all : List WayPoint) (i : Nat) (c : ℚ)
    (w a t : WayPoint) (rest : List WayPoint) (hpos : 0 < i) (hn : 3 ≤ all.length)
    (ha : all.get? (if i + 1 = all.length then i - 2 else i - 1) = some a)
    (ht : all.get? (if i + 2 = all.length then i + 1 else i) = some t) :
    reflowLoop u true all i c (w :: rest)
      = (({ w with
            bearingInFP :=
              u.computeGreatCircleHeading a.infos.coordinates t.infos.coordinates,
            distanceInFP :=
              u.computeGreatCircleDistance a.infos.coordinates t.infos.coordinates,
            cumulativeDistanceInFP :=
              c + u.computeGreatCircleDistance a.infos.coordinates t.infos.coordinates }
            : WayPoint)
          :: (reflowLoop u true all (i + 1)
                (c + u.computeGreatCircleDistance a.infos.coordinates t.infos.coordinates)
                rest).1,
         (reflowLoop u true all (i + 1)
                (c + u.computeGreatCircleDistance a.infos.coordinates t.infos.coordinates)
                rest).2) := by
  rw [reflowLoop]
  have hpos2 : i > 0 := hpos
  simp only [if_pos hpos2, selected_target _ trivial,
    selected_previous _ trivial all i hpos hn, ha, ht]

theorem reflowLoop_zero_step (u : AvionicsUtils) (sel : Bool) (all : List WayPoint) (c : ℚ)
    (w : WayPoint) (rest : List WayPoint) :
    reflowLoop u sel all 0 c (w :: rest)
      = (w :: (reflowLoop u sel all 1 c rest).1, (reflowLoop u sel all 1 c rest).2) := by
  rw [reflowLoop]
  simp only [gt_iff_lt, lt_self_iff_false, if_false, Nat.zero_add]

theorem drop_cons_facts {α : Type} (all : List α) (i : Nat) (w : α) (rest : List α)
    (hdrop : all.drop i = w :: rest) :
    all.get? i = some w ∧ all.drop (i + 1) = rest ∧ i < all.length := by
  have hi : all.get? i = some w := by
    have h0 : (all.drop i).get? 0 = all.get? (i + 0) := by
      rw [List.get?_eq_getElem?, List.get?_eq_getElem?, List.getElem?_drop]
    rw [hdrop] at h0
    exact h0.symm
  refine ⟨hi, ?_, (List.get?_eq_some.mp hi).1⟩
  rw [← List.tail_drop, hdrop]
  rfl

theorem selected_reads_exist (all : List WayPoint) (i : Nat) (hpos : 0 < i)
    (hi : i < all.length) (hn : 3 ≤ all.length) :
    ∃ a t : WayPoint,
      all.get? (if i + 1 = all.length then i - 2 else i - 1) = some a ∧
      all.get? (if i + 2 = all.length then i + 1 else i) = some t := by
  have h1 : (if i + 1 = all.length then i - 2 else i - 1) < all.length := by
    split_ifs <;> omega
  have h2 : (if i + 2 = all.length then i + 1 else i) < all.length := by
    split_ifs <;> omega
  exact ⟨_, _, List.get?_eq_get h1, List.get?_eq_get h2⟩

theorem reflowLoop_selected (u : AvionicsUtils) (all : List WayPoint)
    (hn : 3 ≤ all.length) :
    ∀ (rest : List WayPoint) (i : Nat) (c : ℚ), all.drop i = rest →
      (reflowLoop u true all i c rest).2 = false ∧
      ∀ (j : Nat) (b : WayPoint), (reflowLoop u true all i c rest).1.get? j = some b →
        0 < i + j →
        ∃ a t : WayPoint,
          all.get? (if i + j + 1 = all.length then i + j - 2 else i + j - 1) = some a ∧
          all.get? (if i + j + 2 = all.length then i + j + 1 else i + j) = some t ∧
          b.distanceInFP
            = u.computeGreatCircleDistance a.infos.coordinates t.infos.coordinates ∧
          b.bearingInFP
            = u.computeGreatCircleHeading a.infos.coordinates t.infos.coordinates := by
  intro rest
  induction rest with
  | nil =>
    intro i c _
    refine ⟨rfl, ?_⟩
    intro j b hb
    exact absurd hb (by simp [reflowLoop])
  | cons w rest ih =>
    intro i c hdrop
    obtain ⟨_, hrest, hlt⟩ := drop_cons_facts all i w rest hdrop
    by_cases hpos : 0 < i
    · obtain ⟨a, t, ha, ht⟩ := selected_reads_exist all i hpos hlt hn
      rw [reflowLoop_selected_step u all i c w a t rest hpos hn ha ht]
      obtain ⟨ih2, ihj⟩ := ih (i + 1)
        (c + u.computeGreatCircleDistance a.infos.coordinates t.infos.coordinates) hrest
      refine ⟨ih2, ?_⟩
      intro j b hb _
      cases j with
      | zero =>
        simp only [List.get?_cons_zero, Option.some.injEq] at hb
        subst hb
        exact ⟨a, t, ha, ht, rfl, rfl⟩
      | succ j =>
        simp only [List.get?_cons_succ] at hb
        have e1 : i + (j + 1) = i + 1 + j := by omega
        rw [e1]
        exact ihj j b hb (by omega)
    · have hzero : i = 0 := by omega
      subst hzero
      rw [reflowLoop_zero_step]
      obtain ⟨ih2, ihj⟩ := ih 1 c hrest
      refine ⟨ih2, ?_⟩
      intro j b hb hj
      cases j with
      | zero => omega
      | succ j =>
        simp only [List.get?_cons_succ] at hb
        have e1 : 0 + (j + 1) = 0 + 1 + j := by omega
        rw [e1]
        exact ihj j b hb (by omega)

theorem reflowLoop_selected_congr (u : AvionicsUtils) (all other : List WayPoint)
    (hn : 3 ≤ all.length) (hlen : other.length = all.length)
    (hco : ∀ k : Nat, k + 2 ≠ all.length →
      (other.get? k).map (fun w => w.infos.coordinates)
        = (all.get? k).map (fun w => w.infos.coordinates)) :
    ∀ (rest rest2 : List WayPoint) (i : Nat) (c : ℚ), all.drop i = rest →
      other.drop i = rest2 → rest2.map WayPoint.derived = rest.map WayPoint.derived →
      (reflowLoop u true other i c rest2).1.map WayPoint.derived
        = (reflowLoop u true all i c rest).1.map WayPoint.derived := by
  intro rest
  induction rest with
  | nil =>
    intro rest2 i c _ _ hmap
    cases rest2 with
    | nil => rfl
    | cons w2 r2 => exact absurd hmap (by simp)
  | cons w rest ih =>
    intro rest2 i c hdrop hdrop2 hmap
    cases rest2 with
    | nil => exact absurd hmap (by simp)
    | cons w2 r2 =>
      simp only [List.map_cons, List.cons.injEq] at hmap
      obtain ⟨_, hrest, hlt⟩ := drop_cons_facts all i w rest hdrop
      obtain ⟨_, hrest2, hlt2⟩ := drop_cons_facts other i w2 r2 hdrop2
      by_cases hpos : 0 < i
      · obtain ⟨a, t, ha, ht⟩ := selected_reads_exist all i hpos hlt hn
        obtain ⟨a2, t2, ha2, ht2⟩ := selected_reads_exist other i hpos hlt2 (by omega)
        have hca : a2.infos.coordinates = a.infos.coordinates := by
          have h := hco (if i + 1 = all.length then i - 2 else i - 1)
            (by split_ifs <;> omega)
          rw [hlen] at ha2
          rw [ha, ha2] at h
          simpa using h
        have hct : t2.infos.coordinates = t.infos.coordinates := by
          have h := hco (if i + 2 = all.length then i + 1 else i)
            (by split_ifs <;> omega)
          rw [hlen] at ht2
          rw [ht, ht2] at h
          simpa using h
        rw [reflowLoop_selected_step u all i c w a t rest hpos hn ha ht,
          reflowLoop_selected_step u other i c w2 a2 t2 r2 hpos (by omega) ha2 ht2,
          hca, hct]
        simp only [List.map_cons, List.cons.injEq]
        refine ⟨rfl, ?_⟩
        exact ih r2 (i + 1) _ hrest hrest2 hmap.2
      · have hzero : i = 0 := by omega
        subst hzero
        rw [reflowLoop_zero_step, reflowLoop_zero_step]
        simp only [List.map_cons, List.cons.injEq]
        exact ⟨hmap.1, ih r2 1 c hrest hrest2 hmap.2⟩

theorem setCoordinatesAt_length (c : LatLongAlt) :
    ∀ (ws : List WayPoint) (k : Nat), (setCoordinatesAt k c ws).length = ws.length := by
  intro ws
  induction ws with
  | nil =>
    intro k
    cases k <;> rfl
  | cons w ws ih =>
    intro k
    cases k with
    | zero => rfl
    | succ k =>
      simp only [setCoordinatesAt, List.length_cons, ih k]

theorem setCoordinatesAt_derived (c : LatLongAlt) :
    ∀ (ws : List WayPoint) (k : Nat),
      (setCoordinatesAt k c ws).map WayPoint.derived = ws.map WayPoint.derived := by
  intro ws
  induction ws with
  | nil =>
    intro k
    cases k <;> rfl
  | cons w ws ih =>
    intro k
    cases k with
    | zero => rfl
    | succ k =>
      simp only [setCoordinatesAt, List.map_cons, ih k]

theorem setCoordinatesAt_get (c : LatLongAlt) :
    ∀ (ws : List WayPoint) (k j : Nat), j ≠ k →
      (setCoordinatesAt k c ws).get? j = ws.get? j := by
  intro ws
  induction ws with
  | nil =>
    intro k j _
    cases k <;> rfl
  | cons w ws ih =>
    intro k j hjk
    cases k with
    | zero =>
      cases j with
      | zero => exact absurd rfl hjk
      | succ j => rfl
    | succ k =>
      cases j with
      | zero => rfl
      | succ j =>
        simp only [setCoordinatesAt, List.get?_cons_succ]
        exact ih k j (by omega)

theorem reflow_selected_returns (u : AvionicsUtils) (p : ManagedFlightPlan)
    (hsel : p.procedureDetails.approachSelected = true) (hn : 3 ≤ p._waypoints.length) :
    _reflowDistances u p
      = Outcome.returned
          { p with _waypoints := (reflowLoop u true p._waypoints 0 0 p._waypoints).1 } := by
  obtain ⟨h2, _⟩ := reflowLoop_selected u p._waypoints hn p._waypoints 0 0 rfl
  unfold _reflowDistances
  simp only [hsel, h2]
  rfl

/-- C27. With an approach selected and at least three waypoints the reflow
returns, the second-to-last and the last waypoint both get the distance and
the bearing from waypoint `n - 3` to waypoint `n - 1`, and the plan with other
coordinates on waypoint `n - 2` gets the same bearing, distance and cumulative
distance on every waypoint. -/
theorem reflow_with_approach_never_reads_the_marker (u : AvionicsUtils)
    (p : ManagedFlightPlan) (hsel : p.procedureDetails.approachSelected = true)
    (hn : 3 ≤ p._waypoints.length) :
    (_reflowDistances u p).hasThrown = false ∧
    (∃ a t b1 b2 : WayPoint,
      p._waypoints.get? (p._waypoints.length - 3) = some a ∧
      p._waypoints.get? (p._waypoints.length - 1) = some t ∧
      (_reflowDistances u p).plan._waypoints.get? (p._waypoints.length - 2) = some b1 ∧
      (_reflowDistances u p).plan._waypoints.get? (p._waypoints.length - 1) = some b2 ∧
      b1.distanceInFP
        = u.computeGreatCircleDistance a.infos.coordinates t.infos.coordinates ∧
      b1.bearingInFP
        = u.computeGreatCircleHeading a.infos.coordinates t.infos.coordinates ∧
      b2.distanceInFP
        = u.computeGreatCircleDistance a.infos.coordinates t.infos.coordinates ∧
      b2.bearingInFP
        = u.computeGreatCircleHeading a.infos.coordinates t.infos.coordinates) ∧
    ∀ c : LatLongAlt,
      (_reflowDistances u (withMarkerAt p c)).hasThrown = false ∧
      (_reflowDistances u (withMarkerAt p c)).plan._waypoints.map WayPoint.derived
        = (_reflowDistances u p).plan._waypoints.map WayPoint.derived := by
  obtain ⟨_, hj⟩ := reflowLoop_selected u p._waypoints hn p._waypoints 0 0 rfl
  have hret := reflow_selected_returns u p hsel hn
  have houtlen : (reflowLoop u true p._waypoints 0 0 p._waypoints).1.length
      = p._waypoints.length := by
    have h := congrArg List.length (reflowLoop_strip u true p._waypoints p._waypoints 0 0)
    simpa using h
  refine ⟨by rw [hret]; rfl, ?_, ?_⟩
  · have h1 : p._waypoints.length - 2
        < (reflowLoop u true p._waypoints 0 0 p._waypoints).1.length := by omega
    have h2 : p._waypoints.length - 1
        < (reflowLoop u true p._waypoints 0 0 p._waypoints).1.length := by omega
    have hb1 := List.get?_eq_get h1
    have hb2 := List.get?_eq_get h2
    obtain ⟨a, t, ha, ht, hd1, hg1⟩ := hj _ _ hb1 (by omega)
    obtain ⟨a2, t2, ha2, ht2, hd2, hg2⟩ := hj _ _ hb2 (by omega)
    simp only [Nat.zero_add] at ha ht ha2 ht2
    rw [if_neg (by omega)] at ha
    rw [if_pos (by omega)] at ht
    rw [if_pos (by omega)] at ha2
    rw [if_neg (by omega)] at ht2
    have e1 : p._waypoints.length - 2 - 1 = p._waypoints.length - 3 := by omega
    have e2 : p._waypoints.length - 2 + 1 = p._waypoints.length - 1 := by omega
    have e3 : p._waypoints.length - 1 - 2 = p._waypoints.length - 3 := by omega
    rw [e1] at ha
    rw [e2] at ht
    rw [e3] at ha2
    rw [ha] at ha2
    rw [ht] at ht2
    simp only [Option.some.injEq] at ha2 ht2
    subst ha2
    subst ht2
    rw [hret]
    exact ⟨a, t, _, _, ha, ht, hb1, hb2, hd1, hg1, hd2, hg2⟩
  · intro c
    have hlen : (setCoordinatesAt (p._waypoints.length - 2) c p._waypoints).length
        = p._waypoints.length := setCoordinatesAt_length c _ _
    have hret2 := reflow_selected_returns u (withMarkerAt p c) hsel
      (by
        show 3 ≤ (setCoordinatesAt (p._waypoints.length - 2) c p._waypoints).length
        omega)
    have hcongr := reflowLoop_selected_congr u p._waypoints
      (setCoordinatesAt (p._waypoints.length - 2) c p._waypoints) hn hlen
      (by
        intro k hk
        rw [setCoordinatesAt_get c _ _ k (by omega)])
      p._waypoints (setCoordinatesAt (p._waypoints.length - 2) c p._waypoints) 0 0 rfl rfl
      (setCoordinatesAt_derived c _ _)
    rw [hret2, hret]
    exact ⟨rfl, hcongr⟩

theorem reflow_with_approach_never_reads_the_marker_witness :
    (_reflowDistances gridUtils planWithApproach).plan._waypoints.map WayPoint.derived
      = [(0, 0, 0), (0, 1, 1), (0, 3, 4), (0, 3, 7)] ∧
    ((_reflowDistances gridUtils planWithApproach).hasThrown = false ∧
    (∃ a t b1 b2 : WayPoint,
      planWithApproach._waypoints.get? (planWithApproach._waypoints.length - 3) = some a ∧
      planWithApproach._waypoints.get? (planWithApproach._waypoints.length - 1) = some t ∧
      (_reflowDistances gridUtils planWithApproach).plan._waypoints.get?
        (planWithApproach._waypoints.length - 2) = some b1 ∧
      (_reflowDistances gridUtils planWithApproach).plan._waypoints.get?
        (planWithApproach._waypoints.length - 1) = some b2 ∧
      b1.distanceInFP
        = gridUtils.computeGreatCircleDistance a.infos.coordinates t.infos.coordinates ∧
      b1.bearingInFP
        = gridUtils.computeGreatCircleHeading a.infos.coordinates t.infos.coordinates ∧
      b2.distanceInFP
        = gridUtils.computeGreatCircleDistance a.infos.coordinates t.infos.coordinates ∧
      b2.bearingInFP
        = gridUtils.computeGreatCircleHeading a.infos.coordinates t.infos.coordinates) ∧
    ∀ c : LatLongAlt,
      (_reflowDistances gridUtils (withMarkerAt planWithApproach c)).hasThrown = false ∧
      (_reflowDistances gridUtils (withMarkerAt planWithApproach c)).plan._waypoints.map
          WayPoint.derived
        = (_reflowDistances gridUtils planWithApproach).plan._waypoints.map
          WayPoint.derived) :=
  ⟨by decide!,
    reflow_with_approach_never_reads_the_marker gridUtils planWithApproach (by decide)
      (by decide)⟩

/-! ## The anchor of the decoder -/

theorem jsIndex_zero {α : Type} (xs : List α) : jsIndex xs 0 = xs.head? := by
  cases xs <;> rfl

/-- C21. The decoder of `buildArrival` and of `buildApproach` is anchored on
the first waypoint of the plan, as that of `buildDeparture` is, not on the
last: on the plan of an origin at `(40, -73)` and a destination at `(42, -71)`
a leg that projects `10` to the north of its previous fix is decoded at
`(50, -73)` by both, where the destination as anchor gives `(52, -71)`. -/
theorem arrival_and_approach_are_anchored_on_the_first_waypoint :
    (planWithArrival._waypoints.map (fun w => w.infos.coordinates)
        = [{ lat := 40, long := -73, alt := 0 }, { lat := 42, long := -71, alt := 0 }] ∧
      buildArrivalLegs planWithArrival = some [legOfKind 4] ∧
      buildApproachLegs planWithArrival = some [legOfKind 4] ∧
      (LegsProcedure.mapOriginRadialForDistance gridSimulator (legOfKind 4)
          planWithArrival._waypoints.getLast?).map (fun w => w.infos.coordinates)
        = some { lat := 52, long := -71, alt := 0 } ∧
      (buildArrival gridSimulator 5 planWithArrival).hasReturned = true ∧
      (buildArrival gridSimulator 5 planWithArrival).plan._waypoints.map
          (fun w => w.infos.coordinates)
        = [{ lat := 40, long := -73, alt := 0 }, { lat := 42, long := -71, alt := 0 },
           { lat := 50, long := -73, alt := 0 }] ∧
      (buildApproach gridSimulator 5 planWithArrival).hasReturned = true ∧
      (buildApproach gridSimulator 5 planWithArrival).plan._waypoints.map
          (fun w => w.infos.coordinates)
        = [{ lat := 40, long := -73, alt := 0 }, { lat := 42, long := -71, alt := 0 },
           { lat := 50, long := -73, alt := 0 }]) ∧
    ∀ (sim : Simulator) (fuel : Nat) (p q : ManagedFlightPlan) (legs : List ProcedureLeg),
      (buildArrivalLegs p = some legs →
        removeArrivalSegment sim.utils fuel p = BuildResult.returned q →
        buildArrival sim fuel p
          = insertProcedure sim fuel fuel (LegsProcedure.new legs q._waypoints.head?)
              q.arrivalStart q) ∧
      (buildApproachLegs p = some legs →
        removeApproachSegment sim.utils fuel p = BuildResult.returned q →
        buildApproach sim fuel p
          = insertProcedure sim fuel fuel (LegsProcedure.new legs q._waypoints.head?)
              q.approachStart q) ∧
      (buildDepartureLegs p = some legs →
        removeDepartureSegment sim.utils fuel p = BuildResult.returned q →
        buildDeparture sim fuel p
          = insertProcedure sim fuel fuel (LegsProcedure.new legs q._waypoints.head?)
              q.departureStart q) := by
  refine ⟨by decide!, ?_⟩
  intro sim fuel p q legs
  refine ⟨?_, ?_, ?_⟩
  · intro hlegs hrem
    unfold buildArrival
    rw [hlegs]
    simp only []
    rw [hrem]
    simp only [jsIndex_zero]
  · intro hlegs hrem
    unfold buildApproach
    rw [hlegs]
    simp only []
    rw [hrem]
    simp only [jsIndex_zero]
  · intro hlegs hrem
    unfold buildDeparture
    rw [hlegs]
    simp only []
    rw [hrem]
    simp only [jsIndex_zero]

/-! ## The sanitized copy -/

mutual
theorem visitObject_clean : ∀ value : JsValue,
    carries ["instrument", "_svgElements"] (visitObject value) = false
  | JsValue.primitive _ => rfl
  | JsValue.string _ => rfl
  | JsValue.null => rfl
  | JsValue.object fields => by
    rw [visitObject, carries]
    exact visitFields_clean fields
  | JsValue.array items => by
    rw [visitObject, carries]
    exact visitItems_clean items
theorem visitFields_clean : ∀ fields : List (String × JsValue),
    carriesFields ["instrument", "_svgElements"] (visitFields fields) = false
  | [] => rfl
  | (key, value) :: rest => by
    rw [visitFields]
    by_cases h : key = "instrument" ∨ key = "_svgElements"
    · rw [if_pos h]
      exact visitFields_clean rest
    · rw [if_neg h, carriesFields, visitObject_clean value, visitFields_clean rest]
      have hk : ["instrument", "_svgElements"].contains key = false := by
        simp only [List.contains_eq_any_beq, List.any_cons, List.any_nil, Bool.or_false,
          Bool.or_eq_false_iff, beq_eq_false_iff_ne, ne_eq]
        exact ⟨fun e => h (Or.inl e), fun e => h (Or.inr e)⟩
      rw [hk]
      rfl
theorem visitItems_clean : ∀ items : List JsValue,
    carriesItems ["instrument", "_svgElements"] (visitItems items) = false
  | [] => rfl
  | value :: rest => by
    rw [visitItems, carriesItems, visitObject_clean value, visitItems_clean rest]
    rfl
end

theorem jsGet_jsDelete (key : String) (fields : List (String × JsValue)) :
    jsGet key (jsDelete key fields) = none := by
  unfold jsGet jsDelete
  rw [Option.map_eq_none', List.find?_eq_none]
  intro field hfield
  have h := (List.mem_filter.mp hfield).2
  simpa using h

theorem jsGet_jsSet_of_ne (key other : String) (value : JsValue)
    (fields : List (String × JsValue)) (h : other ≠ key) (hnone : jsGet key fields = none) :
    jsGet key (jsSet other value fields) = none := by
  unfold jsGet at hnone ⊢
  rw [Option.map_eq_none', List.find?_eq_none] at hnone ⊢
  intro field hfield
  unfold jsSet at hfield
  split_ifs at hfield
  · obtain ⟨old, hold, heq⟩ := List.mem_map.mp hfield
    by_cases hk : old.1 = other
    · rw [if_pos hk] at heq
      rw [← heq]
      simpa using h
    · rw [if_neg hk] at heq
      rw [← heq]
      exact hnone old hold
  · rcases List.mem_append.mp hfield with hin | hin
    · exact hnone field hin
    · simp only [List.mem_singleton] at hin
      rw [hin]
      simpa using h

/-- C22. The copy shares the direct-to state of the plan: a direct-to waypoint
that is not in the plan keeps its `instrument`, and its `infos` keeps
`instrument` and `_svgElements`, so the sanitized copy still carries them. The
plan itself loses `_parentInstrument`, and every waypoint of `_waypoints` is
free of `instrument` and `_svgElements` at every depth. -/
theorem copySanitized_leaves_the_directTo_waypoint_unsanitized :
    (carries unserializableKeys (JsValue.object samplePlanObject) = true ∧
      (copySanitized samplePlanObject).map
          (fun copy => carries unserializableKeys (JsValue.object copy)) = some true ∧
      (copySanitized samplePlanObject).map
          (fun copy => (jsGet "directTo" copy).map (carries unserializableKeys))
        = some (some true) ∧
      (copySanitized samplePlanObject).map
          (fun copy => (jsGet "_waypoints" copy).map (carries unserializableKeys))
        = some (some false)) ∧
    (∀ waypoint : JsValue,
      carries ["instrument", "_svgElements"] (sanitizeWaypoint waypoint) = false) ∧
    ∀ plan copy : List (String × JsValue), copySanitized plan = some copy →
      jsGet "_parentInstrument" copy = none := by
  refine ⟨by decide, ?_, ?_⟩
  · intro waypoint
    unfold sanitizeWaypoint
    exact visitObject_clean _
  · intro plan copy h
    unfold copySanitized at h
    split at h
    · simp only [Option.some.injEq] at h
      rw [← h]
      exact jsGet_jsSet_of_ne _ _ _ _ (by decide) (jsGet_jsDelete _ _)
    · exact absurd h (by simp)

end FlightPlan
